import Mathlib

/-! Metalshade viewer: a verification development.

A shallow embedding of `src/metalshade.cpp` (class `MetalshadeViewer`) and
theorems about it.  Part I holds the definitions, Part II the theorems.

Conventions of the embedding
* C++ `int` fields are `Int`, `size_t` / `uint32_t` fields are `Nat`; where
  unsigned wrap-around matters the reduction `% 2^64` is written out.
* `float` / `double` values live in an arbitrary carrier type with the
  arithmetic operations the code uses; no algebraic law is assumed unless a
  theorem states it as a hypothesis.
* Calls into Vulkan / GLFW / the file system are recorded in logs or answered
  by explicit environment records; a C++ exception is `Except.error`.
-/

namespace Metalshade

/-! ## Part I — definitions -/

/-! ### Vulkan vocabulary used by the frame loop -/

/-- Result codes that `vkAcquireNextImageKHR` can return (vulkan.h). -/
inductive VkResult where
  | VK_SUCCESS
  | VK_NOT_READY
  | VK_TIMEOUT
  | VK_SUBOPTIMAL_KHR
  | VK_ERROR_OUT_OF_HOST_MEMORY
  | VK_ERROR_OUT_OF_DEVICE_MEMORY
  | VK_ERROR_DEVICE_LOST
  | VK_ERROR_OUT_OF_DATE_KHR
  | VK_ERROR_SURFACE_LOST_KHR
  deriving DecidableEq, Repr

/-- The image layouts of vulkan.h (`VkImageLayout`, Vulkan 1.0 and the swapchain
extension). -/
inductive VkImageLayout where
  | UNDEFINED
  | GENERAL
  | COLOR_ATTACHMENT_OPTIMAL
  | DEPTH_STENCIL_ATTACHMENT_OPTIMAL
  | DEPTH_STENCIL_READ_ONLY_OPTIMAL
  | SHADER_READ_ONLY_OPTIMAL
  | TRANSFER_SRC_OPTIMAL
  | TRANSFER_DST_OPTIMAL
  | PREINITIALIZED
  | PRESENT_SRC_KHR
  deriving DecidableEq, Repr

/-- Access masks named in the source; `NONE` is the literal `0`. -/
inductive VkAccess where
  | NONE
  | SHADER_READ
  | COLOR_ATTACHMENT_WRITE
  | TRANSFER_READ
  | TRANSFER_WRITE
  deriving DecidableEq, Repr

/-- Pipeline stages named in the source. -/
inductive VkStage where
  | TOP_OF_PIPE
  | FRAGMENT_SHADER
  | COLOR_ATTACHMENT_OUTPUT
  | TRANSFER
  | BOTTOM_OF_PIPE
  deriving DecidableEq, Repr

/-- Blit filters. -/
inductive VkFilter where
  | NEAREST
  | LINEAR
  deriving DecidableEq, Repr

/-- The images a recorded command can name: `feedbackImages[i]` (indexed by a
C++ `int`), `swapchainImages[k]`, and the static texture. -/
inductive Image where
  | feedback (i : Int)
  | swapchain (k : Nat)
  | texture
  deriving DecidableEq, Repr

/-- One `VkImageMemoryBarrier` as filled in by the source. -/
structure ImageBarrier where
  oldLayout : VkImageLayout
  newLayout : VkImageLayout
  image : Image
  srcAccessMask : VkAccess
  dstAccessMask : VkAccess
  deriving DecidableEq, Repr

/-- A 3-D offset of a blit region. -/
structure Offset3D where
  x : Int
  y : Int
  z : Int
  deriving DecidableEq, Repr

/-- Commands recorded into a command buffer by `recordCommandBuffer`. -/
inductive Cmd where
  | pipelineBarrier (srcStage dstStage : VkStage) (barriers : List ImageBarrier)
  | beginRenderPass (framebuffer : Int) (extentW extentH : Nat)
  | bindPipeline (pipeline : Nat)
  | bindDescriptorSets (layout : Nat) (set : Nat)
  | draw (vertexCount instanceCount firstVertex firstInstance : Nat)
  | endRenderPass
  | blitImage (src : Image) (srcLayout : VkImageLayout) (dst : Image) (dstLayout : VkImageLayout)
      (srcLo srcHi dstLo dstHi : Offset3D) (filter : VkFilter)
  deriving DecidableEq, Repr

/-- Host-side calls made by `drawFrame`, in the order they are issued. -/
inductive Action where
  | waitForFences (slot : Nat)
  | acquireNextImage (semaphoreSlot : Nat)
  | updateUniformBuffer
  | updateFeedbackDescriptor (set : Nat) (view : Int)
  | resetFences (slot : Nat)
  | resetCommandBuffer (slot : Nat)
  | recordCommandBuffer (slot : Nat) (imageIndex : Nat)
  | queueSubmit (cmdSlot waitSemaphore signalSemaphore fenceSlot : Nat)
  | queuePresent (imageIndex waitSemaphore : Nat)
  deriving DecidableEq, Repr

/-- The constant `MAX_FRAMES_IN_FLIGHT` (line 89). -/
def MAX_FRAMES_IN_FLIGHT : Nat := 2

/-- The fields of `MetalshadeViewer` that the frame loop reads or writes.
`descriptorFeedbackView i` is the index into `feedbackImageViews` that
binding 2 of `descriptorSets[i]` currently references. -/
structure FrameState where
  currentFrame : Nat
  currentFeedbackBuffer : Int
  descriptorFeedbackView : Nat → Int
  commandBuffers : Nat → List Cmd
  graphicsPipeline : Nat
  pipelineLayout : Nat
  swapchainExtentWidth : Nat
  swapchainExtentHeight : Nat
  log : List Action

/-- What the outside world answers during one `drawFrame` call. -/
structure FrameEnv where
  acquireResult : VkResult
  imageIndex : Nat
  beginCommandBufferOk : Bool
  endCommandBufferOk : Bool
  queueSubmitOk : Bool

/-- The loop of `createDescriptorSets` (lines 1606-1650) restricted to binding 2:
every one of the `MAX_FRAMES_IN_FLIGHT` sets gets `feedbackImageViews[0]`. -/
def createDescriptorSets (s : FrameState) : FrameState :=
  { s with descriptorFeedbackView := fun i =>
      if i < MAX_FRAMES_IN_FLIGHT then 0 else s.descriptorFeedbackView i }

/-- The state after `initVulkan`: field initialisers of lines 88 and 105, then
`createDescriptorSets`; the command buffers are allocated empty. -/
def initFrameState (pipeline layout width height : Nat) : FrameState :=
  createDescriptorSets
    { currentFrame := 0
      currentFeedbackBuffer := 0
      descriptorFeedbackView := fun _ => 0
      commandBuffers := fun _ => []
      graphicsPipeline := pipeline
      pipelineLayout := layout
      swapchainExtentWidth := width
      swapchainExtentHeight := height
      log := [] }

/-- Line 1696: `int writeBuffer = currentFeedbackBuffer;`. -/
def writeBuffer (s : FrameState) : Int := s.currentFeedbackBuffer

/-- Line 1697 and line 1669: `int readBuffer = 1 - currentFeedbackBuffer;`. -/
def readBuffer (s : FrameState) : Int := 1 - s.currentFeedbackBuffer

/-- `updateFeedbackDescriptor` (lines 1667-1686): binding 2 of
`descriptorSets[currentFrame]` is rewritten to `feedbackImageViews[readBuffer]`. -/
def updateFeedbackDescriptor (s : FrameState) : FrameState :=
  { s with
    descriptorFeedbackView := Function.update s.descriptorFeedbackView s.currentFrame (readBuffer s)
    log := s.log ++ [Action.updateFeedbackDescriptor s.currentFrame (readBuffer s)] }

/-- The cast `(int32_t)x` of a `uint32_t`. -/
def toInt32 (x : Nat) : Int :=
  if x % 2 ^ 32 < 2 ^ 31 then ((x % 2 ^ 32 : Nat) : Int) else ((x % 2 ^ 32 : Nat) : Int) - 2 ^ 32

/-- The command list built by `recordCommandBuffer` (lines 1699-1853) between
`vkBeginCommandBuffer` and `vkEndCommandBuffer`. -/
def recordedCommands (s : FrameState) (imageIndex : Nat) : List Cmd :=
  let w := writeBuffer s
  let ext : Offset3D := ⟨toInt32 s.swapchainExtentWidth, toInt32 s.swapchainExtentHeight, 1⟩
  [ Cmd.pipelineBarrier VkStage.FRAGMENT_SHADER VkStage.COLOR_ATTACHMENT_OUTPUT
      [⟨.SHADER_READ_ONLY_OPTIMAL, .COLOR_ATTACHMENT_OPTIMAL, .feedback w,
        .SHADER_READ, .COLOR_ATTACHMENT_WRITE⟩],
    Cmd.beginRenderPass w s.swapchainExtentWidth s.swapchainExtentHeight,
    Cmd.bindPipeline s.graphicsPipeline,
    Cmd.bindDescriptorSets s.pipelineLayout s.currentFrame,
    Cmd.draw 6 1 0 0,
    Cmd.endRenderPass,
    Cmd.pipelineBarrier VkStage.COLOR_ATTACHMENT_OUTPUT VkStage.FRAGMENT_SHADER
      [⟨.COLOR_ATTACHMENT_OPTIMAL, .SHADER_READ_ONLY_OPTIMAL, .feedback w,
        .COLOR_ATTACHMENT_WRITE, .SHADER_READ⟩],
    Cmd.pipelineBarrier VkStage.FRAGMENT_SHADER VkStage.TRANSFER
      [⟨.SHADER_READ_ONLY_OPTIMAL, .TRANSFER_SRC_OPTIMAL, .feedback w,
        .SHADER_READ, .TRANSFER_READ⟩,
       ⟨.UNDEFINED, .TRANSFER_DST_OPTIMAL, .swapchain imageIndex,
        .NONE, .TRANSFER_WRITE⟩],
    Cmd.blitImage (.feedback w) .TRANSFER_SRC_OPTIMAL (.swapchain imageIndex) .TRANSFER_DST_OPTIMAL
      ⟨0, 0, 0⟩ ext ⟨0, 0, 0⟩ ext VkFilter.NEAREST,
    Cmd.pipelineBarrier VkStage.TRANSFER VkStage.BOTTOM_OF_PIPE
      [⟨.TRANSFER_DST_OPTIMAL, .PRESENT_SRC_KHR, .swapchain imageIndex,
        .TRANSFER_WRITE, .NONE⟩,
       ⟨.TRANSFER_SRC_OPTIMAL, .SHADER_READ_ONLY_OPTIMAL, .feedback w,
        .TRANSFER_READ, .SHADER_READ⟩] ]

/-- An exception leaving `drawFrame`: its message and the viewer state at the
point of the throw. -/
structure FrameException where
  message : String
  state : FrameState

/-- `recordCommandBuffer(commandBuffers[slot], imageIndex)` (lines 1688-1858):
throws when `vkBeginCommandBuffer` or `vkEndCommandBuffer` fails, otherwise the
slot's command buffer holds the recorded commands. -/
def recordCommandBuffer (e : FrameEnv) (slot : Nat) (s : FrameState) :
    Except FrameException FrameState :=
  let s0 := { s with log := s.log ++ [Action.recordCommandBuffer slot e.imageIndex] }
  if !e.beginCommandBufferOk then
    Except.error ⟨"Failed to begin recording command buffer!", s0⟩
  else
    let s1 := { s0 with
      commandBuffers := Function.update s0.commandBuffers slot (recordedCommands s e.imageIndex) }
    if !e.endCommandBufferOk then
      Except.error ⟨"Failed to record command buffer!", s1⟩
    else
      Except.ok s1

/-- Lines 1943-1958 of `drawFrame`: everything up to and including
`vkResetCommandBuffer`, i.e. the state in which recording starts. -/
def drawFramePrepare (e : FrameEnv) (s : FrameState) : Except FrameException FrameState :=
  let s1 := { s with log := s.log ++
    [Action.waitForFences s.currentFrame, Action.acquireNextImage s.currentFrame] }
  if e.acquireResult ≠ VkResult.VK_SUCCESS ∧ e.acquireResult ≠ VkResult.VK_SUBOPTIMAL_KHR then
    Except.error ⟨"Failed to acquire swapchain image!", s1⟩
  else
    let s2 := { s1 with log := s1.log ++ [Action.updateUniformBuffer] }
    let s3 := updateFeedbackDescriptor s2
    Except.ok { s3 with
      commandBuffers := Function.update s3.commandBuffers s3.currentFrame []
      log := s3.log ++ [Action.resetFences s3.currentFrame, Action.resetCommandBuffer s3.currentFrame] }

/-- Lines 1961-1993 of `drawFrame`: submit, present, advance. -/
def drawFrameSubmit (e : FrameEnv) (s : FrameState) : Except FrameException FrameState :=
  let s1 := { s with log := s.log ++
    [Action.queueSubmit s.currentFrame s.currentFrame s.currentFrame s.currentFrame] }
  if !e.queueSubmitOk then
    Except.error ⟨"Failed to submit draw command buffer!", s1⟩
  else
    Except.ok { s1 with
      log := s1.log ++ [Action.queuePresent e.imageIndex s.currentFrame]
      currentFrame := (s.currentFrame + 1) % MAX_FRAMES_IN_FLIGHT
      currentFeedbackBuffer := 1 - s.currentFeedbackBuffer }

/-- `drawFrame` (lines 1942-1994). -/
def drawFrame (e : FrameEnv) (s : FrameState) : Except FrameException FrameState := do
  let s1 ← drawFramePrepare e s
  let s2 ← recordCommandBuffer e s1.currentFrame s1
  drawFrameSubmit e s2

/-- The body of `mainLoop` run once per element of `es`, stopping at the first
exception. -/
def runFrames : List FrameEnv → FrameState → Except FrameException FrameState
  | [], s => Except.ok s
  | e :: es, s =>
    match drawFrame e s with
    | Except.ok s1 => runFrames es s1
    | Except.error ex => Except.error ex

/-- A frame in which no Vulkan call reports failure. -/
def FrameEnv.good (e : FrameEnv) : Prop :=
  (e.acquireResult = VkResult.VK_SUCCESS ∨ e.acquireResult = VkResult.VK_SUBOPTIMAL_KHR) ∧
  e.beginCommandBufferOk = true ∧ e.endCommandBufferOk = true ∧ e.queueSubmitOk = true

/-- The framebuffer index of the first `beginRenderPass` in a command list. -/
def renderTarget : List Cmd → Option Int
  | [] => none
  | Cmd.beginRenderPass fb _ _ :: _ => some fb
  | _ :: cs => renderTarget cs

/-- The descriptor set bound by the first `bindDescriptorSets` in a command list. -/
def boundDescriptorSet : List Cmd → Option Nat
  | [] => none
  | Cmd.bindDescriptorSets _ set :: _ => some set
  | _ :: cs => boundDescriptorSet cs

/-- An environment in which the acquire succeeds on swapchain image `k` and
no later call fails. -/
def successEnv (k : Nat) : FrameEnv :=
  { acquireResult := VkResult.VK_SUCCESS
    imageIndex := k
    beginCommandBufferOk := true
    endCommandBufferOk := true
    queueSubmitOk := true }

/-! ### Input callbacks and the uniform block -/

/-- Value of `GLFW_RELEASE` in GLFW/glfw3.h. -/
def GLFW_RELEASE : Int := 0

/-- Value of `GLFW_PRESS` in GLFW/glfw3.h. -/
def GLFW_PRESS : Int := 1

/-- Value of `GLFW_REPEAT` in GLFW/glfw3.h. -/
def GLFW_REPEAT : Int := 2

/-- Value of `GLFW_MOUSE_BUTTON_LEFT` in GLFW/glfw3.h. -/
def GLFW_MOUSE_BUTTON_LEFT : Int := 0

/-- Value of `GLFW_MOUSE_BUTTON_RIGHT` in GLFW/glfw3.h. -/
def GLFW_MOUSE_BUTTON_RIGHT : Int := 1

/-- Value of `GLFW_MOUSE_BUTTON_MIDDLE` in GLFW/glfw3.h. -/
def GLFW_MOUSE_BUTTON_MIDDLE : Int := 2

/-- Value of `GLFW_KEY_ESCAPE` in GLFW/glfw3.h. -/
def GLFW_KEY_ESCAPE : Int := 256

/-- Value of `GLFW_KEY_F` in GLFW/glfw3.h. -/
def GLFW_KEY_F : Int := 70

/-- Value of `GLFW_KEY_F11` in GLFW/glfw3.h. -/
def GLFW_KEY_F11 : Int := 300

/-- Value of `GLFW_KEY_LEFT` in GLFW/glfw3.h. -/
def GLFW_KEY_LEFT : Int := 263

/-- Value of `GLFW_KEY_RIGHT` in GLFW/glfw3.h. -/
def GLFW_KEY_RIGHT : Int := 262

/-- Value of `GLFW_KEY_R` in GLFW/glfw3.h. -/
def GLFW_KEY_R : Int := 82

/-- Value of `GLFW_KEY_EQUAL` in GLFW/glfw3.h. -/
def GLFW_KEY_EQUAL : Int := 61

/-- Value of `GLFW_KEY_KP_ADD` in GLFW/glfw3.h. -/
def GLFW_KEY_KP_ADD : Int := 334

/-- Value of `GLFW_KEY_MINUS` in GLFW/glfw3.h. -/
def GLFW_KEY_MINUS : Int := 45

/-- Value of `GLFW_KEY_KP_SUBTRACT` in GLFW/glfw3.h. -/
def GLFW_KEY_KP_SUBTRACT : Int := 333

/-- The conversions to `float` that the code performs: `static_cast<float>` of
a `double`, of a `uint32_t` and of an `int`. -/
structure FloatCast (D F : Type) where
  ofDouble : D → F
  ofUInt32 : Nat → F
  ofInt : Int → F

/-- The input fields of `MetalshadeViewer` (lines 117-129) together with the
function-local `static float lastTime` of `updateUniformBuffer` (line 1884).
`D` stands for `double`, `F` for `float`. -/
structure InputState (D F : Type) where
  mouseX : D
  mouseY : D
  mouseClickX : D
  mouseClickY : D
  mouseLeftPressed : Bool
  mouseRightPressed : Bool
  mouseMiddlePressed : Bool
  mouseButton4Pressed : Bool
  mouseButton5Pressed : Bool
  buttonPressDuration : Fin 5 → F
  scrollX : F
  scrollY : F
  lastTime : F

/-- The field initialisers of lines 118-129 and of line 1884. -/
def initInputState (D F : Type) [Zero D] [Zero F] : InputState D F :=
  { mouseX := 0
    mouseY := 0
    mouseClickX := 0
    mouseClickY := 0
    mouseLeftPressed := false
    mouseRightPressed := false
    mouseMiddlePressed := false
    mouseButton4Pressed := false
    mouseButton5Pressed := false
    buttonPressDuration := fun _ => 0
    scrollX := 0
    scrollY := 0
    lastTime := 0 }

/-- The pressed flag that belongs to `buttonPressDuration[i]`. -/
def pressedFlag {D F : Type} (s : InputState D F) (i : Fin 5) : Bool :=
  match i with
  | 0 => s.mouseLeftPressed
  | 1 => s.mouseRightPressed
  | 2 => s.mouseMiddlePressed
  | 3 => s.mouseButton4Pressed
  | 4 => s.mouseButton5Pressed

/-- What a key press asks of the rest of the viewer. -/
inductive KeyCommand where
  | setWindowShouldClose
  | toggleFullscreen
  | switchShader (delta : Int)
  deriving DecidableEq, Repr

/-- `keyCallback` (lines 138-163) on the input fields; the second component is
the call it makes on the viewer, if any. -/
def keyCallback {D F : Type} [Add F] [Sub F] [Zero F] [One F]
    (key action : Int) (s : InputState D F) : InputState D F × Option KeyCommand :=
  if action = GLFW_PRESS then
    if key = GLFW_KEY_ESCAPE then (s, some KeyCommand.setWindowShouldClose)
    else if key = GLFW_KEY_F ∨ key = GLFW_KEY_F11 then (s, some KeyCommand.toggleFullscreen)
    else if key = GLFW_KEY_LEFT then (s, some (KeyCommand.switchShader (-1)))
    else if key = GLFW_KEY_RIGHT then (s, some (KeyCommand.switchShader 1))
    else if key = GLFW_KEY_R then ({ s with scrollX := 0, scrollY := 0 }, none)
    else if key = GLFW_KEY_EQUAL ∨ key = GLFW_KEY_KP_ADD then
      ({ s with scrollY := s.scrollY + 1 }, none)
    else if key = GLFW_KEY_MINUS ∨ key = GLFW_KEY_KP_SUBTRACT then
      ({ s with scrollY := s.scrollY - 1 }, none)
    else (s, none)
  else (s, none)

/-- `mouseButtonCallback` (lines 165-191). -/
def mouseButtonCallback {D F : Type} [Zero F]
    (button action : Int) (s : InputState D F) : InputState D F :=
  let pressed : Bool := decide (action = GLFW_PRESS)
  if button = GLFW_MOUSE_BUTTON_LEFT then
    let s1 := { s with mouseLeftPressed := pressed }
    if pressed then
      { s1 with
        mouseClickX := s1.mouseX
        mouseClickY := s1.mouseY
        buttonPressDuration := Function.update s1.buttonPressDuration 0 0 }
    else s1
  else if button = GLFW_MOUSE_BUTTON_RIGHT then
    let s1 := { s with mouseRightPressed := pressed }
    if pressed then { s1 with buttonPressDuration := Function.update s1.buttonPressDuration 1 0 }
    else s1
  else if button = GLFW_MOUSE_BUTTON_MIDDLE then
    let s1 := { s with mouseMiddlePressed := pressed }
    if pressed then { s1 with buttonPressDuration := Function.update s1.buttonPressDuration 2 0 }
    else s1
  else if button = 3 then
    let s1 := { s with mouseButton4Pressed := pressed }
    if pressed then { s1 with buttonPressDuration := Function.update s1.buttonPressDuration 3 0 }
    else s1
  else if button = 4 then
    let s1 := { s with mouseButton5Pressed := pressed }
    if pressed then { s1 with buttonPressDuration := Function.update s1.buttonPressDuration 4 0 }
    else s1
  else s

/-- `cursorPosCallback` (lines 193-197). -/
def cursorPosCallback {D F : Type} (xpos ypos : D) (s : InputState D F) : InputState D F :=
  { s with mouseX := xpos, mouseY := ypos }

/-- `scrollCallback` (lines 199-204). -/
def scrollCallback {D F : Type} [Add F] (c : FloatCast D F)
    (xoffset yoffset : D) (s : InputState D F) : InputState D F :=
  { s with
    scrollX := s.scrollX + c.ofDouble xoffset
    scrollY := s.scrollY + c.ofDouble yoffset }

/-- The value written to the mapped uniform memory, field by field (the struct
of lines 23-34). -/
structure UniformBufferObject (F : Type) where
  iResolution : F × F × F
  iTime : F
  iMouse : F × F × F × F
  iScroll : F × F
  iButtonLeft : F
  iButtonRight : F
  iButtonMiddle : F
  iButton4 : F
  iButton5 : F

/-- One statement `if (flag) buttonPressDuration[i] += deltaTime;` (lines 1926-1930). -/
def addWhilePressed {F : Type} [Add F] (flag : Bool) (i : Fin 5) (deltaTime : F)
    (d : Fin 5 → F) : Fin 5 → F :=
  if flag then Function.update d i (d i + deltaTime) else d

/-- `updateUniformBuffer` (lines 1881-1940).  `time` is the clock reading of
line 1883, `windowWidth`/`windowHeight` the answer of `glfwGetWindowSize`;
the result is the new field values and the block copied by `memcpy`. -/
def updateUniformBuffer {D F : Type} [Add F] [Sub F] [Mul F] [Div F] [Neg F] [One F]
    (c : FloatCast D F) (extentWidth extentHeight : Nat)
    (time : F) (windowWidth windowHeight : Int) (s : InputState D F) :
    InputState D F × UniformBufferObject F :=
  let deltaTime := time - s.lastTime
  let scaleX := c.ofUInt32 extentWidth / c.ofInt windowWidth
  let scaleY := c.ofUInt32 extentHeight / c.ofInt windowHeight
  let scaledMouseX := c.ofDouble s.mouseX * scaleX
  let scaledMouseY := c.ofDouble s.mouseY * scaleY
  let scaledClickX := c.ofDouble s.mouseClickX * scaleX
  let scaledClickY := c.ofDouble s.mouseClickY * scaleY
  let iMouse : F × F × F × F :=
    if s.mouseLeftPressed then (scaledMouseX, scaledMouseY, scaledClickX, scaledClickY)
    else (scaledMouseX, scaledMouseY, -scaledClickX, -scaledClickY)
  let d0 := addWhilePressed s.mouseLeftPressed 0 deltaTime s.buttonPressDuration
  let d1 := addWhilePressed s.mouseRightPressed 1 deltaTime d0
  let d2 := addWhilePressed s.mouseMiddlePressed 2 deltaTime d1
  let d3 := addWhilePressed s.mouseButton4Pressed 3 deltaTime d2
  let d4 := addWhilePressed s.mouseButton5Pressed 4 deltaTime d3
  ({ s with lastTime := time, buttonPressDuration := d4 },
   { iResolution := (c.ofUInt32 extentWidth, c.ofUInt32 extentHeight, 1)
     iTime := time
     iMouse := iMouse
     iScroll := (s.scrollX, s.scrollY)
     iButtonLeft := d4 0
     iButtonRight := d4 1
     iButtonMiddle := d4 2
     iButton4 := d4 3
     iButton5 := d4 4 })

/-- The hold-duration field of the uniform block that belongs to button `i`. -/
def UniformBufferObject.button {F : Type} (u : UniformBufferObject F) (i : Fin 5) : F :=
  match i with
  | 0 => u.iButtonLeft
  | 1 => u.iButtonRight
  | 2 => u.iButtonMiddle
  | 3 => u.iButton4
  | 4 => u.iButton5

/-- What `glfwPollEvents` can deliver to the four callbacks. -/
inductive Event (D : Type) where
  | key (key action : Int)
  | mouseButton (button action : Int)
  | cursorPos (xpos ypos : D)
  | scroll (xoffset yoffset : D)

/-- One thing that happens to the input state in `mainLoop`: a callback, or
the `updateUniformBuffer` of a frame rendered at clock reading `time`. -/
inductive Step (D F : Type) where
  | event (e : Event D)
  | frame (time : F) (windowWidth windowHeight : Int)

/-- Dispatch of one event to its callback. -/
def handleEvent {D F : Type} [Add F] [Sub F] [Zero F] [One F] (c : FloatCast D F)
    (e : Event D) (s : InputState D F) : InputState D F :=
  match e with
  | Event.key k a => (keyCallback k a s).1
  | Event.mouseButton b a => mouseButtonCallback b a s
  | Event.cursorPos x y => cursorPosCallback x y s
  | Event.scroll x y => scrollCallback c x y s

/-- One step of the input state. -/
def stepInput {D F : Type} [Add F] [Sub F] [Mul F] [Div F] [Neg F] [Zero F] [One F]
    (c : FloatCast D F) (extentWidth extentHeight : Nat)
    (st : Step D F) (s : InputState D F) : InputState D F :=
  match st with
  | Step.event e => handleEvent c e s
  | Step.frame t w h => (updateUniformBuffer c extentWidth extentHeight t w h s).1

/-- The input state after a sequence of steps. -/
def runInput {D F : Type} [Add F] [Sub F] [Mul F] [Div F] [Neg F] [Zero F] [One F]
    (c : FloatCast D F) (extentWidth extentHeight : Nat) :
    List (Step D F) → InputState D F → InputState D F
  | [], s => s
  | st :: rest, s => runInput c extentWidth extentHeight rest (stepInput c extentWidth extentHeight st s)

/-- Exact arithmetic on rationals as an instance of the conversions. -/
def ratCast : FloatCast ℚ ℚ :=
  { ofDouble := fun x => x
    ofUInt32 := fun n => (n : ℚ)
    ofInt := fun z => (z : ℚ) }

/-- The cursor position after a sequence of steps that started at `p`: the
arguments of the last `cursorPos` event, or `p` if there was none. -/
def lastCursor {D F : Type} : List (Step D F) → D × D → D × D
  | [], p => p
  | Step.event (Event.cursorPos x y) :: rest, _ => lastCursor rest (x, y)
  | _ :: rest, p => lastCursor rest p

/-- The clock readings of the frames in a sequence of steps, in order. -/
def frameTimes {D F : Type} : List (Step D F) → List F
  | [] => []
  | Step.frame t _ _ :: rest => t :: frameTimes rest
  | Step.event _ :: rest => frameTimes rest

/-- The value of `lastTime` after a sequence of steps that started with
`lastTime = l`: the clock reading of the last frame, or `l` without a frame. -/
def lastFrameTime {D F : Type} : List (Step D F) → F → F
  | [], l => l
  | Step.frame t _ _ :: rest, _ => lastFrameTime rest t
  | Step.event _ :: rest, l => lastFrameTime rest l

/-- The statement `buttonPressDuration[i] += deltaTime` repeated over frames at
the clock readings `ts`, starting from duration `d` and `lastTime = l`. -/
def accumulate {F : Type} [Add F] [Sub F] : F → F → List F → F
  | d, _, [] => d
  | d, l, t :: ts => accumulate (d + (t - l)) t ts

/-- A step of `mainLoop` with the wall-clock time at which it happens.  The
callbacks receive no time, so the stamp of an event never reaches the code. -/
inductive TimedStep (D F : Type) where
  | event (time : F) (e : Event D)
  | frame (time : F) (windowWidth windowHeight : Int)

/-- The wall-clock time of a timed step. -/
def TimedStep.time {D F : Type} : TimedStep D F → F
  | TimedStep.event t _ => t
  | TimedStep.frame t _ _ => t

/-- What the code sees of a timed step. -/
def TimedStep.untimed {D F : Type} : TimedStep D F → Step D F
  | TimedStep.event _ e => Step.event e
  | TimedStep.frame t w h => Step.frame t w h

/-- The time of the last press event of button `i` in a timed trace. -/
def pressTime {D F : Type} (i : Fin 5) : List (TimedStep D F) → Option F
  | [] => none
  | TimedStep.event t (Event.mouseButton b a) :: rest =>
    match pressTime i rest with
    | some t1 => some t1
    | none => if b = ((i : Nat) : Int) ∧ a = GLFW_PRESS then some t else none
  | _ :: rest => pressTime i rest

/-- The time of the last release event of button `i` in a timed trace. -/
def releaseTime {D F : Type} (i : Fin 5) : List (TimedStep D F) → Option F
  | [] => none
  | TimedStep.event t (Event.mouseButton b a) :: rest =>
    match releaseTime i rest with
    | some t1 => some t1
    | none => if b = ((i : Nat) : Int) ∧ a = GLFW_RELEASE then some t else none
  | _ :: rest => releaseTime i rest

/-- The hold-duration of button `i` in the uniform block written by the last
frame of a sequence of steps (`u` when there is no frame). -/
def lastWrittenDuration {D F : Type} [Add F] [Sub F] [Mul F] [Div F] [Neg F] [Zero F] [One F]
    (c : FloatCast D F) (extentWidth extentHeight : Nat) (i : Fin 5) :
    List (Step D F) → InputState D F → Option F → Option F
  | [], _, u => u
  | Step.frame t w h :: rest, s, _ =>
    lastWrittenDuration c extentWidth extentHeight i rest
      (updateUniformBuffer c extentWidth extentHeight t w h s).1
      (some ((updateUniformBuffer c extentWidth extentHeight t w h s).2.button i))
  | Step.event e :: rest, s, u =>
    lastWrittenDuration c extentWidth extentHeight i rest (handleEvent c e s) u

/-- Frames at 1/4, 3/4 and 1 s; left button pressed at 1/2 s, released at 7/8 s. -/
def holdTraceA : List (TimedStep ℚ ℚ) :=
  [ TimedStep.frame (1 / 4) 1280 720,
    TimedStep.event (1 / 2) (Event.mouseButton GLFW_MOUSE_BUTTON_LEFT GLFW_PRESS),
    TimedStep.frame (3 / 4) 1280 720,
    TimedStep.event (7 / 8) (Event.mouseButton GLFW_MOUSE_BUTTON_LEFT GLFW_RELEASE),
    TimedStep.frame 1 1280 720 ]

/-- The example of the specification, press at 0 s and release at 1/2 s, with
frames at 1/4 s and 3/4 s. -/
def holdTraceB : List (TimedStep ℚ ℚ) :=
  [ TimedStep.event 0 (Event.mouseButton GLFW_MOUSE_BUTTON_LEFT GLFW_PRESS),
    TimedStep.frame (1 / 4) 1280 720,
    TimedStep.event (1 / 2) (Event.mouseButton GLFW_MOUSE_BUTTON_LEFT GLFW_RELEASE),
    TimedStep.frame (3 / 4) 1280 720 ]

/-- The reset command: a press of the R key. -/
def isResetStep {D F : Type} : Step D F → Bool
  | Step.event (Event.key k a) => decide (a = GLFW_PRESS ∧ k = GLFW_KEY_R)
  | _ => false

/-- The steps after the most recent reset command, or all of them if there
was none. -/
def sinceLastReset {D F : Type} : List (Step D F) → List (Step D F)
  | [] => []
  | st :: rest =>
    if rest.any isResetStep then sinceLastReset rest
    else if isResetStep st then rest
    else st :: rest

/-- The scroll accumulator as the claim describes it: a scroll event adds its
offsets, nothing else contributes. -/
def scrollEventStep {D F : Type} [Add F] (c : FloatCast D F) : F × F → Step D F → F × F
  | (sx, sy), Step.event (Event.scroll x y) => (sx + c.ofDouble x, sy + c.ofDouble y)
  | p, _ => p

/-- The scroll accumulator as amended: a scroll event adds its offsets, a press
of `=` or keypad `+` adds 1 to the y axis, a press of `-` or keypad `-`
subtracts 1 from it. -/
def scrollStep {D F : Type} [Add F] [Sub F] [One F] (c : FloatCast D F) :
    F × F → Step D F → F × F
  | (sx, sy), Step.event (Event.scroll x y) => (sx + c.ofDouble x, sy + c.ofDouble y)
  | (sx, sy), Step.event (Event.key k a) =>
    if a = GLFW_PRESS ∧ (k = GLFW_KEY_EQUAL ∨ k = GLFW_KEY_KP_ADD) then (sx, sy + 1)
    else if a = GLFW_PRESS ∧ (k = GLFW_KEY_MINUS ∨ k = GLFW_KEY_KP_SUBTRACT) then (sx, sy - 1)
    else (sx, sy)
  | p, _ => p

/-! ### Layout of the host-side uniform struct -/

/-- The members of `struct UniformBufferObject` (lines 23-34). -/
inductive UboField where
  | iResolution
  | iTime
  | iMouse
  | iScroll
  | iButtonLeft
  | iButtonRight
  | iButtonMiddle
  | iButton4
  | iButton5
  deriving DecidableEq, Repr

/-- One member declaration: element size in bytes, number of elements and the
value of its `alignas`. -/
structure MemberDecl where
  field : UboField
  elemSize : Nat
  count : Nat
  alignas : Nat
  deriving DecidableEq, Repr

/-- `sizeof(float)`, also its natural alignment. -/
def sizeofFloat : Nat := 4

/-- The declarations of lines 24-33, in order. -/
def uniformBufferObjectDecl : List MemberDecl :=
  [ ⟨UboField.iResolution, sizeofFloat, 3, 16⟩,
    ⟨UboField.iTime, sizeofFloat, 1, 4⟩,
    ⟨UboField.iMouse, sizeofFloat, 4, 16⟩,
    ⟨UboField.iScroll, sizeofFloat, 2, 8⟩,
    ⟨UboField.iButtonLeft, sizeofFloat, 1, 4⟩,
    ⟨UboField.iButtonRight, sizeofFloat, 1, 4⟩,
    ⟨UboField.iButtonMiddle, sizeofFloat, 1, 4⟩,
    ⟨UboField.iButton4, sizeofFloat, 1, 4⟩,
    ⟨UboField.iButton5, sizeofFloat, 1, 4⟩ ]

/-- The alignment of a member: its `alignas`, never below the natural
alignment of the element type. -/
def MemberDecl.align (m : MemberDecl) : Nat := max m.alignas m.elemSize

/-- The size of a member in bytes. -/
def MemberDecl.size (m : MemberDecl) : Nat := m.elemSize * m.count

/-- The least multiple of `a` that is at least `off`. -/
def alignUp (off a : Nat) : Nat := (off + a - 1) / a * a

/-- C++ layout of a standard-layout struct: each member goes to the first
offset at or after the end of the previous member that is a multiple of its
alignment. -/
def layoutFrom (off : Nat) : List MemberDecl → List (UboField × Nat)
  | [] => []
  | m :: rest => (m.field, alignUp off m.align) :: layoutFrom (alignUp off m.align + m.size) rest

/-- The end of the last member when the members are laid out from `off`. -/
def layoutEnd (off : Nat) : List MemberDecl → Nat
  | [] => off
  | m :: rest => layoutEnd (alignUp off m.align + m.size) rest

/-- The alignment of the struct: the largest member alignment. -/
def structAlign (ms : List MemberDecl) : Nat := (ms.map MemberDecl.align).foldl max 1

/-- The value of `sizeof`: the end of the last member rounded up to the struct
alignment. -/
def structSize (ms : List MemberDecl) : Nat := alignUp (layoutEnd 0 ms) (structAlign ms)

/-- The byte offsets of the members of `UniformBufferObject`. -/
def uniformBufferObjectOffsets : List (UboField × Nat) := layoutFrom 0 uniformBufferObjectDecl

/-- The offsets that the interface section of the specification lists. -/
def specifiedOffsets : List (UboField × Nat) :=
  [ (UboField.iResolution, 0), (UboField.iTime, 16), (UboField.iMouse, 32),
    (UboField.iScroll, 48), (UboField.iButtonLeft, 64), (UboField.iButtonRight, 68),
    (UboField.iButtonMiddle, 72), (UboField.iButton4, 76), (UboField.iButton5, 80) ]

/-! ### Shader paths and shader switching

`std::string` is `List Char`. -/

/-- The value `std::string::npos`, the largest `size_t`. -/
def npos : Nat := 2 ^ 64 - 1

/-- `s.find_last_of(chars)`: the index of the last character of `s` that occurs
in `chars`, or `npos`. -/
def find_last_of (s chars : List Char) : Nat :=
  match (s.enum.filter (fun p => decide (p.2 ∈ chars))).getLast? with
  | some p => p.1
  | none => npos

/-- `s.substr(pos, len)` for `pos ≤ s.size()` (the only way the source calls
it): at most `len` characters from index `pos` on. -/
def substr (s : List Char) (pos len : Nat) : List Char := (s.drop pos).take len

/-- `getShaderBaseName` (lines 420-425); the subtraction is the `size_t` one. -/
def getShaderBaseName (path : List Char) : List Char :=
  let lastSlash := find_last_of path "/\\".toList
  let lastDot := find_last_of path ".".toList
  let filename := if lastSlash = npos then path else substr path (lastSlash + 1) npos
  if lastDot = npos then filename
  else substr filename 0
    ((lastDot + 2 ^ 64 - (if lastSlash = npos then 0 else lastSlash + 1)) % 2 ^ 64)

/-- `getShaderDirectory` (lines 427-430). -/
def getShaderDirectory (path : List Char) : List Char :=
  let lastSlash := find_last_of path "/\\".toList
  if lastSlash = npos then ".".toList else substr path 0 lastSlash

/-- `getCompiledSpvPath` (lines 359-363). -/
def getCompiledSpvPath (shaderPath : List Char) : List Char :=
  let baseName := getShaderBaseName shaderPath
  let shaderDir := getShaderDirectory shaderPath
  shaderDir ++ "/".toList ++ baseName ++ ".frag.spv".toList

/-- A shader stage of a pipeline with the file its module is read from. -/
inductive ShaderStage where
  | vertex (spvPath : List Char)
  | geometry (spvPath : List Char)
  | fragment (spvPath : List Char)
  deriving DecidableEq, Repr

/-- Calls that `switchShader` and the functions below it make, in order. -/
inductive ShaderAction where
  | compileAndLoadShader (fragPath : List Char)
  | deviceWaitIdle
  | destroyPipeline (pipeline : Nat)
  | createPipelineLayout (layout : Nat)
  | createGraphicsPipelines (pipeline : Nat) (stages : List ShaderStage)
  deriving DecidableEq, Repr

/-- The calls that touch the device. -/
def ShaderAction.isDeviceAction : ShaderAction → Bool
  | ShaderAction.compileAndLoadShader _ => false
  | _ => true

/-- The handle `VK_NULL_HANDLE`. -/
def VK_NULL_HANDLE : Nat := 0

/-- Shader stage bits of a descriptor binding (`VkShaderStageFlagBits`). -/
inductive VkShaderStageFlag where
  | VERTEX
  | GEOMETRY
  | FRAGMENT
  deriving DecidableEq, Repr

/-- Descriptor types named in the source. -/
inductive VkDescriptorType where
  | UNIFORM_BUFFER
  | COMBINED_IMAGE_SAMPLER
  deriving DecidableEq, Repr

/-- One `VkDescriptorSetLayoutBinding`; `stageFlags` lists the bits that are set. -/
structure DescriptorSetLayoutBinding where
  binding : Nat
  descriptorType : VkDescriptorType
  descriptorCount : Nat
  stageFlags : List VkShaderStageFlag
  deriving DecidableEq, Repr

/-- The fields of `MetalshadeViewer` that shader switching reads or writes,
the set of pipelines and pipeline layouts that exist on the device, and the
log of calls.  `nextHandle` is the handle the next creation returns. -/
structure ShaderState where
  shaderList : List (List Char)
  currentShaderIndex : Int
  currentShaderPath : List Char
  currentTexturePath : List Char
  hasGeometryShader : Bool
  graphicsPipeline : Nat
  pipelineLayout : Nat
  livePipelines : List Nat
  livePipelineLayouts : List Nat
  nextHandle : Nat
  log : List ShaderAction
  descriptorSetLayout : List DescriptorSetLayoutBinding
  deriving DecidableEq, Repr

/-- What one call of `compileAndLoadShader` does as far as the viewer can see:
it stores `texturePath` in `currentTexturePath`; `result = none` is `return
false` (which leaves `hasGeometryShader` alone, lines 630-690), `result = some
g` is `return true` after `hasGeometryShader = g` (lines 692-697). -/
structure CompileResult where
  texturePath : List Char
  result : Option Bool

/-- The answers of the world outside the viewer: the directory scan, the
external converter and compilers, the file system, and the Vulkan driver. -/
structure ShaderEnv where
  scanDirectory : List Char → List (List Char)
  compile : List Char → CompileResult
  fileExists : List Char → Bool
  createShaderModuleOk : List Char → Bool
  createPipelineLayoutOk : Bool
  createGraphicsPipelinesOk : List ShaderStage → Bool

/-- `scanDirectoryForShaders` (lines 316-357): the list becomes the sorted
matches of the directory (none if it cannot be opened) and the index moves to
the first entry equal to `currentShaderPath`, if there is one. -/
def scanDirectoryForShaders (env : ShaderEnv) (directory : List Char) (s : ShaderState) :
    ShaderState :=
  let found := env.scanDirectory directory
  { s with
    shaderList := found
    currentShaderIndex :=
      if s.currentShaderPath ∈ found then (found.indexOf s.currentShaderPath : Int)
      else s.currentShaderIndex }

/-- `compileAndLoadShader` (lines 579-698) as seen by the viewer. -/
def compileAndLoadShader (env : ShaderEnv) (fragPath : List Char) (s : ShaderState) :
    ShaderState × Bool :=
  let r := env.compile fragPath
  let s1 := { s with
    currentTexturePath := r.texturePath
    log := s.log ++ [ShaderAction.compileAndLoadShader fragPath] }
  match r.result with
  | none => (s1, false)
  | some g => ({ s1 with hasGeometryShader := g }, true)

/-- The vector `bindings` that `createDescriptorSetLayout` builds (lines
980-1004) when the flag `hasGeometryShader` has the given value. -/
def descriptorSetLayoutBindings (hasGeometryShader : Bool) : List DescriptorSetLayoutBinding :=
  let uboStageFlags := [VkShaderStageFlag.VERTEX, VkShaderStageFlag.FRAGMENT]
  let uboStageFlags :=
    if hasGeometryShader then uboStageFlags ++ [VkShaderStageFlag.GEOMETRY] else uboStageFlags
  [ ⟨0, VkDescriptorType.UNIFORM_BUFFER, 1, uboStageFlags⟩,
    ⟨1, VkDescriptorType.COMBINED_IMAGE_SAMPLER, 1, [VkShaderStageFlag.FRAGMENT]⟩,
    ⟨2, VkDescriptorType.COMBINED_IMAGE_SAMPLER, 1, [VkShaderStageFlag.FRAGMENT]⟩ ]

/-- `createDescriptorSetLayout` (lines 979-1013) when the driver call succeeds:
`descriptorSetLayout` is created from the bindings. -/
def createDescriptorSetLayout (s : ShaderState) : ShaderState :=
  { s with descriptorSetLayout := descriptorSetLayoutBindings s.hasGeometryShader }

/-- The path of the built-in vertex artifact (line 1043). -/
def defaultVertSpv : List Char := "/opt/3d/metalshade/shaders/example.vert.spv".toList

/-- How far `createGraphicsPipeline` gets. -/
inductive PipelineOutcome where
  | readFileFailed (path : List Char)
  | createShaderModuleFailed (path : List Char)
  | createPipelineLayoutFailed
  | createGraphicsPipelinesFailed (stages : List ShaderStage)
  | created (stages : List ShaderStage)
  deriving DecidableEq, Repr

/-- The control flow of `createGraphicsPipeline` (lines 1028-1171) for the
shader `currentShaderPath` and flag `hasGeometryShader`.  `readFile` throws
exactly when the file cannot be opened, which is what `fileExists` tests. -/
def pipelineOutcome (env : ShaderEnv) (currentShaderPath : List Char) (hasGeometryShader : Bool) :
    PipelineOutcome :=
  let baseName := getShaderBaseName currentShaderPath
  let shaderDir := getShaderDirectory currentShaderPath
  let vertSpv0 := shaderDir ++ "/".toList ++ baseName ++ ".vert.spv".toList
  let fragSpvPath := shaderDir ++ "/".toList ++ baseName ++ ".frag.spv".toList
  let geomSpvPath := shaderDir ++ "/".toList ++ baseName ++ ".geom.spv".toList
  let vertSpvPath := if !env.fileExists vertSpv0 then defaultVertSpv else vertSpv0
  if !env.fileExists vertSpvPath then PipelineOutcome.readFileFailed vertSpvPath
  else if !env.fileExists fragSpvPath then PipelineOutcome.readFileFailed fragSpvPath
  else if !env.createShaderModuleOk vertSpvPath then
    PipelineOutcome.createShaderModuleFailed vertSpvPath
  else if !env.createShaderModuleOk fragSpvPath then
    PipelineOutcome.createShaderModuleFailed fragSpvPath
  else
    let withGeom := hasGeometryShader && env.fileExists geomSpvPath
    if withGeom && !env.createShaderModuleOk geomSpvPath then
      PipelineOutcome.createShaderModuleFailed geomSpvPath
    else
      let shaderStages :=
        if withGeom then
          [ShaderStage.vertex vertSpvPath, ShaderStage.geometry geomSpvPath,
           ShaderStage.fragment fragSpvPath]
        else [ShaderStage.vertex vertSpvPath, ShaderStage.fragment fragSpvPath]
      if !env.createPipelineLayoutOk then PipelineOutcome.createPipelineLayoutFailed
      else if !env.createGraphicsPipelinesOk shaderStages then
        PipelineOutcome.createGraphicsPipelinesFailed shaderStages
      else PipelineOutcome.created shaderStages

/-- The effect of a successful `vkCreatePipelineLayout(..., &pipelineLayout)`
(line 1144). -/
def storePipelineLayout (s : ShaderState) : ShaderState :=
  { s with
    pipelineLayout := s.nextHandle
    livePipelineLayouts := s.nextHandle :: s.livePipelineLayouts
    nextHandle := s.nextHandle + 1
    log := s.log ++ [ShaderAction.createPipelineLayout s.nextHandle] }

/-- `createGraphicsPipeline` (lines 1028-1171): the state when it returns or
throws, and the message of the exception if it throws.  A failed
`vkCreateGraphicsPipelines` writes `VK_NULL_HANDLE` to `graphicsPipeline`. -/
def createGraphicsPipeline (env : ShaderEnv) (s : ShaderState) : ShaderState × Option String :=
  match pipelineOutcome env s.currentShaderPath s.hasGeometryShader with
  | PipelineOutcome.readFileFailed _ => (s, some "Failed to open file")
  | PipelineOutcome.createShaderModuleFailed _ => (s, some "Failed to create shader module!")
  | PipelineOutcome.createPipelineLayoutFailed => (s, some "Failed to create pipeline layout!")
  | PipelineOutcome.createGraphicsPipelinesFailed _ =>
    ({ storePipelineLayout s with graphicsPipeline := VK_NULL_HANDLE },
      some "Failed to create graphics pipeline!")
  | PipelineOutcome.created stages =>
    let s1 := storePipelineLayout s
    ({ s1 with
       graphicsPipeline := s1.nextHandle
       livePipelines := s1.nextHandle :: s1.livePipelines
       nextHandle := s1.nextHandle + 1
       log := s1.log ++ [ShaderAction.createGraphicsPipelines s1.nextHandle stages] }, none)

/-- `recreatePipeline` (lines 700-706). -/
def recreatePipeline (env : ShaderEnv) (s : ShaderState) : ShaderState × Option String :=
  createGraphicsPipeline env
    { s with
      livePipelines := s.livePipelines.erase s.graphicsPipeline
      log := s.log ++ [ShaderAction.destroyPipeline s.graphicsPipeline] }

/-- The index update of line 384: `currentShaderIndex + delta` is an `int`,
converted to `size_t` for the addition of `shaderList.size()`; sum and
remainder are computed modulo `2^64`. -/
def nextShaderIndex (currentShaderIndex delta : Int) (size : Nat) : Int :=
  (((currentShaderIndex + delta) % 2 ^ 64 + (size : Int)) % 2 ^ 64) % (size : Int)

/-- The `while (attempts < maxAttempts)` loop of lines 383-415, by the number
of attempts left (`attempts` grows by one in every iteration that does not
return).  The result also tells whether the loop returned with success. -/
def switchShaderLoop (env : ShaderEnv) (delta : Int) (currentSpvPath : List Char) :
    Nat → ShaderState → ShaderState × Bool
  | 0, s => (s, false)
  | remaining + 1, s =>
    let index := nextShaderIndex s.currentShaderIndex delta s.shaderList.length
    let s1 := { s with
      currentShaderIndex := index
      currentShaderPath := s.shaderList.getD index.toNat [] }
    if getCompiledSpvPath s1.currentShaderPath = currentSpvPath then
      switchShaderLoop env delta currentSpvPath remaining s1
    else
      match compileAndLoadShader env s1.currentShaderPath s1 with
      | (s2, true) =>
        let s3 := { s2 with log := s2.log ++ [ShaderAction.deviceWaitIdle] }
        match recreatePipeline env s3 with
        | (s4, none) => (s4, true)
        | (s4, some _) => switchShaderLoop env delta currentSpvPath remaining s4
      | (s2, false) => switchShaderLoop env delta currentSpvPath remaining s2

/-- Lines 366-375 of `switchShader`: an empty list is filled by a scan of the
directory of the current shader. -/
def ensureShaderList (env : ShaderEnv) (s : ShaderState) : ShaderState :=
  if s.shaderList.isEmpty then
    scanDirectoryForShaders env (getShaderDirectory s.currentShaderPath) s
  else s

/-- `switchShader` (lines 365-418); `maxAttempts` is `shaderList.size()`. -/
def switchShader (env : ShaderEnv) (delta : Int) (s : ShaderState) : ShaderState :=
  let s1 := ensureShaderList env s
  if s1.shaderList.isEmpty then s1
  else
    (switchShaderLoop env delta (getCompiledSpvPath s1.currentShaderPath)
      s1.shaderList.length s1).1

/-- Whether the candidate `path` is skipped as a duplicate of the shader whose
compiled path is `currentSpvPath`, fails to compile, or fails to build a
pipeline. -/
def candidateFails (env : ShaderEnv) (currentSpvPath path : List Char) : Bool :=
  if getCompiledSpvPath path = currentSpvPath then true
  else
    match (env.compile path).result with
    | none => true
    | some g =>
      match pipelineOutcome env path g with
      | PipelineOutcome.created _ => false
      | _ => true

/-- The field initialisers of lines 132-136; no pipeline exists yet and the
first handle the device will return is 1. -/
def freshViewer : ShaderState :=
  { shaderList := []
    currentShaderIndex := 0
    currentShaderPath := []
    currentTexturePath := []
    hasGeometryShader := false
    graphicsPipeline := VK_NULL_HANDLE
    pipelineLayout := VK_NULL_HANDLE
    livePipelines := []
    livePipelineLayouts := []
    nextHandle := 1
    log := []
    descriptorSetLayout := [] }

/-- `loadShaderList` (lines 289-314).  `resolveFragmentShader` is passed in;
`shaderListFile` is the content of `shader_list.txt` by lines, if the file can
be opened. -/
def loadShaderList (resolveFragmentShader : List Char → List Char) (initialShader : List Char)
    (shaderListFile : Option (List (List Char))) (s : ShaderState) : ShaderState :=
  let s1 := { s with
    currentShaderPath :=
      if !initialShader.isEmpty then resolveFragmentShader initialShader
      else "shaders/example.frag".toList }
  match shaderListFile with
  | none => s1
  | some lines => { s1 with shaderList := s1.shaderList ++ lines.filter (fun l => !l.isEmpty) }

/-- The part of `run` (lines 51-63) before `mainLoop` that concerns shaders:
`loadShaderList`, the compilation of the initial shader (`exit(1)` on
failure, here `none`) and the `createDescriptorSetLayout` and
`createGraphicsPipeline` of `initVulkan` (lines 743-744). -/
def startViewer (env : ShaderEnv) (resolveFragmentShader : List Char → List Char)
    (initialShader : List Char) (shaderListFile : Option (List (List Char))) :
    Option ShaderState :=
  let s := loadShaderList resolveFragmentShader initialShader shaderListFile freshViewer
  match
    (if !s.currentShaderPath.isEmpty then compileAndLoadShader env s.currentShaderPath s
     else (s, true)) with
  | (_, false) => none
  | (s1, true) =>
    match createGraphicsPipeline env (createDescriptorSetLayout s1) with
    | (s2, none) => some s2
    | (_, some _) => none

/-- A viewer browsing two shaders, the first one active on pipeline 7. -/
def browsingViewer : ShaderState :=
  { shaderList := ["shaders/a.frag".toList, "shaders/b.frag".toList]
    currentShaderIndex := 0
    currentShaderPath := "shaders/a.frag".toList
    currentTexturePath := []
    hasGeometryShader := false
    graphicsPipeline := 7
    pipelineLayout := 6
    livePipelines := [7]
    livePipelineLayouts := [6]
    nextHandle := 8
    log := []
    descriptorSetLayout := descriptorSetLayoutBindings false }

/-- A world in which no shader compiles. -/
def noCompileEnv : ShaderEnv :=
  { scanDirectory := fun _ => []
    compile := fun _ => ⟨[], none⟩
    fileExists := fun _ => false
    createShaderModuleOk := fun _ => true
    createPipelineLayoutOk := true
    createGraphicsPipelinesOk := fun _ => true }

/-- A world in which compilation reports success but only the built-in vertex
artifact can be opened. -/
def unreadableFragmentEnv : ShaderEnv :=
  { scanDirectory := fun _ => []
    compile := fun _ => ⟨[], some false⟩
    fileExists := fun p => decide (p = defaultVertSpv)
    createShaderModuleOk := fun _ => true
    createPipelineLayoutOk := true
    createGraphicsPipelinesOk := fun _ => true }

/-- A world in which every file is there but the driver rejects the pipeline. -/
def rejectedPipelineEnv : ShaderEnv :=
  { scanDirectory := fun _ => []
    compile := fun _ => ⟨[], some false⟩
    fileExists := fun _ => true
    createShaderModuleOk := fun _ => true
    createPipelineLayoutOk := true
    createGraphicsPipelinesOk := fun _ => false }

/-- A world in which only `shaders/example.frag` compiles. -/
def onlyExampleCompilesEnv : ShaderEnv :=
  { scanDirectory := fun _ => []
    compile := fun p =>
      ⟨[], if p = "shaders/example.frag".toList then some false else none⟩
    fileExists := fun _ => true
    createShaderModuleOk := fun _ => true
    createPipelineLayoutOk := true
    createGraphicsPipelinesOk := fun _ => true }

/-- The viewer started without a command-line shader in a directory whose
`shader_list.txt` has the single line `shaders/b.frag`. -/
def startedViewer : ShaderState :=
  (startViewer onlyExampleCompilesEnv id [] (some ["shaders/b.frag".toList])).getD freshViewer

/-- The `while (attempts < maxAttempts)` loop of lines 380-415 with its counter
`attempts` kept as in the source.  `fuel` bounds how often the loop condition
may be evaluated: `none` means the bound was reached before the loop ended.
The result is the state, whether the loop returned with success, and the
final value of `attempts`. -/
def switchShaderWhile (env : ShaderEnv) (delta : Int) (currentSpvPath : List Char)
    (maxAttempts : Int) : Nat → Int → ShaderState → Option (ShaderState × Bool × Int)
  | 0, _, _ => none
  | fuel + 1, attempts, s =>
    if attempts < maxAttempts then
      let index := nextShaderIndex s.currentShaderIndex delta s.shaderList.length
      let s1 := { s with
        currentShaderIndex := index
        currentShaderPath := s.shaderList.getD index.toNat [] }
      if getCompiledSpvPath s1.currentShaderPath = currentSpvPath then
        switchShaderWhile env delta currentSpvPath maxAttempts fuel (attempts + 1) s1
      else
        match compileAndLoadShader env s1.currentShaderPath s1 with
        | (s2, true) =>
          let s3 := { s2 with log := s2.log ++ [ShaderAction.deviceWaitIdle] }
          match recreatePipeline env s3 with
          | (s4, none) => some (s4, true, attempts)
          | (s4, some _) =>
            switchShaderWhile env delta currentSpvPath maxAttempts fuel (attempts + 1) s4
        | (s2, false) =>
          switchShaderWhile env delta currentSpvPath maxAttempts fuel (attempts + 1) s2
    else some (s, false, attempts)

/-- Log entries of compile attempts. -/
def ShaderAction.isCompile : ShaderAction → Bool
  | ShaderAction.compileAndLoadShader _ => true
  | _ => false

/-- Log entries with which a pipeline rebuild (`recreatePipeline`) starts. -/
def ShaderAction.isRebuild : ShaderAction → Bool
  | ShaderAction.destroyPipeline _ => true
  | _ => false

/-- The host calls of one completed `drawFrame` on frame slot `slot` with
acquired image `imageIndex`, the read view being `view`, in source order. -/
def frameActions (slot imageIndex : Nat) (view : Int) : List Action :=
  [ Action.waitForFences slot,
    Action.acquireNextImage slot,
    Action.updateUniformBuffer,
    Action.updateFeedbackDescriptor slot view,
    Action.resetFences slot,
    Action.resetCommandBuffer slot,
    Action.recordCommandBuffer slot imageIndex,
    Action.queueSubmit slot slot slot slot,
    Action.queuePresent imageIndex slot ]

/-- The order of actions that the state machine of the specification lists:
wait, acquire, update uniforms, reset fence, reset and re-record, submit,
present. -/
def specifiedFrameOrder (slot imageIndex : Nat) : List Action :=
  [ Action.waitForFences slot,
    Action.acquireNextImage slot,
    Action.updateUniformBuffer,
    Action.resetFences slot,
    Action.resetCommandBuffer slot,
    Action.recordCommandBuffer slot imageIndex,
    Action.queueSubmit slot slot slot slot,
    Action.queuePresent imageIndex slot ]

/-! ### Fences and outstanding submissions

The meaning of the fence calls in the log, by the rules of the Vulkan API: a
fence handed to a queue submission signals when that submission has completed,
`vkWaitForFences` returns once the fence is signaled, `vkResetFences` makes it
unsignaled. -/

/-- What the host knows about a fence. -/
inductive FenceStatus where
  | signaled
  | unsignaled
  | pending (submission : Nat)
  deriving DecidableEq, Repr

/-- The host's view of synchronisation after a sequence of calls: the status of
each fence, the number of submissions made, the submissions not yet known to
have completed, the largest number of those at any time, and for every fence
wait the slot and the status the fence had when the wait was issued. -/
structure SyncView where
  fence : Nat → FenceStatus
  submitted : Nat
  outstanding : List Nat
  maxOutstanding : Nat
  waits : List (Nat × FenceStatus)

/-- `createSyncObjects` (lines 1860-1879): every fence is created with
`VK_FENCE_CREATE_SIGNALED_BIT`; nothing has been submitted. -/
def createSyncObjects : SyncView :=
  { fence := fun _ => FenceStatus.signaled
    submitted := 0
    outstanding := []
    maxOutstanding := 0
    waits := [] }

/-- The effect of one host call on the view.  Submissions are numbered in the
order of the `vkQueueSubmit` calls. -/
def syncStep (v : SyncView) : Action → SyncView
  | Action.waitForFences slot =>
    match v.fence slot with
    | FenceStatus.pending j =>
      { v with
        fence := Function.update v.fence slot FenceStatus.signaled
        outstanding := v.outstanding.filter (fun i => decide (i ≠ j))
        waits := v.waits ++ [(slot, FenceStatus.pending j)] }
    | st => { v with waits := v.waits ++ [(slot, st)] }
  | Action.resetFences slot =>
    { v with fence := Function.update v.fence slot FenceStatus.unsignaled }
  | Action.queueSubmit _ _ _ fenceSlot =>
    { v with
      fence := Function.update v.fence fenceSlot (FenceStatus.pending v.submitted)
      submitted := v.submitted + 1
      outstanding := v.outstanding ++ [v.submitted]
      maxOutstanding := max v.maxOutstanding (v.outstanding.length + 1) }
  | _ => v

/-- The view after the calls of a log, starting from `createSyncObjects`. -/
def syncView (log : List Action) : SyncView := log.foldl syncStep createSyncObjects

/-- The status in which the wait of call `j` (counted from 0) finds its fence
according to the claim: created signaled for the first two calls, afterwards
handed to the submission of call `j - 2`. -/
def expectedWait (j : Nat) : Nat × FenceStatus :=
  (j % 2, if j < 2 then FenceStatus.signaled else FenceStatus.pending (j - 2))

/-- The view after `n` completed frames. -/
def SyncInvariant (n : Nat) (v : SyncView) : Prop :=
  v.submitted = n ∧
  v.fence (n % 2) = (if n < 2 then FenceStatus.signaled else FenceStatus.pending (n - 2)) ∧
  v.fence ((n + 1) % 2) = (if n = 0 then FenceStatus.signaled else FenceStatus.pending (n - 1)) ∧
  v.outstanding = (if n = 0 then [] else if n = 1 then [0] else [n - 2, n - 1]) ∧
  v.maxOutstanding ≤ 2 ∧
  v.waits = (List.range n).map expectedWait

/-! ### Uniform storage -/

/-- One `VkDescriptorBufferInfo`. -/
structure DescriptorBufferInfo where
  buffer : Nat
  offset : Nat
  range : Nat
  deriving DecidableEq, Repr

/-- The uniform buffer members of `MetalshadeViewer` (lines 91-93), the memory
bound to each buffer, what each memory allocation holds from offset 0, and
binding 0 of each descriptor set. -/
structure UniformResources (F : Type) where
  uniformBuffer : Nat
  uniformBufferMemory : Nat
  uniformBufferMapped : Nat
  boundMemory : Nat → Option Nat
  contents : Nat → Option (UniformBufferObject F)
  descriptorUniform : Nat → Option DescriptorBufferInfo

/-- No buffer created yet. -/
def noUniformResources (F : Type) : UniformResources F :=
  { uniformBuffer := VK_NULL_HANDLE
    uniformBufferMemory := VK_NULL_HANDLE
    uniformBufferMapped := VK_NULL_HANDLE
    boundMemory := fun _ => none
    contents := fun _ => none
    descriptorUniform := fun _ => none }

/-- `createUniformBuffer` (lines 1566-1572) with `createBuffer` (lines
1218-1243), the driver returning the handles `buffer` and `memory`: one buffer
is created, one allocation is bound to it at offset 0 and mapped. -/
def createUniformBuffer {F : Type} (buffer memory : Nat) (r : UniformResources F) :
    UniformResources F :=
  { r with
    uniformBuffer := buffer
    uniformBufferMemory := memory
    uniformBufferMapped := memory
    boundMemory := Function.update r.boundMemory buffer (some memory) }

/-- The value of `sizeof(UniformBufferObject)`. -/
def sizeofUniformBufferObject : Nat := structSize uniformBufferObjectDecl

/-- The loop of `createDescriptorSets` (lines 1606-1650) restricted to binding 0:
in every set `bufferInfo` is `{uniformBuffer, 0, sizeof(UniformBufferObject)}`. -/
def createDescriptorSetsUniform {F : Type} (r : UniformResources F) : UniformResources F :=
  { r with descriptorUniform := fun i =>
      if i < MAX_FRAMES_IN_FLIGHT then
        some ⟨r.uniformBuffer, 0, sizeofUniformBufferObject⟩
      else r.descriptorUniform i }

/-- Line 1939, `memcpy(uniformBufferMapped, &ubo, sizeof(ubo))`. -/
def storeUniformBlock {F : Type} (ubo : UniformBufferObject F) (r : UniformResources F) :
    UniformResources F :=
  { r with contents := Function.update r.contents r.uniformBufferMapped (some ubo) }

/-- The uniform block that a draw reads through binding 0 of descriptor set `i`. -/
def uniformReadThrough {F : Type} (r : UniformResources F) (i : Nat) :
    Option (UniformBufferObject F) :=
  match r.descriptorUniform i with
  | none => none
  | some info =>
    match r.boundMemory info.buffer with
    | none => none
    | some memory => r.contents memory

/-- The uniform resources after `initVulkan`. -/
def initUniformResources (F : Type) (buffer memory : Nat) : UniformResources F :=
  createDescriptorSetsUniform (createUniformBuffer buffer memory (noUniformResources F))

/-- A uniform block that holds only the time `t`. -/
def timeOnlyBlock (t : ℚ) : UniformBufferObject ℚ :=
  { iResolution := (0, 0, 0)
    iTime := t
    iMouse := (0, 0, 0, 0)
    iScroll := (0, 0)
    iButtonLeft := 0
    iButtonRight := 0
    iButtonMiddle := 0
    iButton4 := 0
    iButton5 := 0 }

/-! ### The recorded commands and the image layouts -/

/-- The images a command names as the subject of a barrier, as the render
target (`feedbackFramebuffers[i]` is the framebuffer of `feedbackImages[i]`) or
as source or destination of a blit. -/
def Cmd.targets : Cmd → List Image
  | Cmd.pipelineBarrier _ _ barriers => barriers.map (fun b => b.image)
  | Cmd.beginRenderPass framebuffer _ _ => [Image.feedback framebuffer]
  | Cmd.blitImage src _ dst _ _ _ _ _ _ => [src, dst]
  | _ => []

/-- The command sequence as the specification describes it for write index
`w`, swapchain image `k` and extent `width` x `height`; `pipeline`, `layout`
and `set` are what the draw binds. -/
def specifiedCommands (w : Int) (k width height pipeline layout set : Nat) : List Cmd :=
  [ Cmd.pipelineBarrier VkStage.FRAGMENT_SHADER VkStage.COLOR_ATTACHMENT_OUTPUT
      [⟨VkImageLayout.SHADER_READ_ONLY_OPTIMAL, VkImageLayout.COLOR_ATTACHMENT_OPTIMAL,
        Image.feedback w, VkAccess.SHADER_READ, VkAccess.COLOR_ATTACHMENT_WRITE⟩],
    Cmd.beginRenderPass w width height,
    Cmd.bindPipeline pipeline,
    Cmd.bindDescriptorSets layout set,
    Cmd.draw 6 1 0 0,
    Cmd.endRenderPass,
    Cmd.pipelineBarrier VkStage.COLOR_ATTACHMENT_OUTPUT VkStage.FRAGMENT_SHADER
      [⟨VkImageLayout.COLOR_ATTACHMENT_OPTIMAL, VkImageLayout.SHADER_READ_ONLY_OPTIMAL,
        Image.feedback w, VkAccess.COLOR_ATTACHMENT_WRITE, VkAccess.SHADER_READ⟩],
    Cmd.pipelineBarrier VkStage.FRAGMENT_SHADER VkStage.TRANSFER
      [⟨VkImageLayout.SHADER_READ_ONLY_OPTIMAL, VkImageLayout.TRANSFER_SRC_OPTIMAL,
        Image.feedback w, VkAccess.SHADER_READ, VkAccess.TRANSFER_READ⟩,
       ⟨VkImageLayout.UNDEFINED, VkImageLayout.TRANSFER_DST_OPTIMAL,
        Image.swapchain k, VkAccess.NONE, VkAccess.TRANSFER_WRITE⟩],
    Cmd.blitImage (Image.feedback w) VkImageLayout.TRANSFER_SRC_OPTIMAL
      (Image.swapchain k) VkImageLayout.TRANSFER_DST_OPTIMAL
      ⟨0, 0, 0⟩ ⟨(width : Int), (height : Int), 1⟩
      ⟨0, 0, 0⟩ ⟨(width : Int), (height : Int), 1⟩ VkFilter.NEAREST,
    Cmd.pipelineBarrier VkStage.TRANSFER VkStage.BOTTOM_OF_PIPE
      [⟨VkImageLayout.TRANSFER_DST_OPTIMAL, VkImageLayout.PRESENT_SRC_KHR,
        Image.swapchain k, VkAccess.TRANSFER_WRITE, VkAccess.NONE⟩,
       ⟨VkImageLayout.TRANSFER_SRC_OPTIMAL, VkImageLayout.SHADER_READ_ONLY_OPTIMAL,
        Image.feedback w, VkAccess.TRANSFER_READ, VkAccess.SHADER_READ⟩] ]

/-- The layouts of the colour attachment declared by `createRenderPass`
(lines 945-950): initial layout, final layout, layout during the subpass. -/
structure AttachmentLayouts where
  initialLayout : VkImageLayout
  finalLayout : VkImageLayout
  subpassLayout : VkImageLayout
  deriving DecidableEq, Repr

/-- `createRenderPass` (lines 937-977), the attachment layouts it declares. -/
def createRenderPass : AttachmentLayouts :=
  { initialLayout := VkImageLayout.UNDEFINED
    finalLayout := VkImageLayout.PRESENT_SRC_KHR
    subpassLayout := VkImageLayout.COLOR_ATTACHMENT_OPTIMAL }

/-- A declared layout that differs from the layout the image is in. -/
structure LayoutMismatch where
  image : Image
  declared : VkImageLayout
  actual : VkImageLayout
  deriving DecidableEq, Repr

/-- The layout of every image while a command sequence executes, the colour
attachment of the render pass that is open, and the mismatches met so far. -/
structure LayoutTrack where
  layout : Image → VkImageLayout
  attachment : Option Image
  mismatches : List LayoutMismatch

/-- One barrier: its declared old layout is compared with the layout the image
is in; afterwards the image is in the declared new layout. -/
def trackBarrier (t : LayoutTrack) (b : ImageBarrier) : LayoutTrack :=
  { t with
    layout := Function.update t.layout b.image b.newLayout
    mismatches :=
      if b.oldLayout = t.layout b.image then t.mismatches
      else t.mismatches ++ [⟨b.image, b.oldLayout, t.layout b.image⟩] }

/-- One command: barriers as above; the end of the render pass leaves its
colour attachment in the final layout that `rp` declares; the declared source
and destination layouts of a blit are compared with the layouts of the
images. -/
def trackCmd (rp : AttachmentLayouts) (t : LayoutTrack) : Cmd → LayoutTrack
  | Cmd.pipelineBarrier _ _ barriers => barriers.foldl trackBarrier t
  | Cmd.beginRenderPass framebuffer _ _ =>
    { t with
      attachment := some (Image.feedback framebuffer)
      layout := Function.update t.layout (Image.feedback framebuffer) rp.subpassLayout }
  | Cmd.endRenderPass =>
    match t.attachment with
    | some image =>
      { t with attachment := none, layout := Function.update t.layout image rp.finalLayout }
    | none => t
  | Cmd.blitImage src srcLayout dst dstLayout _ _ _ _ _ =>
    { t with
      mismatches := t.mismatches ++
        (if srcLayout = t.layout src then [] else [⟨src, srcLayout, t.layout src⟩]) ++
        (if dstLayout = t.layout dst then [] else [⟨dst, dstLayout, t.layout dst⟩]) }
  | _ => t

/-- The start of a frame: feedback images in shader-read-only layout, every
other image in `other`. -/
def frameStartLayouts (other : VkImageLayout) : LayoutTrack :=
  { layout := fun image =>
      match image with
      | Image.feedback _ => VkImageLayout.SHADER_READ_ONLY_OPTIMAL
      | _ => other
    attachment := none
    mismatches := [] }

/-- The mismatches met by the commands of a frame. -/
def frameLayoutMismatches (rp : AttachmentLayouts) (other : VkImageLayout) (cmds : List Cmd) :
    List LayoutMismatch :=
  (cmds.foldl (trackCmd rp) (frameStartLayouts other)).mismatches

/-! ### One-time layout transitions -/

/-- What a call of `transitionImageLayout` leaves behind: the commands recorded
into its one-time command buffer, whether that buffer was submitted
(`endSingleTimeCommands`), and the message of the exception if it threw. -/
structure TransitionResult where
  recorded : List Cmd
  submitted : Bool
  thrown : Option String
  deriving DecidableEq, Repr

/-- `transitionImageLayout` (lines 1314-1374): the chain of comparisons picks
access masks and stages; an unlisted pair throws before anything is recorded. -/
def transitionImageLayout (image : Image) (oldLayout newLayout : VkImageLayout) :
    TransitionResult :=
  let barrier (srcAccessMask dstAccessMask : VkAccess) : ImageBarrier :=
    ⟨oldLayout, newLayout, image, srcAccessMask, dstAccessMask⟩
  let done (sourceStage destinationStage : VkStage) (b : ImageBarrier) : TransitionResult :=
    ⟨[Cmd.pipelineBarrier sourceStage destinationStage [b]], true, none⟩
  if oldLayout = VkImageLayout.UNDEFINED ∧ newLayout = VkImageLayout.TRANSFER_DST_OPTIMAL then
    done VkStage.TOP_OF_PIPE VkStage.TRANSFER (barrier VkAccess.NONE VkAccess.TRANSFER_WRITE)
  else if oldLayout = VkImageLayout.TRANSFER_DST_OPTIMAL ∧
      newLayout = VkImageLayout.SHADER_READ_ONLY_OPTIMAL then
    done VkStage.TRANSFER VkStage.FRAGMENT_SHADER
      (barrier VkAccess.TRANSFER_WRITE VkAccess.SHADER_READ)
  else if oldLayout = VkImageLayout.UNDEFINED ∧
      newLayout = VkImageLayout.SHADER_READ_ONLY_OPTIMAL then
    done VkStage.TOP_OF_PIPE VkStage.FRAGMENT_SHADER (barrier VkAccess.NONE VkAccess.SHADER_READ)
  else if oldLayout = VkImageLayout.UNDEFINED ∧
      newLayout = VkImageLayout.COLOR_ATTACHMENT_OPTIMAL then
    done VkStage.TOP_OF_PIPE VkStage.COLOR_ATTACHMENT_OUTPUT
      (barrier VkAccess.NONE VkAccess.COLOR_ATTACHMENT_WRITE)
  else if oldLayout = VkImageLayout.COLOR_ATTACHMENT_OPTIMAL ∧
      newLayout = VkImageLayout.SHADER_READ_ONLY_OPTIMAL then
    done VkStage.COLOR_ATTACHMENT_OUTPUT VkStage.FRAGMENT_SHADER
      (barrier VkAccess.COLOR_ATTACHMENT_WRITE VkAccess.SHADER_READ)
  else if oldLayout = VkImageLayout.SHADER_READ_ONLY_OPTIMAL ∧
      newLayout = VkImageLayout.COLOR_ATTACHMENT_OPTIMAL then
    done VkStage.FRAGMENT_SHADER VkStage.COLOR_ATTACHMENT_OUTPUT
      (barrier VkAccess.SHADER_READ VkAccess.COLOR_ATTACHMENT_WRITE)
  else ⟨[], false, some "Unsupported layout transition!"⟩

/-- One row of the transition table: the pair of layouts, then source access,
destination access, source stage and destination stage. -/
structure TransitionRow where
  oldLayout : VkImageLayout
  newLayout : VkImageLayout
  srcAccessMask : VkAccess
  dstAccessMask : VkAccess
  sourceStage : VkStage
  destinationStage : VkStage
  deriving DecidableEq, Repr

/-- The allowed-transition table as a lookup table keyed by the pair of
layouts: the six pairs of the claim with the masks and stages assigned to
them. -/
def transitionTable : List TransitionRow :=
  [ ⟨.UNDEFINED, .TRANSFER_DST_OPTIMAL, .NONE, .TRANSFER_WRITE, .TOP_OF_PIPE, .TRANSFER⟩,
    ⟨.TRANSFER_DST_OPTIMAL, .SHADER_READ_ONLY_OPTIMAL, .TRANSFER_WRITE, .SHADER_READ,
      .TRANSFER, .FRAGMENT_SHADER⟩,
    ⟨.UNDEFINED, .SHADER_READ_ONLY_OPTIMAL, .NONE, .SHADER_READ, .TOP_OF_PIPE,
      .FRAGMENT_SHADER⟩,
    ⟨.UNDEFINED, .COLOR_ATTACHMENT_OPTIMAL, .NONE, .COLOR_ATTACHMENT_WRITE, .TOP_OF_PIPE,
      .COLOR_ATTACHMENT_OUTPUT⟩,
    ⟨.COLOR_ATTACHMENT_OPTIMAL, .SHADER_READ_ONLY_OPTIMAL, .COLOR_ATTACHMENT_WRITE,
      .SHADER_READ, .COLOR_ATTACHMENT_OUTPUT, .FRAGMENT_SHADER⟩,
    ⟨.SHADER_READ_ONLY_OPTIMAL, .COLOR_ATTACHMENT_OPTIMAL, .SHADER_READ,
      .COLOR_ATTACHMENT_WRITE, .FRAGMENT_SHADER, .COLOR_ATTACHMENT_OUTPUT⟩ ]

/-- The row of the table for a pair of layouts, if the pair is listed. -/
def lookupTransition (oldLayout newLayout : VkImageLayout) : Option TransitionRow :=
  transitionTable.find? (fun r => decide (r.oldLayout = oldLayout ∧ r.newLayout = newLayout))

/-! ### Stages of the pipeline and the descriptor-set layout -/

/-- The artifact `<dir>/<base><ext>` that belongs to a shader path. -/
def artifactPath (shaderPath : List Char) (ext : String) : List Char :=
  getShaderDirectory shaderPath ++ "/".toList ++ getShaderBaseName shaderPath ++ ext.toList

/-- The stage list as the specification describes it: the vertex stage from
`<dir>/<base>.vert.spv` if that file exists and from the built-in artifact
otherwise, the geometry stage from `<dir>/<base>.geom.spv` exactly when the
flag is set and that file exists, the fragment stage from
`<dir>/<base>.frag.spv`. -/
def specifiedStages (env : ShaderEnv) (shaderPath : List Char) (hasGeometryShader : Bool) :
    List ShaderStage :=
  let vert :=
    if env.fileExists (artifactPath shaderPath ".vert.spv") then
      artifactPath shaderPath ".vert.spv"
    else defaultVertSpv
  if hasGeometryShader = true ∧ env.fileExists (artifactPath shaderPath ".geom.spv") = true then
    [ShaderStage.vertex vert, ShaderStage.geometry (artifactPath shaderPath ".geom.spv"),
     ShaderStage.fragment (artifactPath shaderPath ".frag.spv")]
  else
    [ShaderStage.vertex vert, ShaderStage.fragment (artifactPath shaderPath ".frag.spv")]

/-- The stage bits of binding 0, the uniform block, in a descriptor-set layout. -/
def uniformBindingStages (layout : List DescriptorSetLayoutBinding) : List VkShaderStageFlag :=
  match layout.find? (fun b => decide (b.binding = 0)) with
  | some b => b.stageFlags
  | none => []

/-- A world in which everything compiles and builds, and in which
`shaders/geo.frag` comes with a geometry shader. -/
def geometryShaderEnv : ShaderEnv :=
  { scanDirectory := fun _ => []
    compile := fun p => ⟨[], some (decide (p = "shaders/geo.frag".toList))⟩
    fileExists := fun _ => true
    createShaderModuleOk := fun _ => true
    createPipelineLayoutOk := true
    createGraphicsPipelinesOk := fun _ => true }

/-- The viewer started on `shaders/plain.frag`, with a `shader_list.txt` that
lists `shaders/plain.frag` and `shaders/geo.frag`. -/
def plainStartedViewer : ShaderState :=
  (startViewer geometryShaderEnv id "shaders/plain.frag".toList
    (some ["shaders/plain.frag".toList, "shaders/geo.frag".toList])).getD freshViewer

/-- The viewer started on `shaders/geo.frag`. -/
def geoStartedViewer : ShaderState :=
  (startViewer geometryShaderEnv id "shaders/geo.frag".toList none).getD freshViewer

/-! ### Device-idle waits before destruction -/

/-- Whether every `vkDestroyPipeline` in a sequence of calls comes directly
after a `vkDeviceWaitIdle`; `afterWait` tells whether the call just before the
sequence was such a wait. -/
def idleBeforeDestroy : Bool → List ShaderAction → Bool
  | _, [] => true
  | afterWait, ShaderAction.destroyPipeline _ :: rest => afterWait && idleBeforeDestroy false rest
  | _, ShaderAction.deviceWaitIdle :: rest => idleBeforeDestroy true rest
  | _, ShaderAction.compileAndLoadShader _ :: rest => idleBeforeDestroy false rest
  | _, ShaderAction.createPipelineLayout _ :: rest => idleBeforeDestroy false rest
  | _, ShaderAction.createGraphicsPipelines _ _ :: rest => idleBeforeDestroy false rest

/-- The calls of `cleanup` (lines 2013-2061). -/
inductive CleanupCall where
  | destroyRenderFinishedSemaphore (i : Nat)
  | destroyImageAvailableSemaphore (i : Nat)
  | destroyFence (i : Nat)
  | destroyCommandPool
  | destroySwapchainFramebuffer (i : Nat)
  | destroyPipeline (pipeline : Nat)
  | destroyPipelineLayout (layout : Nat)
  | destroyRenderPass
  | destroySwapchainImageView (i : Nat)
  | destroySwapchain
  | destroyUniformBuffer
  | freeUniformBufferMemory
  | destroyDescriptorPool
  | destroyDescriptorSetLayout
  | destroySampler
  | destroyTextureImageView
  | destroyTextureImage
  | freeTextureImageMemory
  | destroyFeedbackFramebuffer (i : Nat)
  | destroyFeedbackImageView (i : Nat)
  | destroyFeedbackImage (i : Nat)
  | freeFeedbackImageMemory (i : Nat)
  | destroyDevice
  | destroySurface
  | destroyInstance
  | destroyWindow
  | terminate
  deriving DecidableEq, Repr

/-- `cleanup` (lines 2013-2061) as the list of its calls in source order, for a
swapchain of `swapchainImageCount` images. -/
def cleanup (swapchainImageCount : Nat) (s : FrameState) : List CleanupCall :=
  (List.range MAX_FRAMES_IN_FLIGHT).flatMap (fun i =>
    [CleanupCall.destroyRenderFinishedSemaphore i, CleanupCall.destroyImageAvailableSemaphore i,
     CleanupCall.destroyFence i]) ++
  [CleanupCall.destroyCommandPool] ++
  (List.range swapchainImageCount).map CleanupCall.destroySwapchainFramebuffer ++
  [CleanupCall.destroyPipeline s.graphicsPipeline,
   CleanupCall.destroyPipelineLayout s.pipelineLayout, CleanupCall.destroyRenderPass] ++
  (List.range swapchainImageCount).map CleanupCall.destroySwapchainImageView ++
  [CleanupCall.destroySwapchain, CleanupCall.destroyUniformBuffer,
   CleanupCall.freeUniformBufferMemory, CleanupCall.destroyDescriptorPool,
   CleanupCall.destroyDescriptorSetLayout, CleanupCall.destroySampler,
   CleanupCall.destroyTextureImageView, CleanupCall.destroyTextureImage,
   CleanupCall.freeTextureImageMemory] ++
  (List.range 2).flatMap (fun i =>
    [CleanupCall.destroyFeedbackFramebuffer i, CleanupCall.destroyFeedbackImageView i,
     CleanupCall.destroyFeedbackImage i, CleanupCall.freeFeedbackImageMemory i]) ++
  [CleanupCall.destroyDevice, CleanupCall.destroySurface, CleanupCall.destroyInstance,
   CleanupCall.destroyWindow, CleanupCall.terminate]

/-- What `run` does from `mainLoop` on, by calls: `glfwPollEvents`, `drawFrame`,
the `vkDeviceWaitIdle` of line 2010 and the calls of `cleanup`. -/
inductive RunAction where
  | pollEvents
  | drawFrame
  | deviceWaitIdle
  | cleanup (call : CleanupCall)
  deriving DecidableEq, Repr

/-- One iteration of the loop of `mainLoop`: what the callbacks run by
`glfwPollEvents` do to the viewer, and the answers of the world to `drawFrame`. -/
structure LoopStep where
  pollEvents : FrameState → FrameState
  frame : FrameEnv

/-- `mainLoop` (lines 1996-2011): `glfwWindowShouldClose` turns true after the
given iterations; an exception of `drawFrame` leaves the function at once. -/
def mainLoop : List LoopStep → FrameState → List RunAction →
    Except FrameException FrameState × List RunAction
  | [], s, log => (Except.ok s, log ++ [RunAction.deviceWaitIdle])
  | step :: rest, s, log =>
    match drawFrame step.frame (step.pollEvents s) with
    | Except.ok s1 => mainLoop rest s1 (log ++ [RunAction.pollEvents, RunAction.drawFrame])
    | Except.error ex => (Except.error ex, log ++ [RunAction.pollEvents, RunAction.drawFrame])

/-- Lines 62-63 of `run`: `mainLoop(); cleanup();`, the exception of a frame
passing through to `main`.  The result is the sequence of calls made. -/
def runMainLoopAndCleanup (swapchainImageCount : Nat) (steps : List LoopStep) (s : FrameState) :
    List RunAction :=
  match mainLoop steps s [] with
  | (Except.ok s1, log) => log ++ (cleanup swapchainImageCount s1).map RunAction.cleanup
  | (Except.error _, log) => log

/-! ### The surface format of the swapchain -/

/-- The value of `VK_FORMAT_B8G8R8A8_SRGB` in the Vulkan headers. -/
def VK_FORMAT_B8G8R8A8_SRGB : Nat := 50

/-- The value of `VK_COLOR_SPACE_SRGB_NONLINEAR_KHR` in the Vulkan headers. -/
def VK_COLOR_SPACE_SRGB_NONLINEAR_KHR : Nat := 0

/-- A `VkSurfaceFormatKHR`: the two enumeration values. -/
structure VkSurfaceFormatKHR where
  format : Nat
  colorSpace : Nat
  deriving DecidableEq, Repr

/-- The test of line 868. -/
def isPreferredSurfaceFormat (f : VkSurfaceFormatKHR) : Bool :=
  f.format == VK_FORMAT_B8G8R8A8_SRGB && f.colorSpace == VK_COLOR_SPACE_SRGB_NONLINEAR_KHR

/-- The `for` loop of lines 867-872 over the rest of `formats`, `surfaceFormat`
holding the choice so far; `break` ends the loop. -/
def surfaceFormatLoop : List VkSurfaceFormatKHR → VkSurfaceFormatKHR → VkSurfaceFormatKHR
  | [], surfaceFormat => surfaceFormat
  | format :: rest, surfaceFormat =>
    if format.format = VK_FORMAT_B8G8R8A8_SRGB ∧
        format.colorSpace = VK_COLOR_SPACE_SRGB_NONLINEAR_KHR then format
    else surfaceFormatLoop rest surfaceFormat

/-- Lines 861-872 of `createSwapchain`: the choice of `surfaceFormat` from the
reported `formats`; `formats[0]` of an empty vector has no defined value
(`none`). -/
def chooseSurfaceFormat (formats : List VkSurfaceFormatKHR) : Option VkSurfaceFormatKHR :=
  match formats with
  | [] => none
  | first :: _ => some (surfaceFormatLoop formats first)

/-! ### Images: creation, usage and layouts -/

/-- Usage bits of an image (`VkImageUsageFlagBits`). -/
inductive VkImageUsage where
  | TRANSFER_SRC
  | TRANSFER_DST
  | SAMPLED
  | COLOR_ATTACHMENT
  deriving DecidableEq, Repr

/-- The calls of `createTextureImage` and `createFeedbackBuffers` that name an
image. -/
inductive ImageCall where
  | createImage (image : Image) (usage : List VkImageUsage)
  | createImageView (image : Image)
  | transitionImageLayout (image : Image) (oldLayout newLayout : VkImageLayout)
  | copyBufferToImage (image : Image) (layout : VkImageLayout)
  | createFramebuffer (image : Image)
  deriving DecidableEq, Repr

/-- `createTextureImage` (lines 1395-1476): `pixelsLoaded` tells whether
`stbi_load` returned pixels; without them the procedural texture is built
(lines 1406-1447). -/
def createTextureImage (pixelsLoaded : Bool) : List ImageCall :=
  if !pixelsLoaded then
    [ ImageCall.createImage Image.texture [VkImageUsage.TRANSFER_DST, VkImageUsage.SAMPLED],
      ImageCall.transitionImageLayout Image.texture VkImageLayout.UNDEFINED
        VkImageLayout.TRANSFER_DST_OPTIMAL,
      ImageCall.copyBufferToImage Image.texture VkImageLayout.TRANSFER_DST_OPTIMAL,
      ImageCall.transitionImageLayout Image.texture VkImageLayout.TRANSFER_DST_OPTIMAL
        VkImageLayout.SHADER_READ_ONLY_OPTIMAL ]
  else
    [ ImageCall.createImage Image.texture [VkImageUsage.TRANSFER_DST, VkImageUsage.SAMPLED],
      ImageCall.transitionImageLayout Image.texture VkImageLayout.UNDEFINED
        VkImageLayout.TRANSFER_DST_OPTIMAL,
      ImageCall.copyBufferToImage Image.texture VkImageLayout.TRANSFER_DST_OPTIMAL,
      ImageCall.transitionImageLayout Image.texture VkImageLayout.TRANSFER_DST_OPTIMAL
        VkImageLayout.SHADER_READ_ONLY_OPTIMAL ]

/-- `createFeedbackBuffers` (lines 1517-1563): the body of the loop for
`i = 0, 1`. -/
def createFeedbackBuffers : List ImageCall :=
  (List.range 2).flatMap (fun i =>
    [ ImageCall.createImage (Image.feedback i)
        [VkImageUsage.COLOR_ATTACHMENT, VkImageUsage.SAMPLED, VkImageUsage.TRANSFER_SRC,
         VkImageUsage.TRANSFER_DST],
      ImageCall.createImageView (Image.feedback i),
      ImageCall.transitionImageLayout (Image.feedback i) VkImageLayout.UNDEFINED
        VkImageLayout.SHADER_READ_ONLY_OPTIMAL,
      ImageCall.createFramebuffer (Image.feedback i) ])

/-- The `imageUsage` with which `createSwapchain` creates the swapchain images
(line 896). -/
def swapchainImageUsage : List VkImageUsage := [VkImageUsage.COLOR_ATTACHMENT]

/-- The image calls of `initVulkan` in its order (lines 747 and 750). -/
def initImageCalls (pixelsLoaded : Bool) : List ImageCall :=
  createTextureImage pixelsLoaded ++ createFeedbackBuffers

/-- The layout of every image after a list of commands, each image being in the
new layout of the last barrier recorded on it. -/
def applyBarriers (layout : Image → VkImageLayout) (cmds : List Cmd) : Image → VkImageLayout :=
  cmds.foldl (fun l c =>
    match c with
    | Cmd.pipelineBarrier _ _ barriers =>
      barriers.foldl (fun l b => Function.update l b.image b.newLayout) l
    | _ => l) layout

/-- What is known about the images while they are set up: layout and usage of
each, the transition calls whose old layout was not the layout of the image,
and the exception that ended the set-up, if any. -/
structure ImageSetup where
  layout : Image → VkImageLayout
  usage : Image → List VkImageUsage
  chainBreaks : List ImageCall
  thrown : Option String

/-- Before any image exists; the swapchain images come from `createSwapchain`. -/
def noImages : ImageSetup :=
  { layout := fun _ => VkImageLayout.UNDEFINED
    usage := fun image =>
      match image with
      | Image.swapchain _ => swapchainImageUsage
      | _ => []
    chainBreaks := []
    thrown := none }

/-- One image call: `createImage` creates the image in layout `UNDEFINED` (line
1258) with the given usage; `transitionImageLayout` runs the function of that
name and, unless it throws, its barrier takes effect. -/
def runImageCall (t : ImageSetup) : ImageCall → ImageSetup
  | ImageCall.createImage image usage =>
    { t with
      layout := Function.update t.layout image VkImageLayout.UNDEFINED
      usage := Function.update t.usage image usage }
  | ImageCall.transitionImageLayout image oldLayout newLayout =>
    match (transitionImageLayout image oldLayout newLayout).thrown with
    | some message => { t with thrown := some message }
    | none =>
      { t with
        layout := applyBarriers t.layout (transitionImageLayout image oldLayout newLayout).recorded
        chainBreaks :=
          if oldLayout = t.layout image then t.chainBreaks
          else t.chainBreaks ++ [ImageCall.transitionImageLayout image oldLayout newLayout] }
  | _ => t

/-- The image calls in order, up to the first exception. -/
def runImageCalls : List ImageCall → ImageSetup → ImageSetup
  | [], t => t
  | call :: rest, t =>
    match (runImageCall t call).thrown with
    | some _ => runImageCall t call
    | none => runImageCalls rest (runImageCall t call)

/-- The `(oldLayout, newLayout)` pairs of the `transitionImageLayout` calls in a
list of image calls. -/
def transitionPairs : List ImageCall → List (Image × VkImageLayout × VkImageLayout)
  | [] => []
  | ImageCall.transitionImageLayout image oldLayout newLayout :: rest =>
    (image, oldLayout, newLayout) :: transitionPairs rest
  | _ :: rest => transitionPairs rest

/-- The usage a blit needs and the image was not created with: transfer-source
for the source image and transfer-destination for the destination image of
every `vkCmdBlitImage` in the commands. -/
def blitUsageMissing (usage : Image → List VkImageUsage) (cmds : List Cmd) :
    List (Image × VkImageUsage) :=
  cmds.flatMap (fun c =>
    match c with
    | Cmd.blitImage src _ dst _ _ _ _ _ _ =>
      (if VkImageUsage.TRANSFER_SRC ∈ usage src then [] else [(src, VkImageUsage.TRANSFER_SRC)]) ++
      (if VkImageUsage.TRANSFER_DST ∈ usage dst then [] else [(dst, VkImageUsage.TRANSFER_DST)])
    | _ => [])

/-! ### Shader paths as the specification words them -/

/-- The text before and the text after the last character of `s` that is one of
`chars`, if `s` has such a character. -/
def splitAtLast (chars s : List Char) : Option (List Char × List Char) :=
  match s.reverse.span (fun c => !decide (c ∈ chars)) with
  | (afterRev, _ :: beforeRev) => some (beforeRev.reverse, afterRev.reverse)
  | (_, []) => none

/-- The final path component: the text after the last `/` or `\`, or the whole
path if it has neither. -/
def finalComponent (path : List Char) : List Char :=
  match splitAtLast "/\\".toList path with
  | some (_, component) => component
  | none => path

/-- A name cut at its last `.`, or the whole name if it has none. -/
def cutAtLastDot (name : List Char) : List Char :=
  match splitAtLast ".".toList name with
  | some (stem, _) => stem
  | none => name

/-- The text before the last `/` or `\`, or `.` if the path has neither. -/
def textBeforeLastSeparator (path : List Char) : List Char :=
  match splitAtLast "/\\".toList path with
  | some (directory, _) => directory
  | none => ".".toList

/-! ### Resolving the fragment shader of a path -/

/-- The test `s.size() >= ext.size() && s.substr(s.size() - ext.size()) == ext`
of lines 264-265. -/
def hasSuffix (s ext : List Char) : Bool :=
  decide (s.length ≥ ext.length) && (substr s (s.length - ext.length) npos == ext)

/-- `resolveFragmentShader` (lines 228-287); `fileExists` is the file test of
the same name.  Each `for` loop returns at its first hit. -/
def resolveFragmentShader (fileExists : List Char → Bool) (path : List Char) : List Char :=
  let workingPath :=
    if !path.isEmpty && path.getLast? == some '.' then path.dropLast else path
  if fileExists workingPath then workingPath
  else
    let lastSlash := find_last_of workingPath "/".toList
    let lastDot := find_last_of workingPath ".".toList
    let hasExtension : Bool :=
      decide (lastDot ≠ npos) && (decide (lastSlash = npos) || decide (lastDot > lastSlash))
    let detected :=
      if !hasExtension then
        ([".frag", ".fsh", ".glsl"].map (fun ext => workingPath ++ ext.toList)).find? fileExists
      else none
    match detected with
    | some testPath => testPath
    | none =>
      match [".vert", ".vsh", ".geom", ".gsh"].find?
          (fun ext => hasSuffix workingPath ext.toList) with
      | some _ =>
        let baseName := getShaderBaseName workingPath
        let shaderDir := getShaderDirectory workingPath
        match ([".frag", ".fsh"].map
            (fun fragExt => shaderDir ++ "/".toList ++ baseName ++ fragExt.toList)).find?
            fileExists with
        | some fragPath => fragPath
        | none => workingPath
      | none => workingPath

/-- The sibling fragment shader `<dir>/<base><ext>` of a path. -/
def siblingShader (path : List Char) (ext : String) : List Char :=
  getShaderDirectory path ++ "/".toList ++ getShaderBaseName path ++ ext.toList

/-- A directory that holds `shaders/foo.vert` and `shaders/foo.frag`. -/
def vertexAndFragmentFiles (path : List Char) : Bool :=
  decide (path = "shaders/foo.vert".toList) || decide (path = "shaders/foo.frag".toList)

/-- A directory that holds only `shaders/foo.frag`. -/
def fragmentFileOnly (path : List Char) : Bool :=
  decide (path = "shaders/foo.frag".toList)

/-! ### The uniform block by the std140 rules -/

/-- Member types of a GLSL uniform block. -/
inductive GlslType where
  | float
  | vec2
  | vec3
  | vec4
  deriving DecidableEq, Repr

/-- Base alignment of a member under std140: a scalar has the alignment of its
size, a two-component vector twice that, three- and four-component vectors
four times that. -/
def GlslType.baseAlignment : GlslType → Nat
  | GlslType.float => 4
  | GlslType.vec2 => 8
  | GlslType.vec3 => 16
  | GlslType.vec4 => 16

/-- The bytes a member occupies. -/
def GlslType.byteSize : GlslType → Nat
  | GlslType.float => 4
  | GlslType.vec2 => 8
  | GlslType.vec3 => 12
  | GlslType.vec4 => 16

/-- The std140 offsets of the members of a block laid out from `off`: each
member goes to the next multiple of its base alignment. -/
def std140Offsets (off : Nat) : List GlslType → List Nat
  | [] => []
  | t :: rest =>
    alignUp off t.baseAlignment :: std140Offsets (alignUp off t.baseAlignment + t.byteSize) rest

/-- The end of the last member of a block laid out from `off`. -/
def std140End (off : Nat) : List GlslType → Nat
  | [] => off
  | t :: rest => std140End (alignUp off t.baseAlignment + t.byteSize) rest

/-- The uniform block as the claim declares it: `vec3`, `float`, `vec4`, `vec2`
and five `float`s. -/
def uniformBlockDecl : List GlslType :=
  [GlslType.vec3, GlslType.float, GlslType.vec4, GlslType.vec2, GlslType.float, GlslType.float,
   GlslType.float, GlslType.float, GlslType.float]

/-- The byte ranges `(offset, size)` of the members of a struct laid out from
`off` by the C++ rule. -/
def layoutRanges (off : Nat) : List MemberDecl → List (Nat × Nat)
  | [] => []
  | m :: rest =>
    (alignUp off m.align, m.size) :: layoutRanges (alignUp off m.align + m.size) rest

/-- Whether two byte ranges have no byte in common. -/
def rangesDisjoint (a b : Nat × Nat) : Bool :=
  decide (a.1 + a.2 ≤ b.1) || decide (b.1 + b.2 ≤ a.1)

/-! ## Part II — theorems -/

/-! ### The frame loop -/


theorem drawFrame_ok_iff {e : FrameEnv} {s s' : FrameState} :
    drawFrame e s = Except.ok s' ↔
      ∃ s1 s2, drawFramePrepare e s = Except.ok s1 ∧
        recordCommandBuffer e s1.currentFrame s1 = Except.ok s2 ∧
        drawFrameSubmit e s2 = Except.ok s' := by
  unfold drawFrame
  cases h1 : drawFramePrepare e s with
  | error m => simp [bind, Except.bind]
  | ok s1 =>
    cases h2 : recordCommandBuffer e s1.currentFrame s1 with
    | error m => simp [bind, Except.bind, h2]
    | ok s2 => simp [bind, Except.bind, h2]

theorem drawFramePrepare_ok {e : FrameEnv} {s s1 : FrameState}
    (h : drawFramePrepare e s = Except.ok s1) :
    (e.acquireResult = VkResult.VK_SUCCESS ∨ e.acquireResult = VkResult.VK_SUBOPTIMAL_KHR) ∧
    s1.currentFrame = s.currentFrame ∧
    s1.currentFeedbackBuffer = s.currentFeedbackBuffer ∧
    s1.descriptorFeedbackView =
      Function.update s.descriptorFeedbackView s.currentFrame (1 - s.currentFeedbackBuffer) ∧
    s1.graphicsPipeline = s.graphicsPipeline ∧ s1.pipelineLayout = s.pipelineLayout := by
  unfold drawFramePrepare at h
  by_cases hc : e.acquireResult ≠ VkResult.VK_SUCCESS ∧ e.acquireResult ≠ VkResult.VK_SUBOPTIMAL_KHR
  · simp [hc] at h
  · simp only [hc, if_false, Except.ok.injEq] at h
    subst h
    refine ⟨?_, rfl, rfl, rfl, rfl, rfl⟩
    by_contra hn
    exact hc ⟨fun h => hn (Or.inl h), fun h => hn (Or.inr h)⟩

theorem recordCommandBuffer_ok {e : FrameEnv} {slot : Nat} {s s2 : FrameState}
    (h : recordCommandBuffer e slot s = Except.ok s2) :
    s2.currentFrame = s.currentFrame ∧
    s2.currentFeedbackBuffer = s.currentFeedbackBuffer ∧
    s2.descriptorFeedbackView = s.descriptorFeedbackView ∧
    s2.commandBuffers = Function.update s.commandBuffers slot (recordedCommands s e.imageIndex) := by
  unfold recordCommandBuffer at h
  cases hb : e.beginCommandBufferOk <;> cases he : e.endCommandBufferOk <;> simp [hb, he] at h
  subst h
  exact ⟨rfl, rfl, rfl, rfl⟩

theorem drawFrameSubmit_ok {e : FrameEnv} {s s' : FrameState}
    (h : drawFrameSubmit e s = Except.ok s') :
    s'.currentFrame = (s.currentFrame + 1) % MAX_FRAMES_IN_FLIGHT ∧
    s'.currentFeedbackBuffer = 1 - s.currentFeedbackBuffer ∧
    s'.descriptorFeedbackView = s.descriptorFeedbackView ∧
    s'.commandBuffers = s.commandBuffers := by
  unfold drawFrameSubmit at h
  cases hq : e.queueSubmitOk <;> simp [hq] at h
  subst h
  exact ⟨rfl, rfl, rfl, rfl⟩

theorem drawFrame_ok_fields {e : FrameEnv} {s s' : FrameState} (h : drawFrame e s = Except.ok s') :
    s'.currentFeedbackBuffer = 1 - s.currentFeedbackBuffer ∧
    s'.currentFrame = (s.currentFrame + 1) % MAX_FRAMES_IN_FLIGHT := by
  obtain ⟨s1, s2, h1, h2, h3⟩ := drawFrame_ok_iff.mp h
  have a := drawFramePrepare_ok h1
  have b := recordCommandBuffer_ok h2
  have c := drawFrameSubmit_ok h3
  constructor
  · rw [c.2.1, b.2.1, a.2.2.1]
  · rw [c.1, b.1, a.2.1]

theorem drawFrame_good_ok {e : FrameEnv} (he : e.good) (s : FrameState) :
    ∃ s', drawFrame e s = Except.ok s' := by
  obtain ⟨ha, hb, hc, hd⟩ := he
  have hacq : ¬ (e.acquireResult ≠ VkResult.VK_SUCCESS ∧ e.acquireResult ≠ VkResult.VK_SUBOPTIMAL_KHR) := by
    rcases ha with h | h <;> simp [h]
  simp [drawFrame, drawFramePrepare, bind, Except.bind, hacq, recordCommandBuffer, drawFrameSubmit, hb, hc, hd]

theorem runFrames_good_ok (es : List FrameEnv) (hes : ∀ e ∈ es, e.good) (s : FrameState) :
    ∃ s', runFrames es s = Except.ok s' := by
  induction es generalizing s with
  | nil => exact ⟨s, rfl⟩
  | cons e es ih =>
    obtain ⟨s1, h1⟩ := drawFrame_good_ok (hes e (List.mem_cons_self _ _)) s
    obtain ⟨s2, h2⟩ := ih (fun x hx => hes x (List.mem_cons_of_mem _ hx)) s1
    exact ⟨s2, by simp [runFrames, h1, h2]⟩

theorem runFrames_feedback_parity (es : List FrameEnv) (s s' : FrameState) (k : Nat)
    (hk : s.currentFeedbackBuffer = ((k % 2 : Nat) : Int))
    (h : runFrames es s = Except.ok s') :
    s'.currentFeedbackBuffer = (((k + es.length) % 2 : Nat) : Int) := by
  induction es generalizing s k with
  | nil =>
    simp only [runFrames, Except.ok.injEq] at h
    subst h
    simpa using hk
  | cons e es ih =>
    simp only [runFrames] at h
    cases hd : drawFrame e s with
    | error m => simp [hd] at h
    | ok s1 =>
      simp only [hd] at h
      have hf := (drawFrame_ok_fields hd).1
      have := ih s1 (k + 1) (by rw [hf, hk]; omega) h
      rw [this, List.length_cons]
      congr 2
      omega

/-- C1: after `n` completed `drawFrame` calls (started from the state left by
`initVulkan`) the write index the next frame uses is `n mod 2`, the read index
is `1 - write`, both lie in `{0, 1}` and they differ; the next recording renders
into that write index.  Frames in which no Vulkan call fails always complete. -/
theorem C1_feedback_index_parity (p l w h : Nat) (es : List FrameEnv) :
    ((∀ e ∈ es, e.good) → ∃ s, runFrames es (initFrameState p l w h) = Except.ok s) ∧
    (∀ s, runFrames es (initFrameState p l w h) = Except.ok s →
      writeBuffer s = ((es.length % 2 : Nat) : Int) ∧
      readBuffer s = 1 - writeBuffer s ∧
      (writeBuffer s = 0 ∨ writeBuffer s = 1) ∧
      (readBuffer s = 0 ∨ readBuffer s = 1) ∧
      writeBuffer s ≠ readBuffer s ∧
      (∀ e s1, drawFramePrepare e s = Except.ok s1 →
        renderTarget (recordedCommands s1 e.imageIndex) = some ((es.length % 2 : Nat) : Int))) := by
  refine ⟨fun hes => runFrames_good_ok es hes _, fun s hs => ?_⟩
  have hpar := runFrames_feedback_parity es (initFrameState p l w h) s 0 rfl hs
  simp only [Nat.zero_add] at hpar
  have hlt : es.length % 2 < 2 := Nat.mod_lt _ (by decide)
  refine ⟨hpar, rfl, ?_, ?_, ?_, ?_⟩
  · unfold writeBuffer; rw [hpar]; omega
  · unfold readBuffer; rw [hpar]; omega
  · unfold writeBuffer readBuffer; rw [hpar]; omega
  · intro e s1 h1
    have a := drawFramePrepare_ok h1
    simp only [recordedCommands, renderTarget, writeBuffer, a.2.2.1, hpar]

/-- Witness for C1: three successful frames leave write index 1 and read index 0. -/
theorem C1_feedback_index_parity_witness :
    ∃ s, runFrames [successEnv 0, successEnv 1, successEnv 0] (initFrameState 1 1 1280 720)
        = Except.ok s ∧ writeBuffer s = 1 ∧ readBuffer s = 0 := by
  have hC := C1_feedback_index_parity 1 1 1280 720 [successEnv 0, successEnv 1, successEnv 0]
  obtain ⟨s, hs⟩ := hC.1 (by
    intro e he
    simp only [List.mem_cons, List.mem_singleton, List.not_mem_nil, or_false] at he
    rcases he with rfl | rfl | rfl <;> exact ⟨Or.inl rfl, rfl, rfl, rfl⟩)
  have hw := (hC.2 s hs).1
  have hr := (hC.2 s hs).2.1
  refine ⟨s, hs, ?_, ?_⟩
  · simpa using hw
  · rw [hr, hw]; rfl

/-- C2: in every `drawFrame` call that completes, the commands recorded for the
frame render into feedback image `w` and bind `descriptorSets[currentFrame]`,
and at recording time (and still at the end of the call) binding 2 of that set
references `feedbackImageViews[1 - w]`; on the very first frame this is view 1
although `createDescriptorSets` had bound view 0 in both sets. -/
theorem C2_feedback_descriptor_reads_other_buffer :
    (∀ (e : FrameEnv) (s s' : FrameState), drawFrame e s = Except.ok s' →
      ∃ s1 s2 w,
        drawFramePrepare e s = Except.ok s1 ∧
        recordCommandBuffer e s1.currentFrame s1 = Except.ok s2 ∧
        s2.commandBuffers s.currentFrame = recordedCommands s1 e.imageIndex ∧
        s'.commandBuffers s.currentFrame = recordedCommands s1 e.imageIndex ∧
        renderTarget (recordedCommands s1 e.imageIndex) = some w ∧
        w = s.currentFeedbackBuffer ∧
        boundDescriptorSet (recordedCommands s1 e.imageIndex) = some s.currentFrame ∧
        s1.descriptorFeedbackView s.currentFrame = 1 - w ∧
        s2.descriptorFeedbackView s.currentFrame = 1 - w ∧
        s'.descriptorFeedbackView s.currentFrame = 1 - w) ∧
    (∀ (p l w h : Nat) (e : FrameEnv) (s1 : FrameState),
      drawFramePrepare e (initFrameState p l w h) = Except.ok s1 →
        (initFrameState p l w h).descriptorFeedbackView 0 = 0 ∧
        (initFrameState p l w h).descriptorFeedbackView 1 = 0 ∧
        renderTarget (recordedCommands s1 e.imageIndex) = some 0 ∧
        boundDescriptorSet (recordedCommands s1 e.imageIndex) = some 0 ∧
        s1.descriptorFeedbackView 0 = 1) := by
  constructor
  · intro e s s' hd
    obtain ⟨s1, s2, h1, h2, h3⟩ := drawFrame_ok_iff.mp hd
    have a := drawFramePrepare_ok h1
    have b := recordCommandBuffer_ok h2
    have c := drawFrameSubmit_ok h3
    refine ⟨s1, s2, s.currentFeedbackBuffer, h1, h2, ?_, ?_, ?_, rfl, ?_, ?_, ?_, ?_⟩
    · rw [b.2.2.2, a.2.1, Function.update_same]
    · rw [c.2.2.2, b.2.2.2, a.2.1, Function.update_same]
    · simp only [recordedCommands, renderTarget, writeBuffer, a.2.2.1]
    · simp only [recordedCommands, boundDescriptorSet, a.2.1]
    · rw [a.2.2.2.1, Function.update_same]
    · rw [b.2.2.1, a.2.2.2.1, Function.update_same]
    · rw [c.2.2.1, b.2.2.1, a.2.2.2.1, Function.update_same]
  · intro p l w h e s1 h1
    have a := drawFramePrepare_ok h1
    refine ⟨rfl, rfl, ?_, ?_, ?_⟩
    · simp only [recordedCommands, renderTarget, writeBuffer, a.2.2.1]; rfl
    · simp only [recordedCommands, boundDescriptorSet, a.2.1]; rfl
    · rw [a.2.2.2.1]; rfl

/-- Witness for C2: the first frame after start-up. -/
theorem C2_feedback_descriptor_reads_other_buffer_witness :
    ∃ s', drawFrame (successEnv 0) (initFrameState 1 1 1280 720) = Except.ok s' ∧
      s'.descriptorFeedbackView 0 = 1 ∧
      renderTarget (s'.commandBuffers 0) = some 0 := by
  obtain ⟨s', hs'⟩ := @drawFrame_good_ok (successEnv 0) ⟨Or.inl rfl, rfl, rfl, rfl⟩
    (initFrameState 1 1 1280 720)
  obtain ⟨s1, s2, w, -, -, -, hc, ht, hw, -, -, -, hv⟩ :=
    C2_feedback_descriptor_reads_other_buffer.1 _ _ _ hs'
  refine ⟨s', hs', ?_, ?_⟩
  · rw [show (0 : Nat) = (initFrameState 1 1 1280 720).currentFrame from rfl, hv, hw]; rfl
  · rw [show (0 : Nat) = (initFrameState 1 1 1280 720).currentFrame from rfl, hc, ht, hw]; rfl

/-! ### Mouse state and the uniform block -/

theorem runInput_append {D F : Type} [Add F] [Sub F] [Mul F] [Div F] [Neg F] [Zero F] [One F] (c : FloatCast D F) (ew eh : Nat) (xs ys : List (Step D F))
    (s : InputState D F) :
    runInput c ew eh (xs ++ ys) s = runInput c ew eh ys (runInput c ew eh xs s) := by
  induction xs generalizing s with
  | nil => rfl
  | cons x xs ih => exact ih _

theorem runInput_cons {D F : Type} [Add F] [Sub F] [Mul F] [Div F] [Neg F] [Zero F] [One F] (c : FloatCast D F) (ew eh : Nat) (x : Step D F) (xs : List (Step D F))
    (s : InputState D F) :
    runInput c ew eh (x :: xs) s = runInput c ew eh xs (stepInput c ew eh x s) := rfl

theorem keyCallback_mouse {D F : Type} [Add F] [Sub F] [Zero F] [One F] (k a : Int) (s : InputState D F) :
    (keyCallback k a s).1.mouseX = s.mouseX ∧ (keyCallback k a s).1.mouseY = s.mouseY ∧
    (keyCallback k a s).1.mouseClickX = s.mouseClickX ∧
    (keyCallback k a s).1.mouseClickY = s.mouseClickY ∧
    (∀ i, pressedFlag (keyCallback k a s).1 i = pressedFlag s i) ∧
    (keyCallback k a s).1.buttonPressDuration = s.buttonPressDuration ∧
    (keyCallback k a s).1.lastTime = s.lastTime := by
  unfold keyCallback
  split_ifs <;> refine ⟨rfl, rfl, rfl, rfl, ?_, rfl, rfl⟩ <;> intro i <;> fin_cases i <;> rfl

theorem mouseButtonCallback_pos {D F : Type} [Zero F] (b a : Int) (s : InputState D F) :
    (mouseButtonCallback b a s).mouseX = s.mouseX ∧
    (mouseButtonCallback b a s).mouseY = s.mouseY ∧
    (mouseButtonCallback b a s).scrollX = s.scrollX ∧
    (mouseButtonCallback b a s).scrollY = s.scrollY ∧
    (mouseButtonCallback b a s).lastTime = s.lastTime := by
  unfold mouseButtonCallback
  dsimp only
  split_ifs <;> exact ⟨rfl, rfl, rfl, rfl, rfl⟩

theorem mouseButtonCallback_not_left {D F : Type} [Zero F] (b a : Int) (s : InputState D F)
    (hb : b ≠ GLFW_MOUSE_BUTTON_LEFT) :
    (mouseButtonCallback b a s).mouseLeftPressed = s.mouseLeftPressed ∧
    (mouseButtonCallback b a s).mouseClickX = s.mouseClickX ∧
    (mouseButtonCallback b a s).mouseClickY = s.mouseClickY := by
  unfold mouseButtonCallback
  dsimp only
  rw [if_neg hb]
  split_ifs <;> exact ⟨rfl, rfl, rfl⟩

theorem mouseButtonCallback_left_press {D F : Type} [Zero F] (s : InputState D F) :
    (mouseButtonCallback GLFW_MOUSE_BUTTON_LEFT GLFW_PRESS s).mouseLeftPressed = true ∧
    (mouseButtonCallback GLFW_MOUSE_BUTTON_LEFT GLFW_PRESS s).mouseClickX = s.mouseX ∧
    (mouseButtonCallback GLFW_MOUSE_BUTTON_LEFT GLFW_PRESS s).mouseClickY = s.mouseY ∧
    (mouseButtonCallback GLFW_MOUSE_BUTTON_LEFT GLFW_PRESS s).mouseX = s.mouseX ∧
    (mouseButtonCallback GLFW_MOUSE_BUTTON_LEFT GLFW_PRESS s).mouseY = s.mouseY := by
  simp [mouseButtonCallback]

theorem mouseButtonCallback_left_release {D F : Type} [Zero F] (a : Int) (ha : a ≠ GLFW_PRESS) (s : InputState D F) :
    (mouseButtonCallback GLFW_MOUSE_BUTTON_LEFT a s).mouseLeftPressed = false ∧
    (mouseButtonCallback GLFW_MOUSE_BUTTON_LEFT a s).mouseClickX = s.mouseClickX ∧
    (mouseButtonCallback GLFW_MOUSE_BUTTON_LEFT a s).mouseClickY = s.mouseClickY ∧
    (mouseButtonCallback GLFW_MOUSE_BUTTON_LEFT a s).mouseX = s.mouseX ∧
    (mouseButtonCallback GLFW_MOUSE_BUTTON_LEFT a s).mouseY = s.mouseY := by
  simp [mouseButtonCallback, ha]

/-- Steps without a left-button event keep the left flag and the click origin. -/
theorem runInput_no_left {D F : Type} [Add F] [Sub F] [Mul F] [Div F] [Neg F] [Zero F] [One F] (c : FloatCast D F) (ew eh : Nat) (steps : List (Step D F))
    (h : ∀ b a, Step.event (Event.mouseButton b a) ∈ steps → b ≠ GLFW_MOUSE_BUTTON_LEFT)
    (s : InputState D F) :
    (runInput c ew eh steps s).mouseLeftPressed = s.mouseLeftPressed ∧
    (runInput c ew eh steps s).mouseClickX = s.mouseClickX ∧
    (runInput c ew eh steps s).mouseClickY = s.mouseClickY := by
  induction steps generalizing s with
  | nil => exact ⟨rfl, rfl, rfl⟩
  | cons st rest ih =>
    have hrest : ∀ b a, Step.event (Event.mouseButton b a) ∈ rest → b ≠ GLFW_MOUSE_BUTTON_LEFT :=
      fun b a hm => h b a (List.mem_cons_of_mem _ hm)
    have hstep : (stepInput c ew eh st s).mouseLeftPressed = s.mouseLeftPressed ∧
        (stepInput c ew eh st s).mouseClickX = s.mouseClickX ∧
        (stepInput c ew eh st s).mouseClickY = s.mouseClickY := by
      cases st with
      | frame t w h => exact ⟨rfl, rfl, rfl⟩
      | event e =>
        cases e with
        | key k a =>
          have hk := keyCallback_mouse k a s
          exact ⟨hk.2.2.2.2.1 0, hk.2.2.1, hk.2.2.2.1⟩
        | mouseButton b a =>
          exact mouseButtonCallback_not_left b a s (h b a (List.mem_cons_self _ _))
        | cursorPos x y => exact ⟨rfl, rfl, rfl⟩
        | scroll x y => exact ⟨rfl, rfl, rfl⟩
    have := ih hrest (stepInput c ew eh st s)
    simp only [runInput]
    rw [this.1, this.2.1, this.2.2, hstep.1, hstep.2.1, hstep.2.2]
    exact ⟨rfl, rfl, rfl⟩

/-- The cursor fields always hold the position of the last `cursorPos` event. -/
theorem runInput_mouse_pos {D F : Type} [Add F] [Sub F] [Mul F] [Div F] [Neg F] [Zero F] [One F] (c : FloatCast D F) (ew eh : Nat) (steps : List (Step D F))
    (s : InputState D F) :
    ((runInput c ew eh steps s).mouseX, (runInput c ew eh steps s).mouseY) =
      lastCursor steps (s.mouseX, s.mouseY) := by
  induction steps generalizing s with
  | nil => rfl
  | cons st rest ih =>
    simp only [runInput]
    rw [ih]
    cases st with
    | frame t w h => rfl
    | event e =>
      cases e with
      | key k a =>
        have hk := keyCallback_mouse k a s
        simp only [stepInput, handleEvent, lastCursor, hk.1, hk.2.1]
      | mouseButton b a =>
        have hk := mouseButtonCallback_pos b a s
        simp only [stepInput, handleEvent, lastCursor, hk.1, hk.2.1]
      | cursorPos x y => rfl
      | scroll x y => rfl


theorem lastCursor_append {D F : Type} (xs ys : List (Step D F)) (p : D × D) :
    lastCursor (xs ++ ys) p = lastCursor ys (lastCursor xs p) := by
  induction xs generalizing p with
  | nil => rfl
  | cons x xs ih =>
    cases x with
    | frame t w h => exact ih p
    | event e =>
      cases e with
      | key k a => exact ih p
      | mouseButton b a => exact ih p
      | cursorPos x y => exact ih (x, y)
      | scroll x y => exact ih p
/-- C3: `updateUniformBuffer` writes `iMouse = (sx*mx, sy*my, sx*cx, sy*cy)` while
the left button is held and `(sx*mx, sy*my, -(sx*cx), -(sy*cy))` once it is
released, where `(mx, my)` is the last cursor position, `(cx, cy)` the cursor
position at the most recent left press and `sx`, `sy` the framebuffer-to-window
ratios (the only law of float arithmetic used is commutativity of `*`); with
ratio 1, a click at (100,100) dragged to (150,120) gives `(150,120,100,100)`
held and `(150,120,-100,-100)` released. -/
theorem C3_mouse_encoding :
    (∀ (D F : Type) [Add F] [Sub F] [Mul F] [Div F] [Neg F] [Zero F] [One F]
        (c : FloatCast D F) (ew eh : Nat),
      (∀ a b : F, a * b = b * a) →
      ∀ (pre hold post : List (Step D F)) (s0 : InputState D F) (a : Int) (t : F) (ww wh : Int),
        (∀ b x, Step.event (Event.mouseButton b x) ∈ hold → b ≠ GLFW_MOUSE_BUTTON_LEFT) →
        (∀ b x, Step.event (Event.mouseButton b x) ∈ post → b ≠ GLFW_MOUSE_BUTTON_LEFT) →
        a ≠ GLFW_PRESS →
        (updateUniformBuffer c ew eh t ww wh
            (runInput c ew eh
              (pre ++ Step.event (Event.mouseButton GLFW_MOUSE_BUTTON_LEFT GLFW_PRESS) :: hold)
              s0)).2.iMouse =
          ((c.ofUInt32 ew / c.ofInt ww) *
              c.ofDouble (lastCursor hold
                ((runInput c ew eh pre s0).mouseX, (runInput c ew eh pre s0).mouseY)).1,
           (c.ofUInt32 eh / c.ofInt wh) *
              c.ofDouble (lastCursor hold
                ((runInput c ew eh pre s0).mouseX, (runInput c ew eh pre s0).mouseY)).2,
           (c.ofUInt32 ew / c.ofInt ww) * c.ofDouble (runInput c ew eh pre s0).mouseX,
           (c.ofUInt32 eh / c.ofInt wh) * c.ofDouble (runInput c ew eh pre s0).mouseY) ∧
        (updateUniformBuffer c ew eh t ww wh
            (runInput c ew eh
              (pre ++ Step.event (Event.mouseButton GLFW_MOUSE_BUTTON_LEFT GLFW_PRESS) :: hold ++
                Step.event (Event.mouseButton GLFW_MOUSE_BUTTON_LEFT a) :: post)
              s0)).2.iMouse =
          ((c.ofUInt32 ew / c.ofInt ww) *
              c.ofDouble (lastCursor (hold ++ post)
                ((runInput c ew eh pre s0).mouseX, (runInput c ew eh pre s0).mouseY)).1,
           (c.ofUInt32 eh / c.ofInt wh) *
              c.ofDouble (lastCursor (hold ++ post)
                ((runInput c ew eh pre s0).mouseX, (runInput c ew eh pre s0).mouseY)).2,
           -((c.ofUInt32 ew / c.ofInt ww) * c.ofDouble (runInput c ew eh pre s0).mouseX),
           -((c.ofUInt32 eh / c.ofInt wh) * c.ofDouble (runInput c ew eh pre s0).mouseY))) ∧
    (∀ t : ℚ,
      (updateUniformBuffer ratCast 1280 720 t 1280 720
          (runInput ratCast 1280 720
            [Step.event (Event.cursorPos 100 100),
             Step.event (Event.mouseButton GLFW_MOUSE_BUTTON_LEFT GLFW_PRESS),
             Step.event (Event.cursorPos 150 120)]
            (initInputState ℚ ℚ))).2.iMouse = (150, 120, 100, 100) ∧
      (updateUniformBuffer ratCast 1280 720 t 1280 720
          (runInput ratCast 1280 720
            [Step.event (Event.cursorPos 100 100),
             Step.event (Event.mouseButton GLFW_MOUSE_BUTTON_LEFT GLFW_PRESS),
             Step.event (Event.cursorPos 150 120),
             Step.event (Event.mouseButton GLFW_MOUSE_BUTTON_LEFT GLFW_RELEASE)]
            (initInputState ℚ ℚ))).2.iMouse = (150, 120, -100, -100)) := by
  constructor
  · intro D F _ _ _ _ _ _ _ c ew eh hcomm pre hold post s0 a t ww wh hhold hpost ha
    constructor
    · rw [runInput_append, runInput_cons]
      generalize runInput c ew eh pre s0 = s
      have hp := mouseButtonCallback_left_press s
      have hn := runInput_no_left c ew eh hold hhold
        (stepInput c ew eh (Step.event (Event.mouseButton GLFW_MOUSE_BUTTON_LEFT GLFW_PRESS)) s)
      have hm := runInput_mouse_pos c ew eh hold
        (stepInput c ew eh (Step.event (Event.mouseButton GLFW_MOUSE_BUTTON_LEFT GLFW_PRESS)) s)
      simp only [stepInput, handleEvent] at hn hm
      rw [hp.1, hp.2.1, hp.2.2.1] at hn
      rw [hp.2.2.2.1, hp.2.2.2.2] at hm
      rw [← hm]
      simp only [updateUniformBuffer, stepInput, handleEvent, hn.1, hn.2.1, hn.2.2, if_true]
      simp only [hcomm]
    · rw [show pre ++ Step.event (Event.mouseButton GLFW_MOUSE_BUTTON_LEFT GLFW_PRESS) :: hold ++
            Step.event (Event.mouseButton GLFW_MOUSE_BUTTON_LEFT a) :: post =
          pre ++ (Step.event (Event.mouseButton GLFW_MOUSE_BUTTON_LEFT GLFW_PRESS) :: hold ++
            Step.event (Event.mouseButton GLFW_MOUSE_BUTTON_LEFT a) :: post) by simp]
      rw [runInput_append, runInput_append, runInput_cons, runInput_cons]
      generalize runInput c ew eh pre s0 = s
      have hp := mouseButtonCallback_left_press s
      set s1 := stepInput c ew eh
        (Step.event (Event.mouseButton GLFW_MOUSE_BUTTON_LEFT GLFW_PRESS)) s with hs1
      have hs1p : s1.mouseLeftPressed = true ∧ s1.mouseClickX = s.mouseX ∧
          s1.mouseClickY = s.mouseY ∧ s1.mouseX = s.mouseX ∧ s1.mouseY = s.mouseY := hp
      have hn := runInput_no_left c ew eh hold hhold s1
      have hm := runInput_mouse_pos c ew eh hold s1
      set s2 := runInput c ew eh hold s1 with hs2
      have hr := mouseButtonCallback_left_release a ha s2
      set s3 := stepInput c ew eh (Step.event (Event.mouseButton GLFW_MOUSE_BUTTON_LEFT a)) s2
        with hs3
      have hs3p : s3.mouseLeftPressed = false ∧ s3.mouseClickX = s2.mouseClickX ∧
          s3.mouseClickY = s2.mouseClickY ∧ s3.mouseX = s2.mouseX ∧ s3.mouseY = s2.mouseY := hr
      have hn3 := runInput_no_left c ew eh post hpost s3
      have hm3 := runInput_mouse_pos c ew eh post s3
      have hlc := lastCursor_append hold post (s.mouseX, s.mouseY)
      rw [hlc, ← hs1p.2.2.2.1, ← hs1p.2.2.2.2, ← hm, ← hs3p.2.2.2.1, ← hs3p.2.2.2.2, ← hm3]
      simp only [updateUniformBuffer, hn3.1, hn3.2.1, hn3.2.2, hs3p.1, hs3p.2.1, hs3p.2.2.1,
        hn.2.1, hn.2.2, hs1p.2.1, hs1p.2.2.1]
      simp [hcomm, hs1p.2.2.2.1, hs1p.2.2.2.2]
  · intro t
    constructor
    · simp [updateUniformBuffer, runInput, stepInput, handleEvent, cursorPosCallback,
        mouseButtonCallback, initInputState, ratCast, GLFW_MOUSE_BUTTON_LEFT, GLFW_PRESS]
    · simp [updateUniformBuffer, runInput, stepInput, handleEvent, cursorPosCallback,
        mouseButtonCallback, initInputState, ratCast, GLFW_MOUSE_BUTTON_LEFT, GLFW_PRESS,
        GLFW_RELEASE]
/-- Witness for C3: on a display with ratio 2, a click at (100,100) dragged to
(150,120) and still held. -/
theorem C3_mouse_encoding_witness :
    (updateUniformBuffer ratCast 2560 1440 0 1280 720
        (runInput ratCast 2560 1440
          ([Step.event (Event.cursorPos 100 100)] ++
            Step.event (Event.mouseButton GLFW_MOUSE_BUTTON_LEFT GLFW_PRESS) ::
              [Step.event (Event.cursorPos 150 120)])
          (initInputState ℚ ℚ))).2.iMouse = (300, 240, 200, 200) := by
  have h := (C3_mouse_encoding.1 ℚ ℚ ratCast 2560 1440 (fun a b => mul_comm a b)
    [Step.event (Event.cursorPos 100 100)] [Step.event (Event.cursorPos 150 120)] []
    (initInputState ℚ ℚ) GLFW_RELEASE 0 1280 720 (by simp) (by simp) (by decide)).1
  rw [h]
  simp only [runInput, stepInput, handleEvent, cursorPosCallback, lastCursor, ratCast]
  norm_num

/-! ### Button hold-durations -/

theorem addWhilePressed_apply {F : Type} [Add F] (flag : Bool) (i j : Fin 5) (δ : F)
    (d : Fin 5 → F) :
    addWhilePressed flag i δ d j = if flag = true ∧ j = i then d j + δ else d j := by
  unfold addWhilePressed
  by_cases hf : flag = true
  · by_cases hj : j = i
    · subst hj; simp [hf]
    · simp [hf, hj, Function.update_noteq hj]
  · simp [hf]

/-- The effect of `updateUniformBuffer` on one hold-duration and its flag, and
the value it writes for that button. -/
theorem updateUniformBuffer_duration {D F : Type} [Add F] [Sub F] [Mul F] [Div F] [Neg F] [One F]
    (c : FloatCast D F) (ew eh : Nat) (t : F) (ww wh : Int) (s : InputState D F) (i : Fin 5) :
    (updateUniformBuffer c ew eh t ww wh s).1.buttonPressDuration i =
      (if pressedFlag s i = true then s.buttonPressDuration i + (t - s.lastTime)
       else s.buttonPressDuration i) ∧
    pressedFlag (updateUniformBuffer c ew eh t ww wh s).1 i = pressedFlag s i ∧
    (updateUniformBuffer c ew eh t ww wh s).2.button i =
      (updateUniformBuffer c ew eh t ww wh s).1.buttonPressDuration i ∧
    (updateUniformBuffer c ew eh t ww wh s).1.lastTime = t := by
  refine ⟨?_, ?_, ?_, rfl⟩
  · simp only [updateUniformBuffer, addWhilePressed_apply]
    fin_cases i <;> simp [pressedFlag]
  · fin_cases i <;> rfl
  · fin_cases i <;> rfl

/-- The effect of `mouseButtonCallback` on the duration and flag of button `i`. -/
theorem mouseButtonCallback_duration {D F : Type} [Zero F] (b a : Int) (s : InputState D F)
    (i : Fin 5) :
    (b = ((i : Nat) : Int) → a = GLFW_PRESS →
      (mouseButtonCallback b a s).buttonPressDuration i = 0 ∧
      pressedFlag (mouseButtonCallback b a s) i = true) ∧
    (b = ((i : Nat) : Int) → a ≠ GLFW_PRESS →
      (mouseButtonCallback b a s).buttonPressDuration = s.buttonPressDuration ∧
      pressedFlag (mouseButtonCallback b a s) i = false) ∧
    (b ≠ ((i : Nat) : Int) →
      (mouseButtonCallback b a s).buttonPressDuration i = s.buttonPressDuration i ∧
      pressedFlag (mouseButtonCallback b a s) i = pressedFlag s i) := by
  refine ⟨?_, ?_, ?_⟩
  · intro hb ha
    subst hb ha
    fin_cases i <;>
      simp [mouseButtonCallback, pressedFlag, GLFW_MOUSE_BUTTON_LEFT, GLFW_MOUSE_BUTTON_RIGHT,
        GLFW_MOUSE_BUTTON_MIDDLE, GLFW_PRESS]
  · intro hb ha
    subst hb
    fin_cases i <;>
      simp [mouseButtonCallback, pressedFlag, GLFW_MOUSE_BUTTON_LEFT, GLFW_MOUSE_BUTTON_RIGHT,
        GLFW_MOUSE_BUTTON_MIDDLE, ha]
  · intro hb
    unfold mouseButtonCallback
    dsimp only
    fin_cases i <;> simp only [GLFW_MOUSE_BUTTON_LEFT, GLFW_MOUSE_BUTTON_RIGHT,
        GLFW_MOUSE_BUTTON_MIDDLE] at hb ⊢ <;> split_ifs <;>
      simp_all [pressedFlag, Function.update]
/-- C4: for each of the five buttons `i`, in every state (hence along every
interleaving of events and frames): a frame with non-negative delta does not
decrease `buttonPressDuration[i]` while button `i` is held; a frame leaves it
unchanged while the button is not held; a release event of the button leaves
it unchanged; a press event of the button sets it to exactly 0; an event of a
different button, a key, cursor or scroll event does not change it.  Held and
not held are the flag set by the press and cleared by the release of that same
button, which nothing else changes.  The only law of float arithmetic used is
`0 ≤ δ → d ≤ d + δ`. -/
theorem C4_hold_duration_steps {D F : Type} [Add F] [Sub F] [Mul F] [Div F] [Neg F] [Zero F]
    [One F] [LE F] (c : FloatCast D F) (ew eh : Nat)
    (hmono : ∀ d δ : F, 0 ≤ δ → d ≤ d + δ) (s : InputState D F) (i : Fin 5) :
    (∀ t ww wh, pressedFlag s i = true → 0 ≤ t - s.lastTime →
      s.buttonPressDuration i ≤
        (stepInput c ew eh (Step.frame t ww wh) s).buttonPressDuration i) ∧
    (∀ t ww wh, pressedFlag s i = false →
      (stepInput c ew eh (Step.frame t ww wh) s).buttonPressDuration i =
        s.buttonPressDuration i) ∧
    (∀ t ww wh, pressedFlag (stepInput c ew eh (Step.frame t ww wh) s) i = pressedFlag s i) ∧
    (∀ a, a ≠ GLFW_PRESS →
      (stepInput c ew eh (Step.event (Event.mouseButton ((i : Nat) : Int) a)) s).buttonPressDuration i
        = s.buttonPressDuration i ∧
      pressedFlag (stepInput c ew eh (Step.event (Event.mouseButton ((i : Nat) : Int) a)) s) i
        = false) ∧
    ((stepInput c ew eh
        (Step.event (Event.mouseButton ((i : Nat) : Int) GLFW_PRESS)) s).buttonPressDuration i = 0 ∧
      pressedFlag (stepInput c ew eh
        (Step.event (Event.mouseButton ((i : Nat) : Int) GLFW_PRESS)) s) i = true) ∧
    (∀ b a, b ≠ ((i : Nat) : Int) →
      (stepInput c ew eh (Step.event (Event.mouseButton b a)) s).buttonPressDuration i
        = s.buttonPressDuration i ∧
      pressedFlag (stepInput c ew eh (Step.event (Event.mouseButton b a)) s) i
        = pressedFlag s i) ∧
    (∀ e : Event D, (∀ b a, e ≠ Event.mouseButton b a) →
      (stepInput c ew eh (Step.event e) s).buttonPressDuration i = s.buttonPressDuration i ∧
      pressedFlag (stepInput c ew eh (Step.event e) s) i = pressedFlag s i) := by
  refine ⟨?_, ?_, ?_, ?_, ?_, ?_, ?_⟩
  · intro t ww wh hheld hδ
    have h := (updateUniformBuffer_duration c ew eh t ww wh s i).1
    simp only [stepInput]
    rw [h, if_pos hheld]
    exact hmono _ _ hδ
  · intro t ww wh hup
    have h := (updateUniformBuffer_duration c ew eh t ww wh s i).1
    simp only [stepInput]
    rw [h, if_neg (by simp [hup])]
  · intro t ww wh
    exact (updateUniformBuffer_duration c ew eh t ww wh s i).2.1
  · intro a ha
    have h := (mouseButtonCallback_duration ((i : Nat) : Int) a s i).2.1 rfl ha
    exact ⟨by simp only [stepInput, handleEvent]; rw [h.1], h.2⟩
  · exact (mouseButtonCallback_duration ((i : Nat) : Int) GLFW_PRESS s i).1 rfl rfl
  · intro b a hb
    exact (mouseButtonCallback_duration b a s i).2.2 hb
  · intro e he
    cases e with
    | key k a =>
      have hk := keyCallback_mouse k a s
      exact ⟨by simp only [stepInput, handleEvent]; rw [hk.2.2.2.2.2.1], hk.2.2.2.2.1 i⟩
    | mouseButton b a => exact absurd rfl (he b a)
    | cursorPos x y => exact ⟨rfl, by fin_cases i <;> rfl⟩
    | scroll x y => exact ⟨rfl, by fin_cases i <;> rfl⟩

/-- Witness for C4: the left button held since a press, then a frame half a
second after start-up. -/
theorem C4_hold_duration_steps_witness :
    (runInput ratCast 1280 720
        [Step.event (Event.mouseButton 0 GLFW_PRESS)] (initInputState ℚ ℚ)).buttonPressDuration 0 ≤
      (stepInput ratCast 1280 720 (Step.frame (1 / 2) 1280 720)
        (runInput ratCast 1280 720
          [Step.event (Event.mouseButton 0 GLFW_PRESS)] (initInputState ℚ ℚ))).buttonPressDuration 0 :=
  (C4_hold_duration_steps ratCast 1280 720 (fun _ _ h => le_add_of_nonneg_right h)
    (runInput ratCast 1280 720 [Step.event (Event.mouseButton 0 GLFW_PRESS)] (initInputState ℚ ℚ))
    0).1 (1 / 2) 1280 720 (by
      simp [runInput, stepInput, handleEvent, mouseButtonCallback, pressedFlag, initInputState,
        GLFW_MOUSE_BUTTON_LEFT, GLFW_PRESS]) (by
      simp [runInput, stepInput, handleEvent, mouseButtonCallback, initInputState,
        GLFW_MOUSE_BUTTON_LEFT, GLFW_PRESS])

/-- Counterexample to C5: with frames at 1/4, 3/4 and 1 s, a press at 1/2 s and
a release at 7/8 s, the frame after the release writes 1/2, not 7/8 - 1/2; in
the example of the specification (press at 0, release at 1/2) with frames at
1/4 and 3/4 s it writes 1/4, not 1/2. -/
theorem C5_counterexample :
    List.Pairwise (fun x y => x ≤ y) (holdTraceA.map TimedStep.time) ∧
    pressTime 0 holdTraceA = some (1 / 2) ∧
    releaseTime 0 holdTraceA = some (7 / 8) ∧
    lastWrittenDuration ratCast 1280 720 0 (holdTraceA.map TimedStep.untimed)
      (initInputState ℚ ℚ) none = some (1 / 2) ∧
    (1 / 2 : ℚ) ≠ 7 / 8 - 1 / 2 ∧
    List.Pairwise (fun x y => x ≤ y) (holdTraceB.map TimedStep.time) ∧
    pressTime 0 holdTraceB = some 0 ∧
    releaseTime 0 holdTraceB = some (1 / 2) ∧
    lastWrittenDuration ratCast 1280 720 0 (holdTraceB.map TimedStep.untimed)
      (initInputState ℚ ℚ) none = some (1 / 4) ∧
    (1 / 4 : ℚ) ≠ 1 / 2 - 0 := by
  refine ⟨?_, ?_, ?_, ?_, ?_, ?_, ?_, ?_, ?_, ?_⟩
  · simp [holdTraceA, TimedStep.time]; norm_num
  · simp [holdTraceA, pressTime, GLFW_MOUSE_BUTTON_LEFT, GLFW_PRESS, GLFW_RELEASE]
  · simp [holdTraceA, releaseTime, GLFW_MOUSE_BUTTON_LEFT, GLFW_PRESS, GLFW_RELEASE]
  · simp [holdTraceA, lastWrittenDuration, TimedStep.untimed, updateUniformBuffer, handleEvent,
      mouseButtonCallback, addWhilePressed, UniformBufferObject.button, initInputState,
      GLFW_MOUSE_BUTTON_LEFT, GLFW_PRESS, GLFW_RELEASE]
    norm_num
  · norm_num
  · simp [holdTraceB, TimedStep.time]; norm_num
  · simp [holdTraceB, pressTime, GLFW_MOUSE_BUTTON_LEFT, GLFW_PRESS, GLFW_RELEASE]
  · simp [holdTraceB, releaseTime, GLFW_MOUSE_BUTTON_LEFT, GLFW_PRESS, GLFW_RELEASE]
  · simp [holdTraceB, lastWrittenDuration, TimedStep.untimed, updateUniformBuffer, handleEvent,
      mouseButtonCallback, addWhilePressed, UniformBufferObject.button, initInputState,
      GLFW_MOUSE_BUTTON_LEFT, GLFW_PRESS, GLFW_RELEASE]
  · norm_num
theorem stepInput_event_lastTime {D F : Type} [Add F] [Sub F] [Mul F] [Div F] [Neg F] [Zero F]
    [One F] (c : FloatCast D F) (ew eh : Nat) (e : Event D) (s : InputState D F) :
    (stepInput c ew eh (Step.event e) s).lastTime = s.lastTime := by
  cases e with
  | key k a => exact (keyCallback_mouse k a s).2.2.2.2.2.2
  | mouseButton b a => exact (mouseButtonCallback_pos b a s).2.2.2.2
  | cursorPos x y => rfl
  | scroll x y => rfl

/-- The `lastTime` static always holds the clock reading of the last frame. -/
theorem runInput_lastTime {D F : Type} [Add F] [Sub F] [Mul F] [Div F] [Neg F] [Zero F] [One F]
    (c : FloatCast D F) (ew eh : Nat) (steps : List (Step D F)) (s : InputState D F) :
    (runInput c ew eh steps s).lastTime = lastFrameTime steps s.lastTime := by
  induction steps generalizing s with
  | nil => rfl
  | cons st rest ih =>
    rw [runInput_cons, ih]
    cases st with
    | frame t w h => rfl
    | event e => simp only [lastFrameTime, stepInput_event_lastTime]

/-- While button `i` stays held, its duration accumulates the frame deltas. -/
theorem runInput_held {D F : Type} [Add F] [Sub F] [Mul F] [Div F] [Neg F] [Zero F] [One F]
    (c : FloatCast D F) (ew eh : Nat) (i : Fin 5) (steps : List (Step D F))
    (h : ∀ b a, Step.event (Event.mouseButton b a) ∈ steps → b ≠ ((i : Nat) : Int))
    (s : InputState D F) (hs : pressedFlag s i = true) :
    (runInput c ew eh steps s).buttonPressDuration i =
      accumulate (s.buttonPressDuration i) s.lastTime (frameTimes steps) ∧
    pressedFlag (runInput c ew eh steps s) i = true := by
  induction steps generalizing s with
  | nil => exact ⟨rfl, hs⟩
  | cons st rest ih =>
    have hrest : ∀ b a, Step.event (Event.mouseButton b a) ∈ rest → b ≠ ((i : Nat) : Int) :=
      fun b a hm => h b a (List.mem_cons_of_mem _ hm)
    rw [runInput_cons]
    cases st with
    | frame t w hh =>
      have hu := updateUniformBuffer_duration c ew eh t w hh s i
      have := ih hrest (stepInput c ew eh (Step.frame t w hh) s) (by
        simp only [stepInput]; rw [hu.2.1]; exact hs)
      rw [this.1]
      refine ⟨?_, this.2⟩
      simp only [stepInput, frameTimes, accumulate]
      rw [hu.1, if_pos hs, hu.2.2.2]
    | event e =>
      have hstep : (stepInput c ew eh (Step.event e) s).buttonPressDuration i =
            s.buttonPressDuration i ∧
          pressedFlag (stepInput c ew eh (Step.event e) s) i = pressedFlag s i := by
        cases e with
        | key k a =>
          have hk := keyCallback_mouse k a s
          exact ⟨by simp only [stepInput, handleEvent]; rw [hk.2.2.2.2.2.1], hk.2.2.2.2.1 i⟩
        | mouseButton b a =>
          exact (mouseButtonCallback_duration b a s i).2.2 (h b a (List.mem_cons_self _ _))
        | cursorPos x y => exact ⟨rfl, by fin_cases i <;> rfl⟩
        | scroll x y => exact ⟨rfl, by fin_cases i <;> rfl⟩
      have := ih hrest (stepInput c ew eh (Step.event e) s) (by rw [hstep.2]; exact hs)
      rw [this.1, hstep.1, stepInput_event_lastTime]
      exact ⟨rfl, this.2⟩

/-- While button `i` is not pressed again, its duration stays as it is. -/
theorem runInput_released {D F : Type} [Add F] [Sub F] [Mul F] [Div F] [Neg F] [Zero F] [One F]
    (c : FloatCast D F) (ew eh : Nat) (i : Fin 5) (steps : List (Step D F))
    (h : ∀ b, Step.event (Event.mouseButton b GLFW_PRESS) ∈ steps → b ≠ ((i : Nat) : Int))
    (s : InputState D F) (hs : pressedFlag s i = false) :
    (runInput c ew eh steps s).buttonPressDuration i = s.buttonPressDuration i ∧
    pressedFlag (runInput c ew eh steps s) i = false := by
  induction steps generalizing s with
  | nil => exact ⟨rfl, hs⟩
  | cons st rest ih =>
    have hrest : ∀ b, Step.event (Event.mouseButton b GLFW_PRESS) ∈ rest → b ≠ ((i : Nat) : Int) :=
      fun b hm => h b (List.mem_cons_of_mem _ hm)
    rw [runInput_cons]
    have hstep : (stepInput c ew eh st s).buttonPressDuration i = s.buttonPressDuration i ∧
        pressedFlag (stepInput c ew eh st s) i = false := by
      cases st with
      | frame t w hh =>
        have hu := updateUniformBuffer_duration c ew eh t w hh s i
        simp only [stepInput]
        rw [hu.1, hu.2.1, if_neg (by simp [hs])]
        exact ⟨rfl, hs⟩
      | event e =>
        cases e with
        | key k a =>
          have hk := keyCallback_mouse k a s
          exact ⟨by simp only [stepInput, handleEvent]; rw [hk.2.2.2.2.2.1],
            (hk.2.2.2.2.1 i).trans hs⟩
        | mouseButton b a =>
          have hm := mouseButtonCallback_duration b a s i
          by_cases hb : b = ((i : Nat) : Int)
          · have ha : a ≠ GLFW_PRESS := by
              intro ha
              subst ha
              exact h b (List.mem_cons_self _ _) hb
            have := hm.2.1 hb ha
            exact ⟨by simp only [stepInput, handleEvent]; rw [this.1], this.2⟩
          · have := hm.2.2 hb
            exact ⟨this.1, this.2.trans hs⟩
        | cursorPos x y => exact ⟨rfl, by rw [← hs]; fin_cases i <;> rfl⟩
        | scroll x y => exact ⟨rfl, by rw [← hs]; fin_cases i <;> rfl⟩
    have := ih hrest (stepInput c ew eh st s) hstep.2
    rw [this.1, hstep.1]
    exact ⟨rfl, this.2⟩

/-- In exact arithmetic the accumulated frame deltas telescope. -/
theorem accumulate_telescope {F : Type} [Add F] [Sub F]
    (htel : ∀ l x y : F, (x - l) + (y - x) = y - l) (l0 l t : F) (ts : List F) :
    accumulate (l - l0) l (t :: ts) = (t :: ts).getLast (List.cons_ne_nil _ _) - l0 := by
  induction ts generalizing l t with
  | nil => simp [accumulate, htel]
  | cons u us ih =>
    have := ih t u
    simp only [accumulate] at this ⊢
    rw [htel, this]
    simp
/-- C5 (amended): for button `i` pressed after the steps `pre`, held during
`hold` and released before `post` (no further press of `i`), every later frame
writes as hold-duration the frame deltas accumulated over the frames rendered
during the hold, the first delta being taken from the last frame before the
press (from 0 at start-up); in exact arithmetic that is the time of the last
frame of the hold minus the time of the last frame before the press, and 0
when no frame was rendered during the hold. -/
theorem C5_hold_duration_after_release {D F : Type} [Add F] [Sub F] [Mul F] [Div F] [Neg F]
    [Zero F] [One F] (c : FloatCast D F) (ew eh : Nat) (i : Fin 5)
    (pre hold post : List (Step D F)) (s0 : InputState D F) (a : Int) (t : F) (ww wh : Int)
    (hhold : ∀ b x, Step.event (Event.mouseButton b x) ∈ hold → b ≠ ((i : Nat) : Int))
    (hpost : ∀ b, Step.event (Event.mouseButton b GLFW_PRESS) ∈ post → b ≠ ((i : Nat) : Int))
    (ha : a ≠ GLFW_PRESS) :
    (updateUniformBuffer c ew eh t ww wh
        (runInput c ew eh
          (pre ++ Step.event (Event.mouseButton ((i : Nat) : Int) GLFW_PRESS) :: hold ++
            Step.event (Event.mouseButton ((i : Nat) : Int) a) :: post) s0)).2.button i =
      accumulate 0 (lastFrameTime pre s0.lastTime) (frameTimes hold) ∧
    ((∀ x : F, 0 + x = x) → (∀ l x y : F, (x - l) + (y - x) = y - l) →
      accumulate 0 (lastFrameTime pre s0.lastTime) (frameTimes hold) =
        match (frameTimes hold).getLast? with
        | none => 0
        | some g => g - lastFrameTime pre s0.lastTime) := by
  constructor
  · rw [show pre ++ Step.event (Event.mouseButton ((i : Nat) : Int) GLFW_PRESS) :: hold ++
          Step.event (Event.mouseButton ((i : Nat) : Int) a) :: post =
        pre ++ (Step.event (Event.mouseButton ((i : Nat) : Int) GLFW_PRESS) :: hold ++
          Step.event (Event.mouseButton ((i : Nat) : Int) a) :: post) by simp]
    rw [runInput_append, runInput_append, runInput_cons, runInput_cons, ← runInput_lastTime c ew eh]
    generalize runInput c ew eh pre s0 = s
    have hp := (mouseButtonCallback_duration ((i : Nat) : Int) GLFW_PRESS s i).1 rfl rfl
    have hpl := stepInput_event_lastTime c ew eh
      (Event.mouseButton ((i : Nat) : Int) GLFW_PRESS) s
    generalize hs1 : stepInput c ew eh
      (Step.event (Event.mouseButton ((i : Nat) : Int) GLFW_PRESS)) s = s1 at hpl
    have hp1 : s1.buttonPressDuration i = 0 ∧ pressedFlag s1 i = true := by
      rw [← hs1]; exact hp
    have hh := runInput_held c ew eh i hold hhold s1 hp1.2
    generalize runInput c ew eh hold s1 = s2 at hh
    have hr := (mouseButtonCallback_duration ((i : Nat) : Int) a s2 i).2.1 rfl ha
    generalize hs3 : stepInput c ew eh (Step.event (Event.mouseButton ((i : Nat) : Int) a)) s2 = s3
    have hr3 : s3.buttonPressDuration i = s2.buttonPressDuration i ∧ pressedFlag s3 i = false := by
      rw [← hs3]
      exact ⟨by simp only [stepInput, handleEvent]; rw [hr.1], hr.2⟩
    have hq := runInput_released c ew eh i post hpost s3 hr3.2
    generalize runInput c ew eh post s3 = s4 at hq
    have hu := updateUniformBuffer_duration c ew eh t ww wh s4 i
    rw [hu.2.2.1, hu.1, if_neg (by simp [hq.2]), hq.1, hr3.1, hh.1, hp1.1, hpl]
  · intro h0 htel
    generalize lastFrameTime pre s0.lastTime = l
    cases hft : frameTimes hold with
    | nil => rfl
    | cons u us =>
      have h1 : accumulate 0 l (u :: us) = accumulate (u - l) u us := by
        simp only [accumulate, h0]
      rw [h1]
      cases us with
      | nil => rfl
      | cons v vs =>
        rw [accumulate_telescope htel l u v vs]
        simp [List.getLast?_cons_cons, List.getLast?_eq_getLast]

/-- Witness for C5: frames at 1/4 s, 1/2 s and 3/4 s during a hold that began
after a frame at 1/8 s; the frame at 1 s, after the release, writes 5/8. -/
theorem C5_hold_duration_after_release_witness :
    (updateUniformBuffer ratCast 1280 720 1 1280 720
        (runInput ratCast 1280 720
          ([Step.frame (1 / 8) 1280 720] ++
            Step.event (Event.mouseButton (((0 : Fin 5) : Nat) : Int) GLFW_PRESS) ::
              [Step.frame (1 / 4) 1280 720, Step.frame (1 / 2) 1280 720,
               Step.frame (3 / 4) 1280 720] ++
            Step.event (Event.mouseButton (((0 : Fin 5) : Nat) : Int) GLFW_RELEASE) :: [])
          (initInputState ℚ ℚ))).2.button 0 = 5 / 8 := by
  have h := C5_hold_duration_after_release ratCast 1280 720 0
    [Step.frame (1 / 8) 1280 720]
    [Step.frame (1 / 4) 1280 720, Step.frame (1 / 2) 1280 720, Step.frame (3 / 4) 1280 720]
    [] (initInputState ℚ ℚ) GLFW_RELEASE 1 1280 720 (by simp) (by simp) (by decide)
  rw [h.1, h.2 (fun x => zero_add x) (fun l x y => by ring)]
  simp [frameTimes, lastFrameTime]
  norm_num

/-! ### The scroll accumulator -/

/-- Counterexample to C6: one press of the `=` key and no scroll event at all
leave `scrollY = 1`, while the scroll offsets received sum to `(0, 0)`. -/
theorem C6_counterexample :
    ((runInput ratCast 1280 720 [Step.event (Event.key GLFW_KEY_EQUAL GLFW_PRESS)]
        (initInputState ℚ ℚ)).scrollX,
     (runInput ratCast 1280 720 [Step.event (Event.key GLFW_KEY_EQUAL GLFW_PRESS)]
        (initInputState ℚ ℚ)).scrollY) = (0, 1) ∧
    List.foldl (scrollEventStep ratCast) (0, 0)
      (sinceLastReset [Step.event (Event.key GLFW_KEY_EQUAL GLFW_PRESS)]) = ((0, 0) : ℚ × ℚ) ∧
    ((0, 1) : ℚ × ℚ) ≠ (0, 0) := by
  refine ⟨?_, ?_, ?_⟩
  · simp [runInput, stepInput, handleEvent, keyCallback, initInputState, GLFW_KEY_EQUAL,
      GLFW_PRESS, GLFW_KEY_ESCAPE, GLFW_KEY_F, GLFW_KEY_F11, GLFW_KEY_LEFT, GLFW_KEY_RIGHT,
      GLFW_KEY_R]
  · simp [sinceLastReset, isResetStep, scrollEventStep, GLFW_KEY_EQUAL, GLFW_KEY_R]
  · simp

theorem sinceLastReset_of_no_reset {D F : Type} (steps : List (Step D F))
    (h : steps.any isResetStep = false) : sinceLastReset steps = steps := by
  induction steps with
  | nil => rfl
  | cons st rest ih =>
    simp only [List.any_cons, Bool.or_eq_false_iff] at h
    simp [sinceLastReset, h.1, h.2]

/-- One step of the code moves the accumulator as `scrollStep` says, and a
reset command sets it to `(0, 0)`. -/
theorem stepInput_scroll {D F : Type} [Add F] [Sub F] [Mul F] [Div F] [Neg F] [Zero F] [One F]
    (c : FloatCast D F) (ew eh : Nat) (st : Step D F) (s : InputState D F) :
    ((stepInput c ew eh st s).scrollX, (stepInput c ew eh st s).scrollY) =
      if isResetStep st = true then (0, 0) else scrollStep c (s.scrollX, s.scrollY) st := by
  cases st with
  | frame t w h => rfl
  | event e =>
    cases e with
    | key k a =>
      simp only [stepInput, handleEvent, keyCallback, isResetStep, scrollStep, decide_eq_true_eq]
      by_cases ha : a = GLFW_PRESS
      · simp only [ha, if_true, true_and]
        simp only [GLFW_KEY_ESCAPE, GLFW_KEY_F, GLFW_KEY_F11, GLFW_KEY_LEFT, GLFW_KEY_RIGHT,
          GLFW_KEY_R, GLFW_KEY_EQUAL, GLFW_KEY_KP_ADD, GLFW_KEY_MINUS, GLFW_KEY_KP_SUBTRACT]
        split_ifs <;> first | rfl | omega
      · simp [ha]
    | mouseButton b a =>
      have h := mouseButtonCallback_pos b a s
      simp only [stepInput, handleEvent, isResetStep, scrollStep, h.2.2.1, h.2.2.2.1]
      rfl
    | cursorPos x y => rfl
    | scroll x y => rfl

theorem runInput_scroll {D F : Type} [Add F] [Sub F] [Mul F] [Div F] [Neg F] [Zero F] [One F]
    (c : FloatCast D F) (ew eh : Nat) (steps : List (Step D F)) (s : InputState D F) :
    ((runInput c ew eh steps s).scrollX, (runInput c ew eh steps s).scrollY) =
      List.foldl (scrollStep c)
        (if steps.any isResetStep = true then (0, 0) else (s.scrollX, s.scrollY))
        (sinceLastReset steps) := by
  induction steps generalizing s with
  | nil => rfl
  | cons st rest ih =>
    rw [runInput_cons, ih]
    by_cases hr : rest.any isResetStep = true
    · simp [sinceLastReset, hr]
    · have hr' : rest.any isResetStep = false := by simpa using hr
      rw [sinceLastReset_of_no_reset rest hr']
      have hst := stepInput_scroll c ew eh st s
      by_cases hs : isResetStep st = true
      · simp [sinceLastReset, hr', hs, hst]
      · have hs' : isResetStep st = false := by simpa using hs
        simp [sinceLastReset, hr', hs', hst]
/-- C6 (amended): after every sequence of events and frames the scroll
accumulator `(scrollX, scrollY)` is what results from `(0, 0)` by applying, in
order, the contributions received since the most recent press of R (since
start if there was none): each scroll event adds its offsets, each press of
`=` or keypad `+` adds 1 to `scrollY`, each press of `-` or keypad `-`
subtracts 1 from it; immediately after a reset it is exactly `(0, 0)`, and a
frame passes the accumulator on unchanged. -/
theorem C6_scroll_accumulator {D F : Type} [Zero D] [Add F] [Sub F] [Mul F] [Div F] [Neg F]
    [Zero F] [One F] (c : FloatCast D F) (ew eh : Nat) (steps : List (Step D F)) :
    ((runInput c ew eh steps (initInputState D F)).scrollX,
     (runInput c ew eh steps (initInputState D F)).scrollY) =
      List.foldl (scrollStep c) (0, 0) (sinceLastReset steps) ∧
    (∀ s : InputState D F,
      ((runInput c ew eh (steps ++ [Step.event (Event.key GLFW_KEY_R GLFW_PRESS)]) s).scrollX,
       (runInput c ew eh (steps ++ [Step.event (Event.key GLFW_KEY_R GLFW_PRESS)]) s).scrollY) =
        (0, 0)) ∧
    (∀ (s : InputState D F) (t : F) (ww wh : Int),
      (updateUniformBuffer c ew eh t ww wh s).2.iScroll = (s.scrollX, s.scrollY) ∧
      (updateUniformBuffer c ew eh t ww wh s).1.scrollX = s.scrollX ∧
      (updateUniformBuffer c ew eh t ww wh s).1.scrollY = s.scrollY) := by
  refine ⟨?_, ?_, ?_⟩
  · rw [runInput_scroll]
    by_cases h : steps.any isResetStep = true
    · rw [if_pos h]
    · rw [if_neg h]; rfl
  · intro s
    rw [runInput_append, runInput_cons]
    have h := stepInput_scroll c ew eh (Step.event (Event.key GLFW_KEY_R GLFW_PRESS))
      (runInput c ew eh steps s)
    rw [if_pos (by simp [isResetStep])] at h
    exact h
  · intro s t ww wh
    exact ⟨rfl, rfl, rfl⟩

/-! ### Layout of the uniform struct -/

/-- Counterexample to C7: by the declared sizes and `alignas` values `iTime`
lies at byte 12, not 16, so the computed offsets are not the listed ones. -/
theorem C7_counterexample :
    uniformBufferObjectOffsets ≠ specifiedOffsets ∧
    List.lookup UboField.iTime uniformBufferObjectOffsets = some 12 ∧
    List.lookup UboField.iTime specifiedOffsets = some 16 := by
  decide

/-- C7 (amended): the byte offsets of the members of the host-side
`UniformBufferObject`, computed by the C++ layout rule from the declared
element sizes and `alignas` values, are iResolution 0, iTime 12, iMouse 16,
iScroll 32, iButtonLeft 40, iButtonRight 44, iButtonMiddle 48, iButton4 52,
iButton5 56. -/
theorem C7_uniform_offsets :
    uniformBufferObjectOffsets =
      [ (UboField.iResolution, 0), (UboField.iTime, 12), (UboField.iMouse, 16),
        (UboField.iScroll, 32), (UboField.iButtonLeft, 40), (UboField.iButtonRight, 44),
        (UboField.iButtonMiddle, 48), (UboField.iButton4, 52), (UboField.iButton5, 56) ] := by
  decide

/-! ### Shader switching -/

/-- C8, the code on failing inputs: whenever `recreatePipeline` throws, the
pipeline that was active is no longer alive; with `shaders/a.frag` active on
pipeline 7, a switch to `shaders/b.frag` whose fragment artifact cannot be read
returns with `graphicsPipeline` still 7 and pipeline 7 destroyed; when instead
the driver rejects the new pipeline, it returns with `graphicsPipeline` null,
pipeline 7 destroyed and `pipelineLayout` replaced. -/
theorem C8_failed_rebuild_destroys_active_pipeline :
    (∀ (env : ShaderEnv) (s : ShaderState), s.livePipelines.Nodup →
      (recreatePipeline env s).2 ≠ none →
        s.graphicsPipeline ∉ (recreatePipeline env s).1.livePipelines) ∧
    (browsingViewer.graphicsPipeline = 7 ∧ 7 ∈ browsingViewer.livePipelines) ∧
    ((switchShader unreadableFragmentEnv 1 browsingViewer).graphicsPipeline = 7 ∧
      7 ∉ (switchShader unreadableFragmentEnv 1 browsingViewer).livePipelines ∧
      (switchShader unreadableFragmentEnv 1 browsingViewer).log =
        [ShaderAction.compileAndLoadShader "shaders/b.frag".toList,
         ShaderAction.deviceWaitIdle, ShaderAction.destroyPipeline 7]) ∧
    ((switchShader rejectedPipelineEnv 1 browsingViewer).graphicsPipeline = VK_NULL_HANDLE ∧
      (switchShader rejectedPipelineEnv 1 browsingViewer).livePipelines = [] ∧
      (switchShader rejectedPipelineEnv 1 browsingViewer).pipelineLayout = 8 ∧
      (switchShader rejectedPipelineEnv 1 browsingViewer).log =
        [ShaderAction.compileAndLoadShader "shaders/b.frag".toList,
         ShaderAction.deviceWaitIdle, ShaderAction.destroyPipeline 7,
         ShaderAction.createPipelineLayout 8]) := by
  refine ⟨?_, by decide, by decide, by decide⟩
  intro env s hnd hthrow
  have hlive : ∀ (t : ShaderState), (createGraphicsPipeline env t).2 ≠ none →
      (createGraphicsPipeline env t).1.livePipelines = t.livePipelines := by
    intro t
    unfold createGraphicsPipeline
    cases pipelineOutcome env t.currentShaderPath t.hasGeometryShader <;>
      simp [storePipelineLayout]
  unfold recreatePipeline at hthrow ⊢
  rw [hlive _ hthrow]
  simp only
  intro hmem
  exact (List.Nodup.mem_erase_iff hnd).mp hmem |>.1 rfl

/-- Witness for C8's general part: the unreadable fragment artifact. -/
theorem C8_failed_rebuild_destroys_active_pipeline_witness :
    ({ browsingViewer with currentShaderPath := "shaders/b.frag".toList }).graphicsPipeline ∉
      (recreatePipeline unreadableFragmentEnv
        { browsingViewer with currentShaderPath := "shaders/b.frag".toList }).1.livePipelines :=
  C8_failed_rebuild_destroys_active_pipeline.1 unreadableFragmentEnv
    { browsingViewer with currentShaderPath := "shaders/b.frag".toList } (by decide) (by decide)

theorem nextShaderIndex_range (i delta : Int) (n : Nat) (hn : 0 < n) :
    0 ≤ nextShaderIndex i delta n ∧ nextShaderIndex i delta n < (n : Int) := by
  have hpos : (0 : Int) < (n : Int) := by exact_mod_cast hn
  exact ⟨Int.emod_nonneg _ (ne_of_gt hpos), Int.emod_lt_of_pos _ hpos⟩

/-- The candidate selected by line 385 is an element of the list. -/
theorem candidate_mem (l : List (List Char)) (i delta : Int) (hl : l ≠ []) :
    l.getD (nextShaderIndex i delta l.length).toNat [] ∈ l := by
  have hn : 0 < l.length := List.length_pos.mpr hl
  have hr := nextShaderIndex_range i delta l.length hn
  have hlt : (nextShaderIndex i delta l.length).toNat < l.length := by omega
  rw [List.getD_eq_getElem l [] hlt]
  exact List.getElem_mem hlt

theorem compileAndLoadShader_false (env : ShaderEnv) (p : List Char) (s : ShaderState)
    (h : (env.compile p).result = none) :
    compileAndLoadShader env p s =
      ({ s with
          currentTexturePath := (env.compile p).texturePath
          log := s.log ++ [ShaderAction.compileAndLoadShader p] }, false) := by
  simp [compileAndLoadShader, h]

/-- When no candidate compiles, the loop leaves every pipeline field alone and
logs no device call. -/
theorem switchShaderLoop_compile_fails (env : ShaderEnv) (delta : Int) (cur : List Char)
    (k : Nat) (s : ShaderState) (hne : s.shaderList ≠ [])
    (h : ∀ p ∈ s.shaderList, getCompiledSpvPath p ≠ cur → (env.compile p).result = none) :
    (switchShaderLoop env delta cur k s).2 = false ∧
    (switchShaderLoop env delta cur k s).1.shaderList = s.shaderList ∧
    (switchShaderLoop env delta cur k s).1.graphicsPipeline = s.graphicsPipeline ∧
    (switchShaderLoop env delta cur k s).1.pipelineLayout = s.pipelineLayout ∧
    (switchShaderLoop env delta cur k s).1.livePipelines = s.livePipelines ∧
    (switchShaderLoop env delta cur k s).1.livePipelineLayouts = s.livePipelineLayouts ∧
    (switchShaderLoop env delta cur k s).1.hasGeometryShader = s.hasGeometryShader ∧
    (switchShaderLoop env delta cur k s).1.log.filter ShaderAction.isDeviceAction =
      s.log.filter ShaderAction.isDeviceAction := by
  induction k generalizing s with
  | zero => exact ⟨rfl, rfl, rfl, rfl, rfl, rfl, rfl, rfl⟩
  | succ k ih =>
    have hmem := candidate_mem s.shaderList s.currentShaderIndex delta hne
    simp only [switchShaderLoop]
    split_ifs with hdup
    · exact ih _ hne h
    · rw [compileAndLoadShader_false env _ _ (h _ hmem hdup)]
      have := ih { s with
          currentShaderIndex := nextShaderIndex s.currentShaderIndex delta s.shaderList.length
          currentShaderPath :=
            s.shaderList.getD (nextShaderIndex s.currentShaderIndex delta s.shaderList.length).toNat []
          currentTexturePath := (env.compile (s.shaderList.getD
            (nextShaderIndex s.currentShaderIndex delta s.shaderList.length).toNat [])).texturePath
          log := s.log ++ [ShaderAction.compileAndLoadShader (s.shaderList.getD
            (nextShaderIndex s.currentShaderIndex delta s.shaderList.length).toNat [])] } hne h
      simpa [ShaderAction.isDeviceAction] using this

/-- C9: if `compileAndLoadShader` returns false for every candidate that
`switchShader` tries (every list entry that is not skipped as a duplicate of
the current shader), then the call logs no device-idle wait, no pipeline
destruction and no pipeline or layout creation, and `graphicsPipeline`,
`pipelineLayout` and the set of live pipelines are exactly those before the
call, so the pipeline the next frame binds is the previously active one. -/
theorem C9_failed_compiles_leave_pipeline (env : ShaderEnv) (delta : Int) (s : ShaderState)
    (h : ∀ p ∈ (ensureShaderList env s).shaderList,
      getCompiledSpvPath p ≠ getCompiledSpvPath s.currentShaderPath →
        (env.compile p).result = none) :
    (switchShader env delta s).log.filter ShaderAction.isDeviceAction =
      s.log.filter ShaderAction.isDeviceAction ∧
    (switchShader env delta s).graphicsPipeline = s.graphicsPipeline ∧
    (switchShader env delta s).pipelineLayout = s.pipelineLayout ∧
    (switchShader env delta s).livePipelines = s.livePipelines ∧
    (switchShader env delta s).livePipelineLayouts = s.livePipelineLayouts ∧
    (s.graphicsPipeline ∈ s.livePipelines →
      (switchShader env delta s).graphicsPipeline ∈ (switchShader env delta s).livePipelines) := by
  have hens : (ensureShaderList env s).currentShaderPath = s.currentShaderPath ∧
      (ensureShaderList env s).graphicsPipeline = s.graphicsPipeline ∧
      (ensureShaderList env s).pipelineLayout = s.pipelineLayout ∧
      (ensureShaderList env s).livePipelines = s.livePipelines ∧
      (ensureShaderList env s).livePipelineLayouts = s.livePipelineLayouts ∧
      (ensureShaderList env s).log = s.log := by
    unfold ensureShaderList scanDirectoryForShaders
    split_ifs <;> exact ⟨rfl, rfl, rfl, rfl, rfl, rfl⟩
  have key : (switchShader env delta s).log.filter ShaderAction.isDeviceAction =
        s.log.filter ShaderAction.isDeviceAction ∧
      (switchShader env delta s).graphicsPipeline = s.graphicsPipeline ∧
      (switchShader env delta s).pipelineLayout = s.pipelineLayout ∧
      (switchShader env delta s).livePipelines = s.livePipelines ∧
      (switchShader env delta s).livePipelineLayouts = s.livePipelineLayouts := by
    unfold switchShader
    dsimp only
    split_ifs with hemp
    · exact ⟨by rw [hens.2.2.2.2.2], hens.2.1, hens.2.2.1, hens.2.2.2.1, hens.2.2.2.2.1⟩
    · have hne : (ensureShaderList env s).shaderList ≠ [] := by
        intro h0
        exact hemp (by rw [h0]; rfl)
      have hl := switchShaderLoop_compile_fails env delta
        (getCompiledSpvPath (ensureShaderList env s).currentShaderPath)
        (ensureShaderList env s).shaderList.length (ensureShaderList env s) hne
        (by rw [hens.1]; exact h)
      exact ⟨by rw [hl.2.2.2.2.2.2.2, hens.2.2.2.2.2], hl.2.2.1.trans hens.2.1,
        hl.2.2.2.1.trans hens.2.2.1, hl.2.2.2.2.1.trans hens.2.2.2.1,
        hl.2.2.2.2.2.1.trans hens.2.2.2.2.1⟩
  refine ⟨key.1, key.2.1, key.2.2.1, key.2.2.2.1, key.2.2.2.2, ?_⟩
  intro hlive
  rw [key.2.1, key.2.2.2.1]
  exact hlive

/-- Witness for C9: nothing compiles while browsing two shaders. -/
theorem C9_failed_compiles_leave_pipeline_witness :
    (switchShader noCompileEnv 1 browsingViewer).graphicsPipeline = 7 ∧
    (switchShader noCompileEnv 1 browsingViewer).livePipelines = [7] ∧
    (switchShader noCompileEnv 1 browsingViewer).log.filter ShaderAction.isDeviceAction = [] := by
  have h := C9_failed_compiles_leave_pipeline noCompileEnv 1 browsingViewer (fun _ _ _ => rfl)
  exact ⟨h.2.1, h.2.2.2.1, h.1⟩

/-- For an index inside a list shorter than `2^63`, one step forward or back
by the unsigned arithmetic of line 384 is the step modulo the list size. -/
theorem nextShaderIndex_eq_emod (i delta : Int) (n : Nat) (hn : n < 2 ^ 63)
    (hi0 : 0 ≤ i) (hin : i < (n : Int)) (hδ : delta = 1 ∨ delta = -1) :
    nextShaderIndex i delta n = (i + delta) % (n : Int) := by
  unfold nextShaderIndex
  have hn' : (n : Int) < 2 ^ 63 := by exact_mod_cast hn
  by_cases hneg : i + delta < 0
  · have hid : i + delta = -1 := by rcases hδ with h | h <;> omega
    rw [hid]
    have h1 : ((-1 : Int) % 2 ^ 64 + (n : Int)) % 2 ^ 64 = (n : Int) - 1 := by omega
    rw [h1]
    have h2 : ((n : Int) - 1) = -1 + (n : Int) := by ring
    rw [h2, Int.add_emod_self]
  · have h0 : (i + delta) % 2 ^ 64 = i + delta := by omega
    have h1 : (i + delta + (n : Int)) % 2 ^ 64 = i + delta + (n : Int) := by omega
    rw [h0, h1, Int.add_emod_self]

/-- The index after `k` steps of line 384. -/
theorem nextShaderIndex_iterate (i delta : Int) (n : Nat) (hn : n < 2 ^ 63)
    (hi0 : 0 ≤ i) (hin : i < (n : Int)) (hδ : delta = 1 ∨ delta = -1) (k : Nat) :
    (fun j => nextShaderIndex j delta n)^[k] i = (i + (k : Int) * delta) % (n : Int) := by
  have hpos : (0 : Int) < (n : Int) := by omega
  induction k with
  | zero => simp [Int.emod_eq_of_lt hi0 hin]
  | succ k ih =>
    rw [Function.iterate_succ_apply', ih]
    rw [nextShaderIndex_eq_emod _ delta n hn (Int.emod_nonneg _ (ne_of_gt hpos))
      (Int.emod_lt_of_pos _ hpos) hδ]
    rw [Int.emod_add_emod]
    congr 1
    push_cast
    ring

theorem createGraphicsPipeline_selection (env : ShaderEnv) (s : ShaderState) :
    (createGraphicsPipeline env s).1.shaderList = s.shaderList ∧
    (createGraphicsPipeline env s).1.currentShaderIndex = s.currentShaderIndex ∧
    (createGraphicsPipeline env s).1.currentShaderPath = s.currentShaderPath ∧
    ((createGraphicsPipeline env s).2 = none ↔
      ∃ stages, pipelineOutcome env s.currentShaderPath s.hasGeometryShader =
        PipelineOutcome.created stages) := by
  unfold createGraphicsPipeline
  cases pipelineOutcome env s.currentShaderPath s.hasGeometryShader <;>
    simp [storePipelineLayout]

theorem recreatePipeline_selection (env : ShaderEnv) (s : ShaderState) :
    (recreatePipeline env s).1.shaderList = s.shaderList ∧
    (recreatePipeline env s).1.currentShaderIndex = s.currentShaderIndex ∧
    (recreatePipeline env s).1.currentShaderPath = s.currentShaderPath ∧
    ((recreatePipeline env s).2 = none ↔
      ∃ stages, pipelineOutcome env s.currentShaderPath s.hasGeometryShader =
        PipelineOutcome.created stages) := by
  unfold recreatePipeline
  exact createGraphicsPipeline_selection env _

theorem compileAndLoadShader_selection (env : ShaderEnv) (p : List Char) (s : ShaderState) :
    (compileAndLoadShader env p s).1.shaderList = s.shaderList ∧
    (compileAndLoadShader env p s).1.currentShaderIndex = s.currentShaderIndex ∧
    (compileAndLoadShader env p s).1.currentShaderPath = s.currentShaderPath ∧
    ((compileAndLoadShader env p s).2 = true →
      (env.compile p).result = some (compileAndLoadShader env p s).1.hasGeometryShader) ∧
    ((compileAndLoadShader env p s).2 = false → (env.compile p).result = none) := by
  unfold compileAndLoadShader
  cases h : (env.compile p).result <;> simp [h]

/-- When every candidate is skipped or fails, the loop runs all its
iterations: it reports failure, has stepped the index once per iteration, and
leaves `currentShaderPath` at the entry the index ends on. -/
theorem switchShaderLoop_all_fail (env : ShaderEnv) (delta : Int) (cur : List Char)
    (k : Nat) (s : ShaderState) (hne : s.shaderList ≠ [])
    (hfail : ∀ p ∈ s.shaderList, candidateFails env cur p = true) :
    (switchShaderLoop env delta cur k s).2 = false ∧
    (switchShaderLoop env delta cur k s).1.shaderList = s.shaderList ∧
    (switchShaderLoop env delta cur k s).1.currentShaderIndex =
      (fun j => nextShaderIndex j delta s.shaderList.length)^[k] s.currentShaderIndex ∧
    (switchShaderLoop env delta cur k s).1.currentShaderPath =
      (if k = 0 then s.currentShaderPath
       else s.shaderList.getD (switchShaderLoop env delta cur k s).1.currentShaderIndex.toNat []) := by
  induction k generalizing s with
  | zero => exact ⟨rfl, rfl, rfl, rfl⟩
  | succ k ih =>
    have hmem := candidate_mem s.shaderList s.currentShaderIndex delta hne
    have hcf := hfail _ hmem
    -- every branch continues the loop from a state with the stepped selection
    have hcont : ∀ sX : ShaderState, sX.shaderList = s.shaderList →
        sX.currentShaderIndex = nextShaderIndex s.currentShaderIndex delta s.shaderList.length →
        sX.currentShaderPath = s.shaderList.getD
          (nextShaderIndex s.currentShaderIndex delta s.shaderList.length).toNat [] →
        (switchShaderLoop env delta cur k sX).2 = false ∧
        (switchShaderLoop env delta cur k sX).1.shaderList = s.shaderList ∧
        (switchShaderLoop env delta cur k sX).1.currentShaderIndex =
          (fun j => nextShaderIndex j delta s.shaderList.length)^[k + 1] s.currentShaderIndex ∧
        (switchShaderLoop env delta cur k sX).1.currentShaderPath =
          s.shaderList.getD (switchShaderLoop env delta cur k sX).1.currentShaderIndex.toNat [] := by
      intro sX hl hi hp
      have := ih sX (by rw [hl]; exact hne) (by rw [hl]; exact hfail)
      rw [hl, hi] at this
      refine ⟨this.1, this.2.1, ?_, ?_⟩
      · rw [this.2.2.1, Function.iterate_succ_apply]
      · rw [this.2.2.2]
        by_cases hk : k = 0
        · subst hk
          simp only [if_true]
          rw [hp]
          have h0 : (switchShaderLoop env delta cur 0 sX).1.currentShaderIndex =
              sX.currentShaderIndex := rfl
          rw [h0, hi]
        · rw [if_neg hk]
    have hgoal : (switchShaderLoop env delta cur (k + 1) s).2 = false ∧
        (switchShaderLoop env delta cur (k + 1) s).1.shaderList = s.shaderList ∧
        (switchShaderLoop env delta cur (k + 1) s).1.currentShaderIndex =
          (fun j => nextShaderIndex j delta s.shaderList.length)^[k + 1] s.currentShaderIndex ∧
        (switchShaderLoop env delta cur (k + 1) s).1.currentShaderPath =
          s.shaderList.getD (switchShaderLoop env delta cur (k + 1) s).1.currentShaderIndex.toNat [] := by
      simp only [switchShaderLoop]
      split_ifs with hdup
      · exact hcont _ rfl rfl rfl
      · have hsel := compileAndLoadShader_selection env
          (s.shaderList.getD (nextShaderIndex s.currentShaderIndex delta s.shaderList.length).toNat [])
          { s with
            currentShaderIndex := nextShaderIndex s.currentShaderIndex delta s.shaderList.length
            currentShaderPath := s.shaderList.getD
              (nextShaderIndex s.currentShaderIndex delta s.shaderList.length).toNat [] }
        split
        · rename_i s2 hc
          rw [hc] at hsel
          simp only [true_implies] at hsel
          have hrs := recreatePipeline_selection env
            { s2 with log := s2.log ++ [ShaderAction.deviceWaitIdle] }
          split
          · rename_i s4 hr
            exfalso
            rw [hr] at hrs
            obtain ⟨stages, hst⟩ := hrs.2.2.2.mp rfl
            simp only [candidateFails, if_neg hdup, hsel.2.2.2.1] at hcf
            rw [hsel.2.2.1] at hst
            simp only at hst
            rw [hst] at hcf
            simp at hcf
          · rename_i s4 msg hr
            rw [hr] at hrs
            exact hcont s4 (hrs.1.trans hsel.1) (hrs.2.1.trans hsel.2.1)
              (hrs.2.2.1.trans hsel.2.2.1)
        · rename_i s2 hc
          rw [hc] at hsel
          exact hcont s2 hsel.1 hsel.2.1 hsel.2.2.1
    refine ⟨hgoal.1, hgoal.2.1, hgoal.2.2.1, ?_⟩
    rw [if_neg (Nat.succ_ne_zero k)]
    exact hgoal.2.2.2

/-- One iteration of the loop either continues from, or returns with success,
a state whose selection is the stepped one. -/
theorem switchShaderLoop_succ_cases (env : ShaderEnv) (delta : Int) (cur : List Char)
    (k : Nat) (s : ShaderState) :
    ∃ sX : ShaderState, sX.shaderList = s.shaderList ∧
      sX.currentShaderIndex = nextShaderIndex s.currentShaderIndex delta s.shaderList.length ∧
      sX.currentShaderPath = s.shaderList.getD
        (nextShaderIndex s.currentShaderIndex delta s.shaderList.length).toNat [] ∧
      (switchShaderLoop env delta cur (k + 1) s = switchShaderLoop env delta cur k sX ∨
        switchShaderLoop env delta cur (k + 1) s = (sX, true)) := by
  have hsel := compileAndLoadShader_selection env
    (s.shaderList.getD (nextShaderIndex s.currentShaderIndex delta s.shaderList.length).toNat [])
    { s with
      currentShaderIndex := nextShaderIndex s.currentShaderIndex delta s.shaderList.length
      currentShaderPath := s.shaderList.getD
        (nextShaderIndex s.currentShaderIndex delta s.shaderList.length).toNat [] }
  simp only [switchShaderLoop]
  split_ifs with hdup
  · exact ⟨{ s with
      currentShaderIndex := nextShaderIndex s.currentShaderIndex delta s.shaderList.length
      currentShaderPath := s.shaderList.getD
        (nextShaderIndex s.currentShaderIndex delta s.shaderList.length).toNat [] },
      rfl, rfl, rfl, Or.inl rfl⟩
  · split
    · rename_i s2 hc
      rw [hc] at hsel
      have hrs := recreatePipeline_selection env
        { s2 with log := s2.log ++ [ShaderAction.deviceWaitIdle] }
      split
      · rename_i s4 hr
        rw [hr] at hrs
        exact ⟨s4, hrs.1.trans hsel.1, hrs.2.1.trans hsel.2.1, hrs.2.2.1.trans hsel.2.2.1,
          Or.inr rfl⟩
      · rename_i s4 msg hr
        rw [hr] at hrs
        exact ⟨s4, hrs.1.trans hsel.1, hrs.2.1.trans hsel.2.1, hrs.2.2.1.trans hsel.2.2.1,
          Or.inl rfl⟩
    · rename_i s2 hc
      rw [hc] at hsel
      exact ⟨s2, hsel.1, hsel.2.1, hsel.2.2.1, Or.inl rfl⟩

/-- The loop keeps `currentShaderPath` equal to the list entry at
`currentShaderIndex` once that holds. -/
theorem switchShaderLoop_keeps_sync (env : ShaderEnv) (delta : Int) (cur : List Char)
    (k : Nat) (s : ShaderState)
    (hs : s.currentShaderPath = s.shaderList.getD s.currentShaderIndex.toNat []) :
    (switchShaderLoop env delta cur k s).1.currentShaderPath =
      (switchShaderLoop env delta cur k s).1.shaderList.getD
        (switchShaderLoop env delta cur k s).1.currentShaderIndex.toNat [] := by
  induction k generalizing s with
  | zero => exact hs
  | succ k ih =>
    obtain ⟨sX, hl, hi, hp, hcase⟩ := switchShaderLoop_succ_cases env delta cur k s
    have hX : sX.currentShaderPath = sX.shaderList.getD sX.currentShaderIndex.toNat [] := by
      rw [hp, hl, hi]
    rcases hcase with h | h
    · rw [h]; exact ih sX hX
    · rw [h]; exact hX

/-- Every `switchShader` loop that runs at least one iteration ends with
`currentShaderPath` naming the list entry at `currentShaderIndex`. -/
theorem switchShaderLoop_in_sync (env : ShaderEnv) (delta : Int) (cur : List Char)
    (k : Nat) (s : ShaderState) :
    (switchShaderLoop env delta cur (k + 1) s).1.currentShaderPath =
      (switchShaderLoop env delta cur (k + 1) s).1.shaderList.getD
        (switchShaderLoop env delta cur (k + 1) s).1.currentShaderIndex.toNat [] := by
  obtain ⟨sX, hl, hi, hp, hcase⟩ := switchShaderLoop_succ_cases env delta cur k s
  have hX : sX.currentShaderPath = sX.shaderList.getD sX.currentShaderIndex.toNat [] := by
    rw [hp, hl, hi]
  rcases hcase with h | h
  · rw [h]; exact switchShaderLoop_keeps_sync env delta cur k sX hX
  · rw [h]; exact hX

/-- Counterexample to C10: the viewer is started on the default shader
`shaders/example.frag` with a `shader_list.txt` that lists only
`shaders/b.frag`, which does not compile; the switch finds no working
candidate and keeps the pipeline, yet `currentShaderPath` ends as
`shaders/b.frag`. -/
theorem C10_counterexample :
    startViewer onlyExampleCompilesEnv id [] (some ["shaders/b.frag".toList]) =
      some startedViewer ∧
    startedViewer.currentShaderPath = "shaders/example.frag".toList ∧
    (switchShaderLoop onlyExampleCompilesEnv 1 (getCompiledSpvPath startedViewer.currentShaderPath)
      startedViewer.shaderList.length startedViewer).2 = false ∧
    (switchShader onlyExampleCompilesEnv 1 startedViewer).graphicsPipeline =
      startedViewer.graphicsPipeline ∧
    (switchShader onlyExampleCompilesEnv 1 startedViewer).currentShaderPath =
      "shaders/b.frag".toList ∧
    (switchShader onlyExampleCompilesEnv 1 startedViewer).currentShaderPath ≠
      startedViewer.currentShaderPath := by
  decide

theorem ensureShaderList_fields (env : ShaderEnv) (s : ShaderState) :
    (ensureShaderList env s).currentShaderPath = s.currentShaderPath ∧
    (s.shaderList ≠ [] → ensureShaderList env s = s) := by
  unfold ensureShaderList scanDirectoryForShaders
  constructor
  · split_ifs <;> rfl
  · intro hne
    cases hl : s.shaderList with
    | nil => exact absurd hl hne
    | cons x xs => simp

/-- C10 (amended): when `switchShader`, called with delta -1 or +1 on a list
shorter than `2^31` with the index inside it, finds no working candidate
(every list entry is skipped as a duplicate, fails to compile or fails to
build a pipeline), `currentShaderIndex` is the same after the call as before
and `currentShaderPath` ends as `shaderList[currentShaderIndex]`; so
`currentShaderPath` equals its value at entry provided it named that list
entry at entry, and also when no shader list can be found at all.  After any
`switchShader` call on a non-empty list `currentShaderPath` does name the
entry at `currentShaderIndex`. -/
theorem C10_failed_switch_selection (env : ShaderEnv) (delta : Int) (s : ShaderState) :
    ((ensureShaderList env s).shaderList = [] →
      (switchShader env delta s).currentShaderPath = s.currentShaderPath) ∧
    ((delta = 1 ∨ delta = -1) →
      (ensureShaderList env s).shaderList.length < 2 ^ 31 →
      0 ≤ (ensureShaderList env s).currentShaderIndex →
      (ensureShaderList env s).currentShaderIndex <
        ((ensureShaderList env s).shaderList.length : Int) →
      (∀ p ∈ (ensureShaderList env s).shaderList,
        candidateFails env (getCompiledSpvPath s.currentShaderPath) p = true) →
      (switchShader env delta s).currentShaderIndex =
        (ensureShaderList env s).currentShaderIndex ∧
      (switchShader env delta s).currentShaderPath =
        (ensureShaderList env s).shaderList.getD
          (ensureShaderList env s).currentShaderIndex.toNat [] ∧
      (s.currentShaderPath =
          (ensureShaderList env s).shaderList.getD
            (ensureShaderList env s).currentShaderIndex.toNat [] →
        (switchShader env delta s).currentShaderPath = s.currentShaderPath)) ∧
    ((ensureShaderList env s).shaderList ≠ [] →
      (switchShader env delta s).currentShaderPath =
        (switchShader env delta s).shaderList.getD
          (switchShader env delta s).currentShaderIndex.toNat []) := by
  have hens := ensureShaderList_fields env s
  refine ⟨?_, ?_, ?_⟩
  · intro hemp
    unfold switchShader
    simp only [hemp, List.isEmpty_nil, if_true]
    exact hens.1
  · intro hδ hlen hi0 hin hfail
    have hpos : 0 < (ensureShaderList env s).shaderList.length := by omega
    have hne : (ensureShaderList env s).shaderList ≠ [] := List.length_pos.mp hpos
    have hnotemp : (ensureShaderList env s).shaderList.isEmpty = false := by
      cases hl : (ensureShaderList env s).shaderList with
      | nil => exact absurd hl hne
      | cons x xs => rfl
    have hl := switchShaderLoop_all_fail env delta
      (getCompiledSpvPath (ensureShaderList env s).currentShaderPath)
      (ensureShaderList env s).shaderList.length (ensureShaderList env s) hne
      (by rw [hens.1]; exact hfail)
    have hit := nextShaderIndex_iterate (ensureShaderList env s).currentShaderIndex delta
      (ensureShaderList env s).shaderList.length
      (lt_trans hlen (by norm_num)) hi0 hin hδ (ensureShaderList env s).shaderList.length
    rw [Int.add_mul_emod_self_left, Int.emod_eq_of_lt hi0 hin] at hit
    have hidx : (switchShader env delta s).currentShaderIndex =
        (ensureShaderList env s).currentShaderIndex := by
      unfold switchShader
      simp only [hnotemp, Bool.false_eq_true, if_false]
      rw [hl.2.2.1, hit]
    have hpath : (switchShader env delta s).currentShaderPath =
        (ensureShaderList env s).shaderList.getD
          (ensureShaderList env s).currentShaderIndex.toNat [] := by
      have h4 := hl.2.2.2
      rw [if_neg (Nat.pos_iff_ne_zero.mp hpos), hl.2.2.1, hit] at h4
      unfold switchShader
      simp only [hnotemp, Bool.false_eq_true, if_false]
      exact h4
    exact ⟨hidx, hpath, fun hsync => hpath.trans hsync.symm⟩
  · intro hne
    have hnotemp : (ensureShaderList env s).shaderList.isEmpty = false := by
      cases hl : (ensureShaderList env s).shaderList with
      | nil => exact absurd hl hne
      | cons x xs => rfl
    have hpos : 0 < (ensureShaderList env s).shaderList.length := List.length_pos.mpr hne
    obtain ⟨k, hk⟩ := Nat.exists_eq_succ_of_ne_zero (Nat.pos_iff_ne_zero.mp hpos)
    unfold switchShader
    simp only [hnotemp, Bool.false_eq_true, if_false]
    rw [hk]
    exact switchShaderLoop_in_sync env delta _ k _

/-- Witness for C10: stepping back through two shaders of which none compiles. -/
theorem C10_failed_switch_selection_witness :
    (switchShader noCompileEnv (-1) browsingViewer).currentShaderIndex = 0 ∧
    (switchShader noCompileEnv (-1) browsingViewer).currentShaderPath =
      "shaders/a.frag".toList := by
  have h := (C10_failed_switch_selection noCompileEnv (-1) browsingViewer).2.1
    (Or.inr rfl) (by decide) (by decide) (by decide) (by decide)
  exact ⟨h.1, h.2.2 (by decide)⟩

/-! ### Termination and cost of the candidate loop -/

theorem compileAndLoadShader_log (env : ShaderEnv) (p : List Char) (s : ShaderState) :
    (compileAndLoadShader env p s).1.log = s.log ++ [ShaderAction.compileAndLoadShader p] := by
  unfold compileAndLoadShader
  cases h : (env.compile p).result <;> simp [h]

theorem recreatePipeline_log (env : ShaderEnv) (s : ShaderState) :
    ∃ extra, (recreatePipeline env s).1.log =
        s.log ++ ShaderAction.destroyPipeline s.graphicsPipeline :: extra ∧
      extra.countP ShaderAction.isCompile = 0 ∧ extra.countP ShaderAction.isRebuild = 0 := by
  unfold recreatePipeline createGraphicsPipeline
  cases pipelineOutcome env s.currentShaderPath s.hasGeometryShader
  · exact ⟨[], by simp, rfl, rfl⟩
  · exact ⟨[], by simp, rfl, rfl⟩
  · exact ⟨[], by simp, rfl, rfl⟩
  · exact ⟨[ShaderAction.createPipelineLayout s.nextHandle], by simp [storePipelineLayout],
      rfl, rfl⟩
  · rename_i stages
    exact ⟨[ShaderAction.createPipelineLayout s.nextHandle,
      ShaderAction.createGraphicsPipelines (s.nextHandle + 1) stages],
      by simp [storePipelineLayout], rfl, rfl⟩

/-- One iteration of the loop appends at most one compile attempt and at most
one rebuild to the log. -/
theorem switchShaderLoop_succ_log (env : ShaderEnv) (delta : Int) (cur : List Char)
    (k : Nat) (s : ShaderState) :
    ∃ (sX : ShaderState) (extra : List ShaderAction), sX.log = s.log ++ extra ∧
      extra.countP ShaderAction.isCompile ≤ 1 ∧ extra.countP ShaderAction.isRebuild ≤ 1 ∧
      (switchShaderLoop env delta cur (k + 1) s = switchShaderLoop env delta cur k sX ∨
        switchShaderLoop env delta cur (k + 1) s = (sX, true)) := by
  have hlog := compileAndLoadShader_log env
    (s.shaderList.getD (nextShaderIndex s.currentShaderIndex delta s.shaderList.length).toNat [])
    { s with
      currentShaderIndex := nextShaderIndex s.currentShaderIndex delta s.shaderList.length
      currentShaderPath := s.shaderList.getD
        (nextShaderIndex s.currentShaderIndex delta s.shaderList.length).toNat [] }
  simp only [switchShaderLoop]
  split_ifs with hdup
  · exact ⟨{ s with
      currentShaderIndex := nextShaderIndex s.currentShaderIndex delta s.shaderList.length
      currentShaderPath := s.shaderList.getD
        (nextShaderIndex s.currentShaderIndex delta s.shaderList.length).toNat [] }, [],
      by simp, by simp, by simp, Or.inl rfl⟩
  · split
    · rename_i s2 hc
      rw [hc] at hlog
      obtain ⟨extra, hex, hc0, hr0⟩ := recreatePipeline_log env
        { s2 with log := s2.log ++ [ShaderAction.deviceWaitIdle] }
      have hboth : ∀ s4 : ShaderState,
          s4 = (recreatePipeline env { s2 with log := s2.log ++ [ShaderAction.deviceWaitIdle] }).1 →
          s4.log = s.log ++ (ShaderAction.compileAndLoadShader
              (s.shaderList.getD
                (nextShaderIndex s.currentShaderIndex delta s.shaderList.length).toNat []) ::
            ShaderAction.deviceWaitIdle :: ShaderAction.destroyPipeline s2.graphicsPipeline ::
              extra) := by
        intro s4 h4
        rw [h4, hex]
        simp only at hlog
        simp [hlog]
      have hcnt1 : (ShaderAction.compileAndLoadShader
              (s.shaderList.getD
                (nextShaderIndex s.currentShaderIndex delta s.shaderList.length).toNat []) ::
            ShaderAction.deviceWaitIdle :: ShaderAction.destroyPipeline s2.graphicsPipeline ::
              extra).countP ShaderAction.isCompile ≤ 1 := by
        simp [List.countP_cons, ShaderAction.isCompile, hc0]
      have hcnt2 : (ShaderAction.compileAndLoadShader
              (s.shaderList.getD
                (nextShaderIndex s.currentShaderIndex delta s.shaderList.length).toNat []) ::
            ShaderAction.deviceWaitIdle :: ShaderAction.destroyPipeline s2.graphicsPipeline ::
              extra).countP ShaderAction.isRebuild ≤ 1 := by
        simp [List.countP_cons, ShaderAction.isRebuild, hr0]
      split
      · rename_i s4 hr
        exact ⟨s4, _, hboth s4 (by rw [hr]), hcnt1, hcnt2, Or.inr rfl⟩
      · rename_i s4 msg hr
        exact ⟨s4, _, hboth s4 (by rw [hr]), hcnt1, hcnt2, Or.inl rfl⟩
    · rename_i s2 hc
      rw [hc] at hlog
      exact ⟨s2, _, hlog, by simp [ShaderAction.isCompile], by simp [ShaderAction.isRebuild],
        Or.inl rfl⟩

/-- The loop with `k` attempts left appends at most `k` compile attempts and at
most `k` rebuilds to the log. -/
theorem switchShaderLoop_log_bound (env : ShaderEnv) (delta : Int) (cur : List Char)
    (k : Nat) (s : ShaderState) :
    ∃ added : List ShaderAction, (switchShaderLoop env delta cur k s).1.log = s.log ++ added ∧
      added.countP ShaderAction.isCompile ≤ k ∧ added.countP ShaderAction.isRebuild ≤ k := by
  induction k generalizing s with
  | zero => exact ⟨[], by simp [switchShaderLoop], by simp, by simp⟩
  | succ k ih =>
    obtain ⟨sX, extra, hlog, hc, hr, hcase⟩ := switchShaderLoop_succ_log env delta cur k s
    rcases hcase with h | h
    · obtain ⟨added, hadd, hac, har⟩ := ih sX
      refine ⟨extra ++ added, ?_, ?_, ?_⟩
      · rw [h, hadd, hlog, List.append_assoc]
      · rw [List.countP_append]; omega
      · rw [List.countP_append]; omega
    · refine ⟨extra, ?_, by omega, by omega⟩
      rw [h]; exact hlog
/-- The literal `while` loop, given enough fuel, ends with the result of
`switchShaderLoop`, and its counter stays within `maxAttempts`. -/
theorem switchShaderWhile_eq (env : ShaderEnv) (delta : Int) (cur : List Char) (maxAttempts : Int)
    (k : Nat) (fuel : Nat) (attempts : Int) (s : ShaderState)
    (hk : maxAttempts - attempts = (k : Int)) (hfuel : k < fuel) :
    ∃ a : Int,
      switchShaderWhile env delta cur maxAttempts fuel attempts s =
        some ((switchShaderLoop env delta cur k s).1, (switchShaderLoop env delta cur k s).2, a) ∧
      attempts ≤ a ∧ a ≤ maxAttempts ∧
      ((switchShaderLoop env delta cur k s).2 = true → a < maxAttempts) := by
  induction k generalizing fuel attempts s with
  | zero =>
    obtain ⟨f, rfl⟩ := Nat.exists_eq_succ_of_ne_zero (Nat.pos_iff_ne_zero.mp hfuel)
    have hnot : ¬ attempts < maxAttempts := by omega
    refine ⟨attempts, ?_, le_refl _, by omega, ?_⟩
    · simp [switchShaderWhile, switchShaderLoop, hnot]
    · simp [switchShaderLoop]
  | succ k ih =>
    obtain ⟨f, rfl⟩ := Nat.exists_eq_succ_of_ne_zero (Nat.pos_iff_ne_zero.mp (by omega : 0 < fuel))
    have hlt : attempts < maxAttempts := by omega
    have hk' : maxAttempts - (attempts + 1) = (k : Int) := by omega
    have hf' : k < f := by omega
    have hcont : ∀ sX : ShaderState, ∃ a : Int,
        switchShaderWhile env delta cur maxAttempts f (attempts + 1) sX =
          some ((switchShaderLoop env delta cur k sX).1,
            (switchShaderLoop env delta cur k sX).2, a) ∧
        attempts ≤ a ∧ a ≤ maxAttempts ∧
        ((switchShaderLoop env delta cur k sX).2 = true → a < maxAttempts) := by
      intro sX
      obtain ⟨a, h1, h2, h3, h4⟩ := ih f (attempts + 1) sX hk' hf'
      exact ⟨a, h1, by omega, h3, h4⟩
    simp only [switchShaderWhile, switchShaderLoop, hlt, if_true]
    split_ifs with hdup
    · exact hcont _
    · split
      · split
        · exact ⟨attempts, rfl, le_refl _, le_of_lt hlt, fun _ => hlt⟩
        · exact hcont _
      · exact hcont _

/-- C11: for every non-empty shader list of size `n` and every delta, the
candidate loop of `switchShader`, run literally with its counter, ends after at
most `n` iterations (fuel for `n + 1` evaluations of the loop condition is
enough) whether or not a candidate succeeds: the counter `attempts` ends
between 0 and `n`, below `n` when the loop returned with success; the call
appends at most `n` compile attempts and at most `n` pipeline rebuilds to the
log.  The result is that of `switchShader`. -/
theorem C11_switch_loop_bounded (env : ShaderEnv) (delta : Int) (s : ShaderState)
    (hne : s.shaderList ≠ []) :
    (∃ (success : Bool) (attempts : Int),
      switchShaderWhile env delta (getCompiledSpvPath s.currentShaderPath)
          (s.shaderList.length : Int) (s.shaderList.length + 1) 0 s =
        some (switchShader env delta s, success, attempts) ∧
      0 ≤ attempts ∧ attempts ≤ (s.shaderList.length : Int) ∧
      (success = true → attempts < (s.shaderList.length : Int))) ∧
    (∃ added : List ShaderAction,
      (switchShader env delta s).log = s.log ++ added ∧
      added.countP ShaderAction.isCompile ≤ s.shaderList.length ∧
      added.countP ShaderAction.isRebuild ≤ s.shaderList.length) := by
  have hens := (ensureShaderList_fields env s).2 hne
  have hnotemp : s.shaderList.isEmpty = false := by
    cases hl : s.shaderList with
    | nil => exact absurd hl hne
    | cons x xs => rfl
  have hsw : switchShader env delta s =
      (switchShaderLoop env delta (getCompiledSpvPath s.currentShaderPath)
        s.shaderList.length s).1 := by
    unfold switchShader
    simp only [hens, hnotemp, Bool.false_eq_true, if_false]
  constructor
  · obtain ⟨a, h1, h2, h3, h4⟩ := switchShaderWhile_eq env delta
      (getCompiledSpvPath s.currentShaderPath) (s.shaderList.length : Int) s.shaderList.length
      (s.shaderList.length + 1) 0 s (by omega) (by omega)
    exact ⟨_, a, by rw [hsw]; exact h1, h2, h3, h4⟩
  · obtain ⟨added, h1, h2, h3⟩ := switchShaderLoop_log_bound env delta
      (getCompiledSpvPath s.currentShaderPath) s.shaderList.length s
    exact ⟨added, by rw [hsw]; exact h1, h2, h3⟩

/-- Witness for C11: two listed shaders, the second of which cannot be built. -/
theorem C11_switch_loop_bounded_witness :
    ∃ added : List ShaderAction,
      (switchShader rejectedPipelineEnv 1 browsingViewer).log = browsingViewer.log ++ added ∧
      added.countP ShaderAction.isCompile ≤ browsingViewer.shaderList.length ∧
      added.countP ShaderAction.isRebuild ≤ browsingViewer.shaderList.length :=
  (C11_switch_loop_bounded rejectedPipelineEnv 1 browsingViewer (by decide)).2

/-! ### Order of the host calls in a frame -/

theorem drawFramePrepare_log {e : FrameEnv} {s s1 : FrameState}
    (h : drawFramePrepare e s = Except.ok s1) :
    s1.log = s.log ++
      [Action.waitForFences s.currentFrame, Action.acquireNextImage s.currentFrame,
       Action.updateUniformBuffer,
       Action.updateFeedbackDescriptor s.currentFrame (1 - s.currentFeedbackBuffer),
       Action.resetFences s.currentFrame, Action.resetCommandBuffer s.currentFrame] := by
  unfold drawFramePrepare at h
  by_cases hc : e.acquireResult ≠ VkResult.VK_SUCCESS ∧ e.acquireResult ≠ VkResult.VK_SUBOPTIMAL_KHR
  · simp [hc] at h
  · simp only [hc, if_false, Except.ok.injEq] at h
    subst h
    simp [updateFeedbackDescriptor, readBuffer]

theorem recordCommandBuffer_log {e : FrameEnv} {slot : Nat} {s s2 : FrameState}
    (h : recordCommandBuffer e slot s = Except.ok s2) :
    s2.log = s.log ++ [Action.recordCommandBuffer slot e.imageIndex] := by
  unfold recordCommandBuffer at h
  cases hb : e.beginCommandBufferOk <;> cases he : e.endCommandBufferOk <;> simp [hb, he] at h
  subst h
  rfl

theorem drawFrameSubmit_log {e : FrameEnv} {s s' : FrameState}
    (h : drawFrameSubmit e s = Except.ok s') :
    s'.log = s.log ++
      [Action.queueSubmit s.currentFrame s.currentFrame s.currentFrame s.currentFrame,
       Action.queuePresent e.imageIndex s.currentFrame] := by
  unfold drawFrameSubmit at h
  cases hq : e.queueSubmitOk <;> simp [hq] at h
  subst h
  simp

/-- The log of a completed `drawFrame`. -/
theorem drawFrame_ok_log {e : FrameEnv} {s s' : FrameState} (h : drawFrame e s = Except.ok s') :
    s'.log = s.log ++ frameActions s.currentFrame e.imageIndex (1 - s.currentFeedbackBuffer) := by
  obtain ⟨s1, s2, h1, h2, h3⟩ := drawFrame_ok_iff.mp h
  have a := drawFramePrepare_ok h1
  have b := recordCommandBuffer_ok h2
  rw [drawFrameSubmit_log h3, recordCommandBuffer_log h2, drawFramePrepare_log h1, b.1, a.2.1]
  simp [frameActions]

/-- C12: in every completed `drawFrame` call, with `slot` the value of
`currentFrame` at entry, the host calls appended to the log are exactly: wait on
fence `slot`, acquire, update uniforms, update of the feedback descriptor,
reset of fence `slot`, reset and re-recording of command buffer `slot`, submit
of command buffer `slot` signalling fence `slot`, present; then `currentFrame`
advances.  So the calls the specification lists occur in its order, and the
reset and re-recording of the command buffer come after a wait on the same
slot's fence within the call. -/
theorem C12_frame_action_order (e : FrameEnv) (s s' : FrameState)
    (h : drawFrame e s = Except.ok s') :
    s'.log = s.log ++ frameActions s.currentFrame e.imageIndex (1 - s.currentFeedbackBuffer) ∧
    List.Sublist (specifiedFrameOrder s.currentFrame e.imageIndex)
      (frameActions s.currentFrame e.imageIndex (1 - s.currentFeedbackBuffer)) ∧
    s'.currentFrame = (s.currentFrame + 1) % MAX_FRAMES_IN_FLIGHT ∧
    (∃ before between after_,
      frameActions s.currentFrame e.imageIndex (1 - s.currentFeedbackBuffer) =
        before ++ Action.waitForFences s.currentFrame :: between ++
          Action.resetCommandBuffer s.currentFrame ::
          Action.recordCommandBuffer s.currentFrame e.imageIndex :: after_ ∧
      (∀ slot, Action.resetCommandBuffer slot ∉ before ++ between) ∧
      (∀ slot k, Action.recordCommandBuffer slot k ∉ before ++ between)) := by
  refine ⟨drawFrame_ok_log h, ?_, (drawFrame_ok_fields h).2, ?_⟩
  · simp only [specifiedFrameOrder, frameActions]
    exact List.Sublist.cons₂ _ (List.Sublist.cons₂ _ (List.Sublist.cons₂ _
      (List.Sublist.cons _ (List.Sublist.refl _))))
  · refine ⟨[], [Action.acquireNextImage s.currentFrame, Action.updateUniformBuffer,
      Action.updateFeedbackDescriptor s.currentFrame (1 - s.currentFeedbackBuffer),
      Action.resetFences s.currentFrame], _, rfl, ?_, ?_⟩
    · intro slot; simp
    · intro slot k; simp

/-- Witness for C12: the first frame after start-up. -/
theorem C12_frame_action_order_witness :
    ∃ s', drawFrame (successEnv 3) (initFrameState 1 1 1280 720) = Except.ok s' ∧
      s'.log = frameActions 0 3 1 ∧ s'.currentFrame = 1 := by
  obtain ⟨s', hs'⟩ := @drawFrame_good_ok (successEnv 3) ⟨Or.inl rfl, rfl, rfl, rfl⟩
    (initFrameState 1 1 1280 720)
  have h := C12_frame_action_order _ _ _ hs'
  exact ⟨s', hs', by rw [h.1]; rfl, by rw [h.2.2.1]; rfl⟩

/-! ### The acquire error -/

theorem drawFrame_acquire_failed (e : FrameEnv) (s : FrameState)
    (hc : e.acquireResult ≠ VkResult.VK_SUCCESS ∧ e.acquireResult ≠ VkResult.VK_SUBOPTIMAL_KHR) :
    drawFrame e s = Except.error ⟨"Failed to acquire swapchain image!",
      { s with log := s.log ++
        [Action.waitForFences s.currentFrame, Action.acquireNextImage s.currentFrame] }⟩ := by
  simp [drawFrame, drawFramePrepare, hc, bind, Except.bind]

theorem drawFrame_acquired_message (e : FrameEnv) (s : FrameState)
    (hc : ¬ (e.acquireResult ≠ VkResult.VK_SUCCESS ∧
      e.acquireResult ≠ VkResult.VK_SUBOPTIMAL_KHR))
    (ex : FrameException) (h : drawFrame e s = Except.error ex) :
    ex.message ≠ "Failed to acquire swapchain image!" := by
  unfold drawFrame drawFramePrepare recordCommandBuffer drawFrameSubmit at h
  simp only [hc, if_false, bind, Except.bind] at h
  cases hb : e.beginCommandBufferOk <;> cases he : e.endCommandBufferOk <;>
    cases hq : e.queueSubmitOk <;> simp [hb, he, hq] at h <;> subst h <;> simp

/-- C20: `drawFrame` throws the acquire error if and only if the acquire result
is neither success nor suboptimal; at that throw only the fence wait and the
acquire have been issued (no fence reset, no uniform or descriptor update, no
recording, no submission) and `currentFrame`, `currentFeedbackBuffer`, the
descriptor sets and the command buffers are unchanged; with a suboptimal
result `drawFrame` does exactly what it does with success. -/
theorem C20_acquire_error (e : FrameEnv) (s : FrameState) :
    ((∃ ex, drawFrame e s = Except.error ex ∧
        ex.message = "Failed to acquire swapchain image!") ↔
      (e.acquireResult ≠ VkResult.VK_SUCCESS ∧ e.acquireResult ≠ VkResult.VK_SUBOPTIMAL_KHR)) ∧
    (∀ ex, drawFrame e s = Except.error ex →
      ex.message = "Failed to acquire swapchain image!" →
        ex.state.log = s.log ++
          [Action.waitForFences s.currentFrame, Action.acquireNextImage s.currentFrame] ∧
        ex.state.currentFrame = s.currentFrame ∧
        ex.state.currentFeedbackBuffer = s.currentFeedbackBuffer ∧
        ex.state.descriptorFeedbackView = s.descriptorFeedbackView ∧
        ex.state.commandBuffers = s.commandBuffers) ∧
    drawFrame { e with acquireResult := VkResult.VK_SUBOPTIMAL_KHR } s =
      drawFrame { e with acquireResult := VkResult.VK_SUCCESS } s := by
  refine ⟨⟨?_, ?_⟩, ?_, ?_⟩
  · rintro ⟨ex, hex, hmsg⟩
    by_contra hc
    exact drawFrame_acquired_message e s hc ex hex hmsg
  · intro hc
    exact ⟨_, drawFrame_acquire_failed e s hc, rfl⟩
  · intro ex hex hmsg
    by_cases hc : e.acquireResult ≠ VkResult.VK_SUCCESS ∧
        e.acquireResult ≠ VkResult.VK_SUBOPTIMAL_KHR
    · rw [drawFrame_acquire_failed e s hc] at hex
      simp only [Except.error.injEq] at hex
      subst hex
      exact ⟨rfl, rfl, rfl, rfl, rfl⟩
    · exact absurd hmsg (drawFrame_acquired_message e s hc ex hex)
  · simp [drawFrame, drawFramePrepare, recordCommandBuffer, drawFrameSubmit]

/-- Witness for C20: the swapchain is out of date. -/
theorem C20_acquire_error_witness :
    ∃ ex, drawFrame { successEnv 0 with acquireResult := VkResult.VK_ERROR_OUT_OF_DATE_KHR }
        (initFrameState 1 1 1280 720) = Except.error ex ∧
      ex.message = "Failed to acquire swapchain image!" :=
  (C20_acquire_error { successEnv 0 with acquireResult := VkResult.VK_ERROR_OUT_OF_DATE_KHR }
    (initFrameState 1 1 1280 720)).1.mpr (by decide)

/-! ### Two frames in flight -/

/-- The effect of the calls of one completed frame on the view. -/
theorem syncView_frame (v : SyncView) (c k : Nat) (view : Int) :
    ((frameActions c k view).foldl syncStep v).submitted = v.submitted + 1 ∧
    ((frameActions c k view).foldl syncStep v).fence =
      Function.update v.fence c (FenceStatus.pending v.submitted) ∧
    ((frameActions c k view).foldl syncStep v).outstanding =
      (match v.fence c with
        | FenceStatus.pending j => v.outstanding.filter (fun i => decide (i ≠ j))
        | _ => v.outstanding) ++ [v.submitted] ∧
    ((frameActions c k view).foldl syncStep v).maxOutstanding =
      max v.maxOutstanding
        ((match v.fence c with
          | FenceStatus.pending j => v.outstanding.filter (fun i => decide (i ≠ j))
          | _ => v.outstanding).length + 1) ∧
    ((frameActions c k view).foldl syncStep v).waits = v.waits ++ [(c, v.fence c)] := by
  cases h : v.fence c <;> simp [frameActions, syncStep, h]

theorem syncInvariant_frame (n k : Nat) (view : Int) (v : SyncView) (h : SyncInvariant n v) :
    SyncInvariant (n + 1) ((frameActions (n % 2) k view).foldl syncStep v) := by
  obtain ⟨hs, hf0, hf1, ho, hm, hw⟩ := h
  obtain ⟨a1, a2, a3, a4, a5⟩ := syncView_frame v (n % 2) k view
  have hne : (n + 1) % 2 ≠ n % 2 := by omega
  have h2 : (n + 1 + 1) % 2 = n % 2 := by omega
  refine ⟨by rw [a1, hs], ?_, ?_, ?_, ?_, ?_⟩
  · rw [a2, Function.update_noteq hne, hf1]
    rcases Nat.eq_zero_or_pos n with h0 | hpos
    · subst h0; rfl
    · have : ¬ n = 0 := by omega
      have h3 : ¬ n + 1 < 2 := by omega
      rw [if_neg this, if_neg h3]
      rfl
  · rw [h2, a2, Function.update_same, hs]
    simp
  · rw [a3, hf0, ho, hs]
    by_cases h0 : n = 0
    · subst h0; rfl
    · by_cases h1 : n = 1
      · subst h1; rfl
      · have hlt : ¬ n < 2 := by omega
        have hn1 : ¬ n + 1 = 1 := by omega
        have hdiff : n - 1 ≠ n - 2 := by omega
        simp only [hlt, if_false, h0, h1, hn1, Nat.add_one_ne_zero]
        simp [List.filter, hdiff]
  · rw [a4, hf0, ho]
    by_cases h0 : n = 0
    · subst h0; simp; omega
    · by_cases h1 : n = 1
      · subst h1; simp; omega
      · have hlt : ¬ n < 2 := by omega
        have hdiff : n - 1 ≠ n - 2 := by omega
        simp only [hlt, if_false, h0, h1]
        simp [List.filter, hdiff]
        omega
  · rw [a5, hw, hf0, List.range_succ, List.map_append]
    rfl

/-- After any number of completed frames the slot is the frame count modulo 2
and the view of the log is the invariant one. -/
theorem runFrames_sync (es : List FrameEnv) (s0 s : FrameState) (n0 : Nat)
    (hrun : runFrames es s0 = Except.ok s) (hc : s0.currentFrame = n0 % 2)
    (hinv : SyncInvariant n0 (syncView s0.log)) :
    s.currentFrame = (n0 + es.length) % 2 ∧ SyncInvariant (n0 + es.length) (syncView s.log) := by
  induction es generalizing s0 n0 with
  | nil =>
    simp only [runFrames, Except.ok.injEq] at hrun
    subst hrun
    exact ⟨by simpa using hc, by simpa using hinv⟩
  | cons e es ih =>
    simp only [runFrames] at hrun
    cases hd : drawFrame e s0 with
    | error m => simp [hd] at hrun
    | ok s1 =>
      simp only [hd] at hrun
      have hlog := drawFrame_ok_log hd
      have hcf := (drawFrame_ok_fields hd).2
      have hc1 : s1.currentFrame = (n0 + 1) % 2 := by
        rw [hcf, hc]; simp only [MAX_FRAMES_IN_FLIGHT]; omega
      have hinv1 : SyncInvariant (n0 + 1) (syncView s1.log) := by
        rw [hlog]
        unfold syncView
        rw [List.foldl_append, hc]
        exact syncInvariant_frame n0 _ _ _ hinv
      have := ih s1 (n0 + 1) hrun hc1 hinv1
      rw [List.length_cons, show n0 + (es.length + 1) = n0 + 1 + es.length by omega]
      exact this
/-- C13: after `n` completed `drawFrame` calls `currentFrame` is `n mod 2`, so
call number `j` (from 0) uses slot `j mod 2`; the fence it waits on was created
signaled and never used when `j < 2`, and for `j ≥ 2` is pending on exactly the
submission of call `j - 2`; the number of submissions not known to have
completed never exceeds 2. -/
theorem C13_two_frames_in_flight (p l w h : Nat) (es : List FrameEnv) (s : FrameState)
    (hrun : runFrames es (initFrameState p l w h) = Except.ok s) :
    s.currentFrame = es.length % 2 ∧ s.currentFrame < MAX_FRAMES_IN_FLIGHT ∧
    (syncView s.log).submitted = es.length ∧
    (syncView s.log).waits = (List.range es.length).map expectedWait ∧
    (syncView s.log).fence s.currentFrame =
      (if es.length < 2 then FenceStatus.signaled else FenceStatus.pending (es.length - 2)) ∧
    (syncView s.log).outstanding.length ≤ 2 ∧
    (syncView s.log).maxOutstanding ≤ 2 := by
  have hinit : SyncInvariant 0 (syncView (initFrameState p l w h).log) :=
    ⟨rfl, rfl, rfl, rfl, Nat.zero_le 2, rfl⟩
  obtain ⟨hc, hs, hf0, hf1, ho, hm, hw⟩ :=
    runFrames_sync es (initFrameState p l w h) s 0 hrun rfl hinit
  simp only [Nat.zero_add] at hc hs hf0 hf1 ho hm hw
  refine ⟨hc, ?_, hs, hw, by rw [hc]; exact hf0, ?_, hm⟩
  · rw [hc]; simp only [MAX_FRAMES_IN_FLIGHT]; omega
  · rw [ho]; split_ifs <;> simp

/-- Witness for C13: after three frames the next call uses slot 1, whose fence
is pending on the submission of call 1. -/
theorem C13_two_frames_in_flight_witness :
    ∃ s, runFrames [successEnv 0, successEnv 1, successEnv 2] (initFrameState 1 1 1280 720)
        = Except.ok s ∧ s.currentFrame = 1 ∧
      (syncView s.log).fence s.currentFrame = FenceStatus.pending 1 ∧
      (syncView s.log).maxOutstanding ≤ 2 := by
  obtain ⟨s, hs⟩ := runFrames_good_ok [successEnv 0, successEnv 1, successEnv 2] (by
    intro e he
    simp only [List.mem_cons, List.mem_singleton, List.not_mem_nil, or_false] at he
    rcases he with rfl | rfl | rfl <;> exact ⟨Or.inl rfl, rfl, rfl, rfl⟩)
    (initFrameState 1 1 1280 720)
  have h := C13_two_frames_in_flight 1 1 1280 720 _ s hs
  exact ⟨s, hs, h.1, h.2.2.2.2.1, h.2.2.2.2.2.2⟩

/-! ### Uniform storage of the frame slots -/

/-- Counterexample to C14: after `initVulkan` binding 0 of both descriptor
sets names the same buffer at the same offset, and the block written for the
frame of slot 1 (time 2) replaces the block that descriptor set 0 reads
(time 1). -/
theorem C14_counterexample :
    (initUniformResources ℚ 10 11).descriptorUniform 0 =
      (initUniformResources ℚ 10 11).descriptorUniform 1 ∧
    (uniformReadThrough
      (storeUniformBlock (timeOnlyBlock 1) (initUniformResources ℚ 10 11)) 0).map
        (fun u => u.iTime) = some 1 ∧
    (uniformReadThrough
      (storeUniformBlock (timeOnlyBlock 2)
        (storeUniformBlock (timeOnlyBlock 1) (initUniformResources ℚ 10 11))) 0).map
        (fun u => u.iTime) = some 2 ∧
    (some 1 : Option ℚ) ≠ some 2 := by
  refine ⟨rfl, ?_, ?_, by norm_num⟩
  · simp [uniformReadThrough, storeUniformBlock, initUniformResources,
      createDescriptorSetsUniform, createUniformBuffer, noUniformResources,
      MAX_FRAMES_IN_FLIGHT, timeOnlyBlock]
  · simp [uniformReadThrough, storeUniformBlock, initUniformResources,
      createDescriptorSetsUniform, createUniformBuffer, noUniformResources,
      MAX_FRAMES_IN_FLIGHT, timeOnlyBlock]

/-- C14 (amended): the uniform block written for a frame is stored in the one
uniform buffer of the viewer: binding 0 of the descriptor sets of both frame
slots references that buffer at offset 0 with range
`sizeof(UniformBufferObject)`, so after the write performed by
`updateUniformBuffer` for either slot the block read through the descriptor
set of each slot is the block just written. -/
theorem C14_uniform_storage_shared {F : Type} (buffer memory : Nat)
    (ubos : List (UniformBufferObject F)) (ubo : UniformBufferObject F) (i : Nat)
    (hi : i < MAX_FRAMES_IN_FLIGHT) :
    (initUniformResources F buffer memory).descriptorUniform i =
      some ⟨buffer, 0, sizeofUniformBufferObject⟩ ∧
    sizeofUniformBufferObject = 64 ∧
    uniformReadThrough
      (storeUniformBlock ubo
        (ubos.foldl (fun r u => storeUniformBlock u r) (initUniformResources F buffer memory))) i =
      some ubo := by
  have hinv : ∀ r : UniformResources F,
      r.descriptorUniform i = some ⟨buffer, 0, sizeofUniformBufferObject⟩ →
      r.boundMemory buffer = some r.uniformBufferMapped →
      (ubos.foldl (fun r u => storeUniformBlock u r) r).descriptorUniform i =
        some ⟨buffer, 0, sizeofUniformBufferObject⟩ ∧
      (ubos.foldl (fun r u => storeUniformBlock u r) r).boundMemory buffer =
        some (ubos.foldl (fun r u => storeUniformBlock u r) r).uniformBufferMapped := by
    induction ubos with
    | nil => intro r h1 h2; exact ⟨h1, h2⟩
    | cons u us ih =>
      intro r h1 h2
      exact ih (storeUniformBlock u r) h1 h2
  have h0 : (initUniformResources F buffer memory).descriptorUniform i =
      some ⟨buffer, 0, sizeofUniformBufferObject⟩ := by
    simp [initUniformResources, createDescriptorSetsUniform, createUniformBuffer, hi]
  have h1 : (initUniformResources F buffer memory).boundMemory buffer =
      some (initUniformResources F buffer memory).uniformBufferMapped := by
    simp [initUniformResources, createDescriptorSetsUniform, createUniformBuffer]
  obtain ⟨hd, hb⟩ := hinv _ h0 h1
  refine ⟨h0, by decide, ?_⟩
  generalize ubos.foldl (fun r u => storeUniformBlock u r) (initUniformResources F buffer memory)
    = r at hd hb
  simp [uniformReadThrough, storeUniformBlock, hd, hb]

/-- Witness for C14: the block written for the second frame is what the
descriptor set of slot 0 reads. -/
theorem C14_uniform_storage_shared_witness :
    (uniformReadThrough
      (storeUniformBlock (timeOnlyBlock 2)
        ([timeOnlyBlock 1].foldl (fun r u => storeUniformBlock u r)
          (initUniformResources ℚ 10 11))) 0).map (fun u => u.iTime) = some 2 := by
  rw [(C14_uniform_storage_shared 10 11 [timeOnlyBlock 1] (timeOnlyBlock 2) 0 (by decide)).2.2]
  rfl

/-! ### The recorded command sequence -/

theorem toInt32_of_lt (x : Nat) (h : x < 2 ^ 31) : toInt32 x = (x : Int) := by
  unfold toInt32
  have h1 : x % 2 ^ 32 = x := Nat.mod_eq_of_lt (by omega)
  rw [h1, if_pos h]

/-- C16: for every write index `w` (in particular 0 and 1), swapchain image `k`
and an extent below `2^31` in both directions, a successful `recordCommandBuffer` leaves in
the command buffer exactly the sequence the specification gives: barrier
feedback[w] shader-read-only to colour-attachment; render pass into
`feedbackFramebuffers[w]` drawing 6 vertices; barrier back to shader-read-only;
barriers feedback[w] to transfer-source and swapchain[k] undefined to
transfer-destination; nearest blit feedback[w] to swapchain[k] over
(0,0,0)-(width,height,1); barriers swapchain[k] to present-source and
feedback[w] to shader-read-only.  No command targets feedback[1 - w]. -/
theorem C16_recorded_commands (e : FrameEnv) (slot : Nat) (s s2 : FrameState)
    (hwidth : s.swapchainExtentWidth < 2 ^ 31) (hheight : s.swapchainExtentHeight < 2 ^ 31)
    (hrec : recordCommandBuffer e slot s = Except.ok s2) :
    s2.commandBuffers slot =
      specifiedCommands (writeBuffer s) e.imageIndex s.swapchainExtentWidth
        s.swapchainExtentHeight s.graphicsPipeline s.pipelineLayout s.currentFrame ∧
    (∀ c ∈ s2.commandBuffers slot, Image.feedback (1 - writeBuffer s) ∉ c.targets) := by
  have hcmds : recordedCommands s e.imageIndex =
      specifiedCommands (writeBuffer s) e.imageIndex s.swapchainExtentWidth
        s.swapchainExtentHeight s.graphicsPipeline s.pipelineLayout s.currentFrame := by
    simp only [recordedCommands, specifiedCommands, toInt32_of_lt _ hwidth,
      toInt32_of_lt _ hheight]
  have hbuf : s2.commandBuffers slot = recordedCommands s e.imageIndex := by
    rw [(recordCommandBuffer_ok hrec).2.2.2, Function.update_same]
  have hne : (1 - writeBuffer s) ≠ writeBuffer s := by omega
  refine ⟨hbuf.trans hcmds, ?_⟩
  intro c hc
  rw [hbuf, hcmds] at hc
  simp only [specifiedCommands, List.mem_cons, List.mem_singleton, List.not_mem_nil,
    or_false] at hc
  rcases hc with rfl | rfl | rfl | rfl | rfl | rfl | rfl | rfl | rfl | rfl <;>
    simp [Cmd.targets, hne]

/-- Witness for C16: the first frame, recording for swapchain image 2. -/
theorem C16_recorded_commands_witness :
    ∃ s2, recordCommandBuffer (successEnv 2) 0 (initFrameState 1 1 1280 720) = Except.ok s2 ∧
      s2.commandBuffers 0 = specifiedCommands 0 2 1280 720 1 1 0 := by
  refine ⟨_, rfl, ?_⟩
  exact (C16_recorded_commands (successEnv 2) 0 (initFrameState 1 1 1280 720) _
    (by decide) (by decide) rfl).1
/-- C15, the code evaluated: in the commands recorded for any frame, with the
feedback images starting in shader-read-only layout and the swapchain image in
layout `other`, the barrier after the render pass declares old layout
colour-attachment for `feedbackImages[w]` while the render pass of
`createRenderPass` has left that image in present-source, its declared final
layout; the only other departure is the swapchain barrier, which declares
undefined whatever layout the image has.  Had the render pass declared
colour-attachment as its final layout, no declared layout would differ. -/
theorem C15_layout_mismatch_after_render_pass (s : FrameState) (k : Nat)
    (other : VkImageLayout) :
    frameLayoutMismatches createRenderPass other (recordedCommands s k) =
      ⟨Image.feedback (writeBuffer s), VkImageLayout.COLOR_ATTACHMENT_OPTIMAL,
        VkImageLayout.PRESENT_SRC_KHR⟩ ::
        (if VkImageLayout.UNDEFINED = other then []
         else [⟨Image.swapchain k, VkImageLayout.UNDEFINED, other⟩]) ∧
    createRenderPass.finalLayout = VkImageLayout.PRESENT_SRC_KHR ∧
    frameLayoutMismatches
      { createRenderPass with finalLayout := VkImageLayout.COLOR_ATTACHMENT_OPTIMAL }
      VkImageLayout.UNDEFINED (recordedCommands s k) = [] := by
  refine ⟨?_, rfl, ?_⟩
  · by_cases h : VkImageLayout.UNDEFINED = other
    · subst h
      simp [frameLayoutMismatches, recordedCommands, trackCmd, trackBarrier, frameStartLayouts,
        createRenderPass, Function.update]
    · have h' : ¬ other = VkImageLayout.UNDEFINED := fun h2 => h h2.symm
      simp [frameLayoutMismatches, recordedCommands, trackCmd, trackBarrier, frameStartLayouts,
        createRenderPass, Function.update, h, h']
  · simp [frameLayoutMismatches, recordedCommands, trackCmd, trackBarrier, frameStartLayouts,
      createRenderPass, Function.update]

/-! ### One-time layout transitions -/

/-- C17: `transitionImageLayout` throws the unsupported-transition error if and
only if the pair of layouts is not one of the six rows of the table; for a
listed pair it records and submits exactly one barrier on the image with the
access masks and stages of its row; when it throws it has recorded no barrier
and submits nothing. -/
theorem C17_transition_table (image : Image) (oldLayout newLayout : VkImageLayout) :
    ((transitionImageLayout image oldLayout newLayout).thrown =
        some "Unsupported layout transition!" ↔
      lookupTransition oldLayout newLayout = none) ∧
    ((transitionImageLayout image oldLayout newLayout).thrown ≠ none →
      (transitionImageLayout image oldLayout newLayout).thrown =
          some "Unsupported layout transition!" ∧
      (transitionImageLayout image oldLayout newLayout).recorded = [] ∧
      (transitionImageLayout image oldLayout newLayout).submitted = false) ∧
    (∀ row, lookupTransition oldLayout newLayout = some row →
      transitionImageLayout image oldLayout newLayout =
        ⟨[Cmd.pipelineBarrier row.sourceStage row.destinationStage
            [⟨oldLayout, newLayout, image, row.srcAccessMask, row.dstAccessMask⟩]],
          true, none⟩) ∧
    (transitionTable.map (fun r => (r.oldLayout, r.newLayout)) =
      [ (VkImageLayout.UNDEFINED, VkImageLayout.TRANSFER_DST_OPTIMAL),
        (VkImageLayout.TRANSFER_DST_OPTIMAL, VkImageLayout.SHADER_READ_ONLY_OPTIMAL),
        (VkImageLayout.UNDEFINED, VkImageLayout.SHADER_READ_ONLY_OPTIMAL),
        (VkImageLayout.UNDEFINED, VkImageLayout.COLOR_ATTACHMENT_OPTIMAL),
        (VkImageLayout.COLOR_ATTACHMENT_OPTIMAL, VkImageLayout.SHADER_READ_ONLY_OPTIMAL),
        (VkImageLayout.SHADER_READ_ONLY_OPTIMAL, VkImageLayout.COLOR_ATTACHMENT_OPTIMAL) ]) := by
  refine ⟨?_, ?_, ?_, rfl⟩
  · cases oldLayout <;> cases newLayout <;>
      simp [transitionImageLayout, lookupTransition, transitionTable]
  · cases oldLayout <;> cases newLayout <;> simp [transitionImageLayout]
  · intro row
    cases oldLayout <;> cases newLayout <;>
      simp [transitionImageLayout, lookupTransition, transitionTable] <;>
      (intro h; subst h; simp)

/-- Witness for C17: the transition used for the feedback images is listed,
the reverse of the upload transition is not. -/
theorem C17_transition_table_witness :
    transitionImageLayout (Image.feedback 0) VkImageLayout.UNDEFINED
        VkImageLayout.SHADER_READ_ONLY_OPTIMAL =
      ⟨[Cmd.pipelineBarrier VkStage.TOP_OF_PIPE VkStage.FRAGMENT_SHADER
          [⟨VkImageLayout.UNDEFINED, VkImageLayout.SHADER_READ_ONLY_OPTIMAL, Image.feedback 0,
            VkAccess.NONE, VkAccess.SHADER_READ⟩]], true, none⟩ ∧
    (transitionImageLayout Image.texture VkImageLayout.TRANSFER_DST_OPTIMAL
        VkImageLayout.UNDEFINED).recorded = [] := by
  constructor
  · exact (C17_transition_table (Image.feedback 0) VkImageLayout.UNDEFINED
      VkImageLayout.SHADER_READ_ONLY_OPTIMAL).2.2.1 _ rfl
  · exact ((C17_transition_table Image.texture VkImageLayout.TRANSFER_DST_OPTIMAL
      VkImageLayout.UNDEFINED).2.1 (by decide)).2.1

/-! ### Stages of the pipeline -/

theorem pipelineOutcome_stages (env : ShaderEnv) (p : List Char) (hg : Bool) :
    (if (hg && env.fileExists (artifactPath p ".geom.spv")) = true then
        [ShaderStage.vertex
            (if (!env.fileExists (artifactPath p ".vert.spv")) = true then defaultVertSpv
             else artifactPath p ".vert.spv"),
         ShaderStage.geometry (artifactPath p ".geom.spv"),
         ShaderStage.fragment (artifactPath p ".frag.spv")]
      else
        [ShaderStage.vertex
            (if (!env.fileExists (artifactPath p ".vert.spv")) = true then defaultVertSpv
             else artifactPath p ".vert.spv"),
         ShaderStage.fragment (artifactPath p ".frag.spv")]) =
      specifiedStages env p hg := by
  unfold specifiedStages
  generalize artifactPath p ".vert.spv" = v0
  generalize artifactPath p ".frag.spv" = f
  generalize artifactPath p ".geom.spv" = g
  generalize defaultVertSpv = d
  cases hg <;> cases env.fileExists v0 <;> cases env.fileExists g <;> rfl

theorem pipelineOutcome_unfold (env : ShaderEnv) (p : List Char) (hg : Bool) :
    pipelineOutcome env p hg =
      (if (!env.fileExists
            (if (!env.fileExists (artifactPath p ".vert.spv")) = true then defaultVertSpv
             else artifactPath p ".vert.spv")) = true then
        PipelineOutcome.readFileFailed
          (if (!env.fileExists (artifactPath p ".vert.spv")) = true then defaultVertSpv
           else artifactPath p ".vert.spv")
      else if (!env.fileExists (artifactPath p ".frag.spv")) = true then
        PipelineOutcome.readFileFailed (artifactPath p ".frag.spv")
      else if (!env.createShaderModuleOk
            (if (!env.fileExists (artifactPath p ".vert.spv")) = true then defaultVertSpv
             else artifactPath p ".vert.spv")) = true then
        PipelineOutcome.createShaderModuleFailed
          (if (!env.fileExists (artifactPath p ".vert.spv")) = true then defaultVertSpv
           else artifactPath p ".vert.spv")
      else if (!env.createShaderModuleOk (artifactPath p ".frag.spv")) = true then
        PipelineOutcome.createShaderModuleFailed (artifactPath p ".frag.spv")
      else if ((hg && env.fileExists (artifactPath p ".geom.spv")) &&
            !env.createShaderModuleOk (artifactPath p ".geom.spv")) = true then
        PipelineOutcome.createShaderModuleFailed (artifactPath p ".geom.spv")
      else if (!env.createPipelineLayoutOk) = true then
        PipelineOutcome.createPipelineLayoutFailed
      else if (!env.createGraphicsPipelinesOk (specifiedStages env p hg)) = true then
        PipelineOutcome.createGraphicsPipelinesFailed (specifiedStages env p hg)
      else PipelineOutcome.created (specifiedStages env p hg)) := by
  rw [← pipelineOutcome_stages]
  rfl

/-- C19: whenever `createGraphicsPipeline` gets as far as building its stage
list, the list is `[vertex, geometry, fragment]` exactly when
`hasGeometryShader` is set and `<dir>/<base>.geom.spv` exists and
`[vertex, fragment]` otherwise, with the vertex stage from
`<dir>/<base>.vert.spv` when that file exists and from the built-in artifact
otherwise and the fragment stage from `<dir>/<base>.frag.spv`; a missing
fragment artifact makes it throw; when all files are there and the driver
accepts every call, the pipeline is created from that list. -/
theorem C19_shader_stages (env : ShaderEnv) (s : ShaderState) :
    (∀ stages, pipelineOutcome env s.currentShaderPath s.hasGeometryShader =
        PipelineOutcome.created stages ∨
      pipelineOutcome env s.currentShaderPath s.hasGeometryShader =
        PipelineOutcome.createGraphicsPipelinesFailed stages →
      stages = specifiedStages env s.currentShaderPath s.hasGeometryShader) ∧
    (env.fileExists (artifactPath s.currentShaderPath ".frag.spv") = false →
      (∃ file, pipelineOutcome env s.currentShaderPath s.hasGeometryShader =
        PipelineOutcome.readFileFailed file) ∧
      (createGraphicsPipeline env s).2 = some "Failed to open file") ∧
    ((∀ file, env.fileExists file = true) → (∀ file, env.createShaderModuleOk file = true) →
      env.createPipelineLayoutOk = true → (∀ stages, env.createGraphicsPipelinesOk stages = true) →
      pipelineOutcome env s.currentShaderPath s.hasGeometryShader =
        PipelineOutcome.created (specifiedStages env s.currentShaderPath s.hasGeometryShader) ∧
      (createGraphicsPipeline env s).2 = none ∧
      (createGraphicsPipeline env s).1.log = s.log ++
        [ShaderAction.createPipelineLayout s.nextHandle,
         ShaderAction.createGraphicsPipelines (s.nextHandle + 1)
           (specifiedStages env s.currentShaderPath s.hasGeometryShader)]) := by
  have hu := pipelineOutcome_unfold env s.currentShaderPath s.hasGeometryShader
  unfold createGraphicsPipeline
  generalize pipelineOutcome env s.currentShaderPath s.hasGeometryShader = o at hu ⊢
  generalize specifiedStages env s.currentShaderPath s.hasGeometryShader = S at hu ⊢
  generalize artifactPath s.currentShaderPath ".frag.spv" = f at hu ⊢
  generalize artifactPath s.currentShaderPath ".geom.spv" = g at hu
  generalize (if (!env.fileExists (artifactPath s.currentShaderPath ".vert.spv")) = true then
    defaultVertSpv else artifactPath s.currentShaderPath ".vert.spv") = v at hu
  refine ⟨?_, ?_, ?_⟩
  · intro stages h
    rw [hu] at h
    split_ifs at h <;> simp_all
  · intro hfrag
    have ho : ∃ file, o = PipelineOutcome.readFileFailed file := by
      rw [hu]
      simp only [hfrag]
      split_ifs <;> simp_all
    obtain ⟨file, hfile⟩ := ho
    exact ⟨⟨file, hfile⟩, by rw [hfile]⟩
  · intro hfiles hmods hlayout hpipe
    have ho : o = PipelineOutcome.created S := by
      rw [hu]
      simp [hfiles, hmods, hlayout, hpipe]
    rw [ho]
    exact ⟨rfl, rfl, by simp [storePipelineLayout]⟩

/-- Witness for C19: `shaders/geo.frag` with its geometry shader, every file
present. -/
theorem C19_shader_stages_witness :
    pipelineOutcome geometryShaderEnv "shaders/geo.frag".toList true =
      PipelineOutcome.created
        [ShaderStage.vertex "shaders/geo.vert.spv".toList,
         ShaderStage.geometry "shaders/geo.geom.spv".toList,
         ShaderStage.fragment "shaders/geo.frag.spv".toList] := by
  have h := (C19_shader_stages geometryShaderEnv
    { freshViewer with currentShaderPath := "shaders/geo.frag".toList, hasGeometryShader := true }
    ).2.2 (fun _ => rfl) (fun _ => rfl) rfl (fun _ => rfl)
  rw [h.1]
  decide

/-! ### The descriptor-set layout across a shader switch -/

theorem createGraphicsPipeline_descriptorSetLayout (env : ShaderEnv) (s : ShaderState) :
    (createGraphicsPipeline env s).1.descriptorSetLayout = s.descriptorSetLayout := by
  unfold createGraphicsPipeline
  cases pipelineOutcome env s.currentShaderPath s.hasGeometryShader <;>
    simp [storePipelineLayout]

theorem recreatePipeline_descriptorSetLayout (env : ShaderEnv) (s : ShaderState) :
    (recreatePipeline env s).1.descriptorSetLayout = s.descriptorSetLayout := by
  unfold recreatePipeline
  exact createGraphicsPipeline_descriptorSetLayout env _

theorem compileAndLoadShader_descriptorSetLayout (env : ShaderEnv) (p : List Char)
    (s : ShaderState) :
    (compileAndLoadShader env p s).1.descriptorSetLayout = s.descriptorSetLayout := by
  unfold compileAndLoadShader
  cases h : (env.compile p).result <;> simp [h]

/-- No iteration of the `switchShader` loop touches `descriptorSetLayout`. -/
theorem switchShaderLoop_descriptorSetLayout (env : ShaderEnv) (delta : Int) (cur : List Char)
    (k : Nat) (s : ShaderState) :
    (switchShaderLoop env delta cur k s).1.descriptorSetLayout = s.descriptorSetLayout := by
  induction k generalizing s with
  | zero => rfl
  | succ k ih =>
    have hc := compileAndLoadShader_descriptorSetLayout env
      (s.shaderList.getD (nextShaderIndex s.currentShaderIndex delta s.shaderList.length).toNat [])
      { s with
        currentShaderIndex := nextShaderIndex s.currentShaderIndex delta s.shaderList.length
        currentShaderPath := s.shaderList.getD
          (nextShaderIndex s.currentShaderIndex delta s.shaderList.length).toNat [] }
    simp only [switchShaderLoop]
    split_ifs with hdup
    · rw [ih]
    · split
      · rename_i s2 hcs
        rw [hcs] at hc
        have hr := recreatePipeline_descriptorSetLayout env
          { s2 with log := s2.log ++ [ShaderAction.deviceWaitIdle] }
        split
        · rename_i s4 hrs
          rw [hrs] at hr
          exact hr.trans hc
        · rename_i s4 msg hrs
          rw [hrs] at hr
          rw [ih]
          exact hr.trans hc
      · rename_i s2 hcs
        rw [hcs] at hc
        rw [ih]
        exact hc

/-- `switchShader` leaves `descriptorSetLayout` as it found it. -/
theorem switchShader_descriptorSetLayout (env : ShaderEnv) (delta : Int) (s : ShaderState) :
    (switchShader env delta s).descriptorSetLayout = s.descriptorSetLayout := by
  have he : (ensureShaderList env s).descriptorSetLayout = s.descriptorSetLayout := by
    unfold ensureShaderList scanDirectoryForShaders
    split_ifs <;> rfl
  unfold switchShader
  simp only
  split_ifs
  · exact he
  · rw [switchShaderLoop_descriptorSetLayout]
    exact he

/-- C18 (fails on the code): `switchShader` never rebuilds the descriptor-set
layout, so the layout in use after any switch is the one `initVulkan` built
from the start-up value of `hasGeometryShader`.  The viewer started on
`shaders/plain.frag` (no geometry shader) and switched with delta 1 to
`shaders/geo.frag`, which has one, rebuilds its pipeline with the stages
vertex, geometry, fragment, while binding 0 of the layout stays visible to
the vertex and fragment stages only; started on `shaders/geo.frag` the same
binding is visible to the geometry stage. -/
theorem C18_switch_keeps_startup_layout :
    (∀ (env : ShaderEnv) (delta : Int) (s : ShaderState),
      (switchShader env delta s).descriptorSetLayout = s.descriptorSetLayout) ∧
    startViewer geometryShaderEnv id "shaders/plain.frag".toList
      (some ["shaders/plain.frag".toList, "shaders/geo.frag".toList]) = some plainStartedViewer ∧
    plainStartedViewer.hasGeometryShader = false ∧
    (switchShaderLoop geometryShaderEnv 1 (getCompiledSpvPath plainStartedViewer.currentShaderPath)
      plainStartedViewer.shaderList.length plainStartedViewer).2 = true ∧
    (switchShader geometryShaderEnv 1 plainStartedViewer).currentShaderPath =
      "shaders/geo.frag".toList ∧
    (switchShader geometryShaderEnv 1 plainStartedViewer).hasGeometryShader = true ∧
    (switchShader geometryShaderEnv 1 plainStartedViewer).log.getLast? =
      some (ShaderAction.createGraphicsPipelines
        (switchShader geometryShaderEnv 1 plainStartedViewer).graphicsPipeline
        [ShaderStage.vertex "shaders/geo.vert.spv".toList,
         ShaderStage.geometry "shaders/geo.geom.spv".toList,
         ShaderStage.fragment "shaders/geo.frag.spv".toList]) ∧
    uniformBindingStages (switchShader geometryShaderEnv 1 plainStartedViewer).descriptorSetLayout =
      [VkShaderStageFlag.VERTEX, VkShaderStageFlag.FRAGMENT] ∧
    VkShaderStageFlag.GEOMETRY ∉
      uniformBindingStages (switchShader geometryShaderEnv 1 plainStartedViewer).descriptorSetLayout ∧
    startViewer geometryShaderEnv id "shaders/geo.frag".toList none = some geoStartedViewer ∧
    VkShaderStageFlag.GEOMETRY ∈ uniformBindingStages geoStartedViewer.descriptorSetLayout := by
  refine ⟨switchShader_descriptorSetLayout, ?_, ?_, ?_, ?_, ?_, ?_, ?_, ?_, ?_, ?_⟩ <;> decide

/-! ### Device-idle waits before destruction -/

theorem idleBeforeDestroy_mono (l : List ShaderAction) (b : Bool)
    (h : idleBeforeDestroy false l = true) : idleBeforeDestroy b l = true := by
  cases l with
  | nil => rfl
  | cons a rest => cases a <;> simp_all [idleBeforeDestroy]

theorem idleBeforeDestroy_append (l1 l2 : List ShaderAction) (b : Bool)
    (h1 : idleBeforeDestroy b l1 = true) (h2 : idleBeforeDestroy false l2 = true) :
    idleBeforeDestroy b (l1 ++ l2) = true := by
  induction l1 generalizing b with
  | nil => exact idleBeforeDestroy_mono l2 b h2
  | cons a rest ih =>
    cases a <;> simp only [idleBeforeDestroy, List.cons_append, Bool.and_eq_true] at h1 ⊢
    · exact ih _ h1
    · exact ih _ h1
    · exact ⟨h1.1, ih _ h1.2⟩
    · exact ih _ h1
    · exact ih _ h1

/-- What the check means: a destroy inside the sequence has a wait as its
direct predecessor. -/
theorem idleBeforeDestroy_spec (l : List ShaderAction) (b : Bool)
    (h : idleBeforeDestroy b l = true) (pre post : List ShaderAction) (p : Nat)
    (hl : l = pre ++ ShaderAction.destroyPipeline p :: post) :
    (pre = [] ∧ b = true) ∨ ∃ pre0, pre = pre0 ++ [ShaderAction.deviceWaitIdle] := by
  induction pre generalizing l b with
  | nil =>
    subst hl
    simp only [idleBeforeDestroy, List.nil_append, Bool.and_eq_true] at h
    exact Or.inl ⟨rfl, h.1⟩
  | cons a rest ih =>
    subst hl
    have step : ∀ b0, idleBeforeDestroy b0 (rest ++ ShaderAction.destroyPipeline p :: post) = true →
        (b0 = true → a = ShaderAction.deviceWaitIdle) →
        ∃ pre0, a :: rest = pre0 ++ [ShaderAction.deviceWaitIdle] := by
      intro b0 hb0 ha
      rcases ih _ b0 hb0 rfl with ⟨hnil, hb⟩ | ⟨pre0, hpre0⟩
      · exact ⟨[], by rw [hnil, ha hb]; rfl⟩
      · exact ⟨a :: pre0, by rw [hpre0]; rfl⟩
    right
    cases a <;> simp only [idleBeforeDestroy, List.cons_append, Bool.and_eq_true] at h
    · exact step false h (by simp)
    · exact step true h (fun _ => rfl)
    · exact step false h.2 (by simp)
    · exact step false h (by simp)
    · exact step false h (by simp)

theorem recreatePipeline_idle (env : ShaderEnv) (s : ShaderState) :
    ∃ extra, (recreatePipeline env s).1.log =
        s.log ++ ShaderAction.destroyPipeline s.graphicsPipeline :: extra ∧
      idleBeforeDestroy false extra = true := by
  unfold recreatePipeline createGraphicsPipeline
  cases pipelineOutcome env s.currentShaderPath s.hasGeometryShader
  · exact ⟨[], by simp, rfl⟩
  · exact ⟨[], by simp, rfl⟩
  · exact ⟨[], by simp, rfl⟩
  · exact ⟨[ShaderAction.createPipelineLayout s.nextHandle], by simp [storePipelineLayout], rfl⟩
  · rename_i stages
    exact ⟨[ShaderAction.createPipelineLayout s.nextHandle,
      ShaderAction.createGraphicsPipelines (s.nextHandle + 1) stages],
      by simp [storePipelineLayout], rfl⟩

/-- The calls of the whole loop: every destroy directly follows a wait. -/
theorem switchShaderLoop_idle (env : ShaderEnv) (delta : Int) (cur : List Char)
    (k : Nat) (s : ShaderState) :
    ∃ added, (switchShaderLoop env delta cur k s).1.log = s.log ++ added ∧
      idleBeforeDestroy false added = true := by
  induction k generalizing s with
  | zero => exact ⟨[], by simp [switchShaderLoop], rfl⟩
  | succ k ih =>
    have hlog := compileAndLoadShader_log env
      (s.shaderList.getD (nextShaderIndex s.currentShaderIndex delta s.shaderList.length).toNat [])
      { s with
        currentShaderIndex := nextShaderIndex s.currentShaderIndex delta s.shaderList.length
        currentShaderPath := s.shaderList.getD
          (nextShaderIndex s.currentShaderIndex delta s.shaderList.length).toNat [] }
    have hcont : ∀ (sX : ShaderState) (extra : List ShaderAction), sX.log = s.log ++ extra →
        idleBeforeDestroy false extra = true →
        ∃ added, (switchShaderLoop env delta cur k sX).1.log = s.log ++ added ∧
          idleBeforeDestroy false added = true := by
      intro sX extra hX hidle
      obtain ⟨added, h1, h2⟩ := ih sX
      exact ⟨extra ++ added, by rw [h1, hX, List.append_assoc],
        idleBeforeDestroy_append _ _ _ hidle h2⟩
    simp only [switchShaderLoop]
    split_ifs with hdup
    · exact hcont _ [] (by simp) rfl
    · split
      · rename_i s2 hc
        rw [hc] at hlog
        simp only at hlog
        obtain ⟨extra, hex, hidle⟩ := recreatePipeline_idle env
          { s2 with log := s2.log ++ [ShaderAction.deviceWaitIdle] }
        have hboth : ∀ s4 : ShaderState,
            s4 = (recreatePipeline env
              { s2 with log := s2.log ++ [ShaderAction.deviceWaitIdle] }).1 →
            s4.log = s.log ++ (ShaderAction.compileAndLoadShader
                (s.shaderList.getD
                  (nextShaderIndex s.currentShaderIndex delta s.shaderList.length).toNat []) ::
              ShaderAction.deviceWaitIdle :: ShaderAction.destroyPipeline s2.graphicsPipeline ::
                extra) := by
          intro s4 h4
          rw [h4, hex]
          simp [hlog]
        have hchk : idleBeforeDestroy false (ShaderAction.compileAndLoadShader
                (s.shaderList.getD
                  (nextShaderIndex s.currentShaderIndex delta s.shaderList.length).toNat []) ::
              ShaderAction.deviceWaitIdle :: ShaderAction.destroyPipeline s2.graphicsPipeline ::
                extra) = true := by
          simp [idleBeforeDestroy, hidle]
        split
        · rename_i s4 hr
          exact ⟨_, hboth s4 (by rw [hr]), hchk⟩
        · rename_i s4 msg hr
          exact hcont s4 _ (hboth s4 (by rw [hr])) hchk
      · rename_i s2 hc
        rw [hc] at hlog
        exact hcont s2 _ hlog rfl

theorem switchShader_idle (env : ShaderEnv) (delta : Int) (s : ShaderState) :
    ∃ added, (switchShader env delta s).log = s.log ++ added ∧
      idleBeforeDestroy false added = true := by
  have he : (ensureShaderList env s).log = s.log := by
    unfold ensureShaderList scanDirectoryForShaders
    split_ifs <;> rfl
  unfold switchShader
  simp only
  split_ifs
  · exact ⟨[], by simp [he], rfl⟩
  · obtain ⟨added, h1, h2⟩ := switchShaderLoop_idle env delta
      (getCompiledSpvPath (ensureShaderList env s).currentShaderPath)
      (ensureShaderList env s).shaderList.length (ensureShaderList env s)
    exact ⟨added, by rw [h1, he], h2⟩

/-- The calls of `mainLoop`: poll and draw alternate, and the wait comes last
exactly when no frame throws. -/
theorem mainLoop_log (steps : List LoopStep) (s : FrameState) (log : List RunAction) :
    ∃ frames : List RunAction,
      (∀ x ∈ frames, x = RunAction.pollEvents ∨ x = RunAction.drawFrame) ∧
      ((∃ s1, mainLoop steps s log = (Except.ok s1, log ++ frames ++ [RunAction.deviceWaitIdle]) ∧
          frames.length = 2 * steps.length) ∨
       (∃ ex, mainLoop steps s log = (Except.error ex, log ++ frames) ∧
          frames.getLast? = some RunAction.drawFrame)) := by
  induction steps generalizing s log with
  | nil => exact ⟨[], by simp, Or.inl ⟨s, by simp [mainLoop], rfl⟩⟩
  | cons step rest ih =>
    simp only [mainLoop]
    cases hd : drawFrame step.frame (step.pollEvents s) with
    | error ex =>
      exact ⟨[RunAction.pollEvents, RunAction.drawFrame], by simp, Or.inr ⟨ex, rfl, rfl⟩⟩
    | ok s1 =>
      obtain ⟨frames, hall, hcase⟩ := ih s1 (log ++ [RunAction.pollEvents, RunAction.drawFrame])
      refine ⟨RunAction.pollEvents :: RunAction.drawFrame :: frames, ?_, ?_⟩
      · intro x hx
        simp only [List.mem_cons] at hx
        rcases hx with h | h | h
        · exact Or.inl h
        · exact Or.inr h
        · exact hall x h
      · rcases hcase with ⟨s2, h2, hlen⟩ | ⟨ex, h2, hlast⟩
        · exact Or.inl ⟨s2, by simp [h2], by simp [hlen]; omega⟩
        · refine Or.inr ⟨ex, by simp [h2], ?_⟩
          cases frames with
          | nil => simp at hlast
          | cons a as => simpa using hlast
/-- C21: the calls that any `switchShader` call appends to the log are such that
every `vkDestroyPipeline` (the first call of `recreatePipeline`) has the
`vkDeviceWaitIdle` of line 400 as its direct predecessor, so no other device
call, in particular no submission and no presentation, lies between them (for
instance compile, wait, destroy 7, create layout 8 when the driver rejects
the second shader's pipeline); and the calls of `mainLoop(); cleanup();` are poll/draw pairs, then
the `vkDeviceWaitIdle` of line 2010, then the calls of `cleanup`, while a frame
that throws ends the run before any call of `cleanup`. -/
theorem C21_idle_before_destruction :
    (∀ (env : ShaderEnv) (delta : Int) (s : ShaderState),
      ∃ added, (switchShader env delta s).log = s.log ++ added ∧
        ∀ pre p post, added = pre ++ ShaderAction.destroyPipeline p :: post →
          ∃ pre0, pre = pre0 ++ [ShaderAction.deviceWaitIdle]) ∧
    (switchShader rejectedPipelineEnv 1 browsingViewer).log =
      [ShaderAction.compileAndLoadShader "shaders/b.frag".toList, ShaderAction.deviceWaitIdle,
       ShaderAction.destroyPipeline 7, ShaderAction.createPipelineLayout 8] ∧
    (∀ (n : Nat) (steps : List LoopStep) (s : FrameState),
      ∃ frames : List RunAction,
        (∀ x ∈ frames, x = RunAction.pollEvents ∨ x = RunAction.drawFrame) ∧
        ((∃ s1, mainLoop steps s [] = (Except.ok s1, frames ++ [RunAction.deviceWaitIdle]) ∧
            frames.length = 2 * steps.length ∧
            runMainLoopAndCleanup n steps s =
              frames ++ RunAction.deviceWaitIdle :: (cleanup n s1).map RunAction.cleanup) ∨
         (∃ ex, mainLoop steps s [] = (Except.error ex, frames) ∧
            frames.getLast? = some RunAction.drawFrame ∧
            runMainLoopAndCleanup n steps s = frames))) ∧
    runMainLoopAndCleanup 1 [⟨id, successEnv 0⟩] (initFrameState 1 1 1280 720) =
      [RunAction.pollEvents, RunAction.drawFrame, RunAction.deviceWaitIdle] ++
        (cleanup 1 (initFrameState 1 1 1280 720)).map RunAction.cleanup := by
  refine ⟨?_, by decide, ?_, by decide⟩
  · intro env delta s
    obtain ⟨added, h1, h2⟩ := switchShader_idle env delta s
    refine ⟨added, h1, ?_⟩
    intro pre p post hl
    rcases idleBeforeDestroy_spec added false h2 pre post p hl with ⟨_, hb⟩ | h
    · exact absurd hb (by decide)
    · exact h
  · intro n steps s
    obtain ⟨frames, hall, hcase⟩ := mainLoop_log steps s []
    refine ⟨frames, hall, ?_⟩
    rcases hcase with ⟨s1, h1, hlen⟩ | ⟨ex, h1, hlast⟩
    · simp only [List.nil_append] at h1
      exact Or.inl ⟨s1, h1, hlen, by simp [runMainLoopAndCleanup, h1]⟩
    · simp only [List.nil_append] at h1
      exact Or.inr ⟨ex, h1, hlast, by simp [runMainLoopAndCleanup, h1]⟩

/-! ### The surface format of the swapchain -/

theorem surfaceFormatLoop_cases (formats : List VkSurfaceFormatKHR) (d : VkSurfaceFormatKHR) :
    (∃ pre post, formats = pre ++ surfaceFormatLoop formats d :: post ∧
        isPreferredSurfaceFormat (surfaceFormatLoop formats d) = true ∧
        ∀ f ∈ pre, isPreferredSurfaceFormat f = false) ∨
    (surfaceFormatLoop formats d = d ∧ ∀ f ∈ formats, isPreferredSurfaceFormat f = false) := by
  induction formats with
  | nil => exact Or.inr ⟨rfl, by simp⟩
  | cons f rest ih =>
    by_cases hf : f.format = VK_FORMAT_B8G8R8A8_SRGB ∧
        f.colorSpace = VK_COLOR_SPACE_SRGB_NONLINEAR_KHR
    · left
      refine ⟨[], rest, by simp [surfaceFormatLoop, hf], ?_, by simp⟩
      simp [surfaceFormatLoop, hf, isPreferredSurfaceFormat]
    · have hnot : isPreferredSurfaceFormat f = false := by
        simp only [isPreferredSurfaceFormat, Bool.and_eq_false_imp, beq_iff_eq, beq_eq_false_iff_ne]
        intro h1 h2
        exact hf ⟨h1, h2⟩
      have hstep : surfaceFormatLoop (f :: rest) d = surfaceFormatLoop rest d := by
        simp [surfaceFormatLoop, hf]
      rw [hstep]
      rcases ih with ⟨pre, post, heq, hpref, hpre⟩ | ⟨hd, hall⟩
      · left
        refine ⟨f :: pre, post, by rw [List.cons_append, ← heq], hpref, ?_⟩
        intro g hg
        rcases List.mem_cons.mp hg with h | h
        · rw [h]; exact hnot
        · exact hpre g h
      · right
        refine ⟨hd, ?_⟩
        intro g hg
        rcases List.mem_cons.mp hg with h | h
        · rw [h]; exact hnot
        · exact hall g h

/-- C22: for every non-empty list of reported surface formats `createSwapchain`
chooses a format; the choice is a member of the list; if some element has
format `B8G8R8A8_SRGB` and colour space `SRGB_NONLINEAR` the choice is the
first such element (it has both values and no element before it has), and
otherwise it is the first element of the list. -/
theorem C22_surface_format_choice (formats : List VkSurfaceFormatKHR) (hne : formats ≠ []) :
    ∃ chosen, chooseSurfaceFormat formats = some chosen ∧ chosen ∈ formats ∧
      some chosen = (formats.find? isPreferredSurfaceFormat).orElse (fun _ => formats.head?) ∧
      ((∃ f ∈ formats, f.format = VK_FORMAT_B8G8R8A8_SRGB ∧
            f.colorSpace = VK_COLOR_SPACE_SRGB_NONLINEAR_KHR) →
        chosen.format = VK_FORMAT_B8G8R8A8_SRGB ∧
        chosen.colorSpace = VK_COLOR_SPACE_SRGB_NONLINEAR_KHR ∧
        ∃ pre post, formats = pre ++ chosen :: post ∧
          ∀ f ∈ pre, ¬ (f.format = VK_FORMAT_B8G8R8A8_SRGB ∧
            f.colorSpace = VK_COLOR_SPACE_SRGB_NONLINEAR_KHR)) ∧
      ((∀ f ∈ formats, ¬ (f.format = VK_FORMAT_B8G8R8A8_SRGB ∧
            f.colorSpace = VK_COLOR_SPACE_SRGB_NONLINEAR_KHR)) →
        formats.head? = some chosen) := by
  have hpref : ∀ f : VkSurfaceFormatKHR, isPreferredSurfaceFormat f = true ↔
      (f.format = VK_FORMAT_B8G8R8A8_SRGB ∧ f.colorSpace = VK_COLOR_SPACE_SRGB_NONLINEAR_KHR) := by
    intro f
    simp [isPreferredSurfaceFormat]
  cases formats with
  | nil => exact absurd rfl hne
  | cons first rest =>
    refine ⟨surfaceFormatLoop (first :: rest) first, rfl, ?_⟩
    rcases surfaceFormatLoop_cases (first :: rest) first with ⟨pre, post, heq, hp, hpre⟩ | ⟨hd, hall⟩
    · generalize surfaceFormatLoop (first :: rest) first = chosen at heq hp
      refine ⟨by rw [heq]; simp, ?_, ?_, ?_⟩
      · have hfind : (first :: rest).find? isPreferredSurfaceFormat = some chosen := by
          rw [heq, List.find?_append]
          have hnone : pre.find? isPreferredSurfaceFormat = none := by
            rw [List.find?_eq_none]
            intro x hx
            simp [hpre x hx]
          simp [hnone, hp]
        rw [hfind]
        rfl
      · intro _
        refine ⟨((hpref chosen).mp hp).1, ((hpref chosen).mp hp).2, pre, post, heq, ?_⟩
        intro f hf hboth
        have := hpre f hf
        rw [(hpref f).mpr hboth] at this
        exact absurd this (by decide)
      · intro hnone
        have hmem : chosen ∈ first :: rest := by rw [heq]; simp
        exact absurd ((hpref chosen).mp hp) (hnone chosen hmem)
    · rw [hd]
      refine ⟨by simp, ?_, ?_, ?_⟩
      · have hfind : (first :: rest).find? isPreferredSurfaceFormat = none := by
          rw [List.find?_eq_none]
          intro x hx
          simp [hall x hx]
        rw [hfind]
        rfl
      · rintro ⟨f, hf, hboth⟩
        have := hall f hf
        rw [(hpref f).mpr hboth] at this
        exact absurd this (by decide)
      · intro _
        rfl

/-- Witness for C22: the preferred format is reported third, after another
format with the same colour space. -/
theorem C22_surface_format_choice_witness :
    ∃ chosen, chooseSurfaceFormat [⟨44, 0⟩, ⟨50, 1⟩, ⟨50, 0⟩, ⟨37, 0⟩] = some chosen ∧
      chosen = ⟨50, 0⟩ := by
  obtain ⟨chosen, h1, _, h3, _⟩ :=
    C22_surface_format_choice [⟨44, 0⟩, ⟨50, 1⟩, ⟨50, 0⟩, ⟨37, 0⟩] (by decide)
  refine ⟨chosen, h1, ?_⟩
  have h4 : (some chosen : Option VkSurfaceFormatKHR) = some ⟨50, 0⟩ := by
    rw [h3]
    decide
  exact Option.some.inj h4

/-! ### Images: creation, usage and layouts -/

/-- C29: on the procedural and on the loaded-texture path alike,
`createTextureImage` calls `transitionImageLayout` with (undefined,
transfer-dst) and then (transfer-dst, shader-read-only) on the texture image, and
`createFeedbackBuffers` calls it with (undefined, shader-read-only) on each
feedback image; every one of these pairs is a row of the table, so no call
throws; and run in the order of `initVulkan` from freshly created images
(layout undefined) every call's old layout is the layout its image is in, which
is the new layout of the previous call on that image. -/
theorem C29_init_transitions_allowed (pixelsLoaded : Bool) :
    transitionPairs (createTextureImage pixelsLoaded) =
      [(Image.texture, VkImageLayout.UNDEFINED, VkImageLayout.TRANSFER_DST_OPTIMAL),
       (Image.texture, VkImageLayout.TRANSFER_DST_OPTIMAL,
         VkImageLayout.SHADER_READ_ONLY_OPTIMAL)] ∧
    transitionPairs createFeedbackBuffers =
      [(Image.feedback 0, VkImageLayout.UNDEFINED, VkImageLayout.SHADER_READ_ONLY_OPTIMAL),
       (Image.feedback 1, VkImageLayout.UNDEFINED, VkImageLayout.SHADER_READ_ONLY_OPTIMAL)] ∧
    (∀ p ∈ transitionPairs (initImageCalls pixelsLoaded),
      lookupTransition p.2.1 p.2.2 ≠ none ∧
      (transitionImageLayout p.1 p.2.1 p.2.2).thrown = none ∧
      (transitionImageLayout p.1 p.2.1 p.2.2).submitted = true) ∧
    (runImageCalls (initImageCalls pixelsLoaded) noImages).thrown = none ∧
    (runImageCalls (initImageCalls pixelsLoaded) noImages).chainBreaks = [] ∧
    (runImageCalls (initImageCalls pixelsLoaded) noImages).layout Image.texture =
      VkImageLayout.SHADER_READ_ONLY_OPTIMAL := by
  cases pixelsLoaded <;> decide

theorem applyBarriers_recordedCommands (layout : Image → VkImageLayout) (s : FrameState)
    (k : Nat) (image : Image) :
    applyBarriers layout (recordedCommands s k) image =
      if image = Image.feedback (writeBuffer s) then VkImageLayout.SHADER_READ_ONLY_OPTIMAL
      else if image = Image.swapchain k then VkImageLayout.PRESENT_SRC_KHR
      else layout image := by
  simp only [applyBarriers, recordedCommands, List.foldl_cons, List.foldl_nil]
  by_cases h1 : image = Image.feedback (writeBuffer s)
  · subst h1
    simp [Function.update]
  · by_cases h2 : image = Image.swapchain k
    · subst h2
      simp [Function.update]
    · simp [Function.update, h1, h2]

theorem applyBarriers_append (layout : Image → VkImageLayout) (a b : List Cmd) :
    applyBarriers layout (a ++ b) = applyBarriers (applyBarriers layout a) b := by
  simp [applyBarriers, List.foldl_append]

/-- C23: with every image in the new layout of the last barrier recorded on it,
`createFeedbackBuffers` (after `createTextureImage`, on either texture path)
leaves both feedback images in shader-read-only layout; the commands of any
`recordCommandBuffer` call leave the write buffer in shader-read-only whatever
it started in, name the read buffer in no barrier and so leave it as it was,
and hence keep both feedback images in shader-read-only when they start
there; so after any number of frames, recorded in whatever states and for
whatever swapchain images, both feedback images are in shader-read-only. -/
theorem C23_feedback_layouts_shader_read_only (pixelsLoaded : Bool)
    (frames : List (FrameState × Nat)) :
    ((runImageCalls (initImageCalls pixelsLoaded) noImages).layout (Image.feedback 0) =
        VkImageLayout.SHADER_READ_ONLY_OPTIMAL ∧
      (runImageCalls (initImageCalls pixelsLoaded) noImages).layout (Image.feedback 1) =
        VkImageLayout.SHADER_READ_ONLY_OPTIMAL) ∧
    (∀ (layout : Image → VkImageLayout) (s : FrameState) (k : Nat),
      applyBarriers layout (recordedCommands s k) (Image.feedback (writeBuffer s)) =
        VkImageLayout.SHADER_READ_ONLY_OPTIMAL ∧
      applyBarriers layout (recordedCommands s k) (Image.feedback (readBuffer s)) =
        layout (Image.feedback (readBuffer s)) ∧
      (∀ c ∈ recordedCommands s k, ∀ srcStage dstStage barriers,
        c = Cmd.pipelineBarrier srcStage dstStage barriers →
          ∀ b ∈ barriers, b.image ≠ Image.feedback (readBuffer s)) ∧
      (layout (Image.feedback 0) = VkImageLayout.SHADER_READ_ONLY_OPTIMAL →
        layout (Image.feedback 1) = VkImageLayout.SHADER_READ_ONLY_OPTIMAL →
        applyBarriers layout (recordedCommands s k) (Image.feedback 0) =
            VkImageLayout.SHADER_READ_ONLY_OPTIMAL ∧
          applyBarriers layout (recordedCommands s k) (Image.feedback 1) =
            VkImageLayout.SHADER_READ_ONLY_OPTIMAL)) ∧
    (applyBarriers (runImageCalls (initImageCalls pixelsLoaded) noImages).layout
        (frames.flatMap (fun f => recordedCommands f.1 f.2)) (Image.feedback 0) =
        VkImageLayout.SHADER_READ_ONLY_OPTIMAL ∧
      applyBarriers (runImageCalls (initImageCalls pixelsLoaded) noImages).layout
        (frames.flatMap (fun f => recordedCommands f.1 f.2)) (Image.feedback 1) =
        VkImageLayout.SHADER_READ_ONLY_OPTIMAL) := by
  have hinit : (runImageCalls (initImageCalls pixelsLoaded) noImages).layout (Image.feedback 0) =
        VkImageLayout.SHADER_READ_ONLY_OPTIMAL ∧
      (runImageCalls (initImageCalls pixelsLoaded) noImages).layout (Image.feedback 1) =
        VkImageLayout.SHADER_READ_ONLY_OPTIMAL := by
    cases pixelsLoaded <;> decide
  have hkeep : ∀ (layout : Image → VkImageLayout) (s : FrameState) (k : Nat),
      layout (Image.feedback 0) = VkImageLayout.SHADER_READ_ONLY_OPTIMAL →
      layout (Image.feedback 1) = VkImageLayout.SHADER_READ_ONLY_OPTIMAL →
      applyBarriers layout (recordedCommands s k) (Image.feedback 0) =
          VkImageLayout.SHADER_READ_ONLY_OPTIMAL ∧
        applyBarriers layout (recordedCommands s k) (Image.feedback 1) =
          VkImageLayout.SHADER_READ_ONLY_OPTIMAL := by
    intro layout s k h0 h1
    rw [applyBarriers_recordedCommands, applyBarriers_recordedCommands]
    constructor
    · split_ifs <;> simp_all
    · split_ifs <;> simp_all
  refine ⟨hinit, ?_, ?_⟩
  · intro layout s k
    refine ⟨?_, ?_, ?_, hkeep layout s k⟩
    · rw [applyBarriers_recordedCommands]
      simp
    · rw [applyBarriers_recordedCommands]
      have hne : readBuffer s ≠ writeBuffer s := by
        unfold readBuffer writeBuffer
        omega
      simp [hne]
    · intro c hc srcStage dstStage barriers hcb b hb
      have hne : writeBuffer s ≠ readBuffer s := by
        unfold readBuffer writeBuffer
        omega
      subst hcb
      simp only [recordedCommands, List.mem_cons, Cmd.pipelineBarrier.injEq, List.mem_singleton,
        List.not_mem_nil, or_false, reduceCtorEq, false_or] at hc
      rcases hc with ⟨_, _, h⟩ | ⟨_, _, h⟩ | ⟨_, _, h⟩ | ⟨_, _, h⟩ <;> subst h <;>
        simp only [List.mem_cons, List.mem_singleton, List.not_mem_nil, or_false] at hb <;>
        rcases hb with rfl | rfl <;> simp [hne]
  · generalize (runImageCalls (initImageCalls pixelsLoaded) noImages).layout = start at hinit
    induction frames generalizing start with
    | nil => exact hinit
    | cons f rest ih =>
      rw [List.flatMap_cons, applyBarriers_append]
      exact ih _ (hkeep start f.1 f.2 hinit.1 hinit.2)

/-- C30, the code evaluated: the feedback images are created with
colour-attachment, sampled, transfer-source and transfer-destination usage, so
the source of the blit recorded each frame has the usage it is used with; the
swapchain images are created with colour-attachment usage only, so the
destination of that blit, `swapchainImages[imageIndex]`, lacks the
transfer-destination usage, and it is the only usage the blit misses. -/
theorem C30_blit_usage (pixelsLoaded : Bool) (s : FrameState) (k : Nat)
    (hw : writeBuffer s = 0 ∨ writeBuffer s = 1) :
    (runImageCalls (initImageCalls pixelsLoaded) noImages).usage (Image.feedback (writeBuffer s)) =
      [VkImageUsage.COLOR_ATTACHMENT, VkImageUsage.SAMPLED, VkImageUsage.TRANSFER_SRC,
       VkImageUsage.TRANSFER_DST] ∧
    (runImageCalls (initImageCalls pixelsLoaded) noImages).usage (Image.swapchain k) =
      [VkImageUsage.COLOR_ATTACHMENT] ∧
    VkImageUsage.TRANSFER_DST ∉
      (runImageCalls (initImageCalls pixelsLoaded) noImages).usage (Image.swapchain k) ∧
    blitUsageMissing (runImageCalls (initImageCalls pixelsLoaded) noImages).usage
        (recordedCommands s k) =
      [(Image.swapchain k, VkImageUsage.TRANSFER_DST)] := by
  have hfb : ∀ i : Int, i = 0 ∨ i = 1 →
      (runImageCalls (initImageCalls pixelsLoaded) noImages).usage (Image.feedback i) =
        [VkImageUsage.COLOR_ATTACHMENT, VkImageUsage.SAMPLED, VkImageUsage.TRANSFER_SRC,
         VkImageUsage.TRANSFER_DST] := by
    intro i hi
    rcases hi with rfl | rfl <;> cases pixelsLoaded <;> decide
  have hsw : (runImageCalls (initImageCalls pixelsLoaded) noImages).usage (Image.swapchain k) =
      [VkImageUsage.COLOR_ATTACHMENT] := by
    cases pixelsLoaded <;>
      simp [runImageCalls, runImageCall, initImageCalls, createTextureImage, createFeedbackBuffers,
        noImages, transitionImageLayout, Function.update, swapchainImageUsage, List.range,
        List.range.loop]
  refine ⟨hfb _ hw, hsw, by rw [hsw]; decide, ?_⟩
  simp [blitUsageMissing, recordedCommands, hfb _ hw, hsw]

/-- Witness for C30: the first frame after start-up, swapchain image 0. -/
theorem C30_blit_usage_witness :
    blitUsageMissing (runImageCalls (initImageCalls false) noImages).usage
        (recordedCommands (initFrameState 1 1 1280 720) 0) =
      [(Image.swapchain 0, VkImageUsage.TRANSFER_DST)] :=
  (C30_blit_usage false (initFrameState 1 1 1280 720) 0 (Or.inl rfl)).2.2.2

/-! ### Shader paths -/

theorem span_stop (p : Char → Bool) (l r : List Char) (c : Char)
    (hl : ∀ x ∈ l, p x = true) (hc : p c = false) :
    (l ++ c :: r).span p = (l, c :: r) := by
  rw [List.span_eq_take_drop]
  induction l with
  | nil => simp [List.takeWhile, List.dropWhile, hc]
  | cons x xs ih =>
    have hx := hl x (List.mem_cons_self _ _)
    have ih0 := ih (fun y hy => hl y (List.mem_cons_of_mem _ hy))
    simp only [Prod.mk.injEq] at ih0
    simp [List.takeWhile, List.dropWhile, hx, ih0.1, ih0.2]

theorem span_all (p : Char → Bool) (l : List Char) (hl : ∀ x ∈ l, p x = true) :
    l.span p = (l, []) := by
  rw [List.span_eq_take_drop]
  induction l with
  | nil => rfl
  | cons x xs ih =>
    have hx := hl x (List.mem_cons_self _ _)
    have ih0 := ih (fun y hy => hl y (List.mem_cons_of_mem _ hy))
    simp only [Prod.mk.injEq] at ih0
    simp [List.takeWhile, List.dropWhile, hx, ih0.1, ih0.2]

/-- Every text either has none of the characters or splits at the last one. -/
theorem exists_last_of (chars s : List Char) :
    (∀ c ∈ s, c ∉ chars) ∨
    ∃ pre c post, s = pre ++ c :: post ∧ c ∈ chars ∧ ∀ d ∈ post, d ∉ chars := by
  induction s with
  | nil => exact Or.inl (by simp)
  | cons x xs ih =>
    rcases ih with hnone | ⟨pre, c, post, heq, hc, hpost⟩
    · by_cases hx : x ∈ chars
      · exact Or.inr ⟨[], x, xs, rfl, hx, hnone⟩
      · left
        intro c hc
        rcases List.mem_cons.mp hc with h | h
        · rw [h]; exact hx
        · exact hnone c h
    · exact Or.inr ⟨x :: pre, c, post, by rw [heq]; rfl, hc, hpost⟩

theorem splitAtLast_none (chars s : List Char) (h : ∀ c ∈ s, c ∉ chars) :
    splitAtLast chars s = none := by
  unfold splitAtLast
  rw [span_all _ s.reverse (by
    intro x hx
    simp [h x (List.mem_reverse.mp hx)])]

theorem splitAtLast_some (chars pre post : List Char) (c : Char) (hc : c ∈ chars)
    (hpost : ∀ d ∈ post, d ∉ chars) :
    splitAtLast chars (pre ++ c :: post) = some (pre, post) := by
  unfold splitAtLast
  have hrev : (pre ++ c :: post).reverse = post.reverse ++ c :: pre.reverse := by simp
  rw [hrev, span_stop _ post.reverse pre.reverse c (by
    intro x hx
    simp [hpost x (List.mem_reverse.mp hx)]) (by simp [hc])]
  simp

theorem find_last_of_none (chars s : List Char) (h : ∀ c ∈ s, c ∉ chars) :
    find_last_of s chars = npos := by
  unfold find_last_of
  have hnil : s.enum.filter (fun p => decide (p.2 ∈ chars)) = [] := by
    rw [List.filter_eq_nil_iff]
    intro p hp
    have hmem : p.2 ∈ s := List.snd_mem_of_mem_enum hp
    simp [h p.2 hmem]
  rw [hnil]
  rfl

theorem find_last_of_some (chars pre post : List Char) (c : Char) (hc : c ∈ chars)
    (hpost : ∀ d ∈ post, d ∉ chars) :
    find_last_of (pre ++ c :: post) chars = pre.length := by
  unfold find_last_of
  have hsplit : (pre ++ c :: post).enum =
      pre.enum ++ (pre.length, c) :: List.enumFrom (pre.length + 1) post := by
    simp [List.enum, List.enumFrom_append]
  have hnil : (List.enumFrom (pre.length + 1) post).filter (fun p => decide (p.2 ∈ chars)) = [] := by
    rw [List.filter_eq_nil_iff]
    intro p hp
    have hmem : p.2 ∈ post := List.snd_mem_of_mem_enumFrom hp
    simp [hpost p.2 hmem]
  rw [hsplit, List.filter_append, List.filter_cons]
  simp [hc, hnil]
theorem drop_after (pre post : List Char) (c : Char) :
    (pre ++ c :: post).drop (pre.length + 1) = post := by
  induction pre with
  | nil => rfl
  | cons x xs ih => simp

theorem take_before (pre post : List Char) : (pre ++ post).take pre.length = pre := by
  simp

/-- The code's `getShaderBaseName` on a text with no separator. -/
theorem getShaderBaseName_flat (path : List Char) (hlen : path.length < 2 ^ 64)
    (hnone : ∀ c ∈ path, c ∉ "/\\".toList) :
    getShaderBaseName path = cutAtLastDot path := by
  have hslash := find_last_of_none "/\\".toList path hnone
  unfold getShaderBaseName cutAtLastDot
  simp only [hslash, if_true]
  rcases exists_last_of ".".toList path with hnodot | ⟨q, d, r, heq, hd, hr⟩
  · rw [find_last_of_none _ path hnodot, splitAtLast_none _ path hnodot]
    simp
  · subst heq
    rw [find_last_of_some _ q r d hd hr, splitAtLast_some _ q r d hd hr]
    have hq : q.length < 2 ^ 64 - 1 := by
      simp only [List.length_append, List.length_cons] at hlen
      omega
    have hne : q.length ≠ npos := by
      unfold npos
      omega
    have hmod : (q.length + 2 ^ 64 - 0) % 2 ^ 64 = q.length := by omega
    simp only [hne, if_false, hmod, substr, List.drop_zero]
    exact take_before q (d :: r)

/-- The code's `getShaderBaseName` on a text split at its last separator. -/
theorem getShaderBaseName_split (pre post : List Char) (c : Char)
    (hlen : (pre ++ c :: post).length < 2 ^ 64) (hc : c ∈ "/\\".toList)
    (hpost : ∀ d ∈ post, d ∉ "/\\".toList) :
    getShaderBaseName (pre ++ c :: post) = cutAtLastDot post := by
  have hslash := find_last_of_some "/\\".toList pre post c hc hpost
  have hcdot : c ∉ ".".toList := by
    intro h
    have h1 : c = '.' := by simpa using h
    subst h1
    exact absurd hc (by decide)
  simp only [List.length_append, List.length_cons] at hlen
  have hne : pre.length ≠ npos := by
    unfold npos
    omega
  have hfile : substr (pre ++ c :: post) (pre.length + 1) npos = post := by
    unfold substr
    rw [drop_after]
    apply List.take_of_length_le
    unfold npos
    omega
  unfold getShaderBaseName cutAtLastDot
  simp only [hslash, hne, if_false, hfile]
  rcases exists_last_of ".".toList post with hnodot | ⟨q, d, r, heq, hd, hr⟩
  · rw [splitAtLast_none _ post hnodot]
    rcases exists_last_of ".".toList pre with hnodot0 | ⟨q0, d0, r0, heq0, hd0, hr0⟩
    · have hall : ∀ x ∈ pre ++ c :: post, x ∉ ".".toList := by
        intro x hx
        rcases List.mem_append.mp hx with h | h
        · exact hnodot0 x h
        · rcases List.mem_cons.mp h with h | h
          · rw [h]; exact hcdot
          · exact hnodot x h
      rw [find_last_of_none _ _ hall]
      simp
    · subst heq0
      have hrest : ∀ x ∈ r0 ++ c :: post, x ∉ ".".toList := by
        intro x hx
        rcases List.mem_append.mp hx with h | h
        · exact hr0 x h
        · rcases List.mem_cons.mp h with h | h
          · rw [h]; exact hcdot
          · exact hnodot x h
      have hre : q0 ++ d0 :: r0 ++ c :: post = q0 ++ d0 :: (r0 ++ c :: post) := by simp
      rw [hre, find_last_of_some _ q0 (r0 ++ c :: post) d0 hd0 hrest]
      simp only [List.length_append, List.length_cons] at hlen hne ⊢
      have hne0 : q0.length ≠ npos := by
        unfold npos
        omega
      simp only [hne0, if_false, substr, List.drop_zero]
      apply List.take_of_length_le
      omega
  · subst heq
    rw [splitAtLast_some _ q r d hd hr]
    have hre : pre ++ c :: (q ++ d :: r) = (pre ++ c :: q) ++ d :: r := by simp
    rw [hre, find_last_of_some _ (pre ++ c :: q) r d hd hr]
    simp only [List.length_append, List.length_cons] at hlen ⊢
    have hne0 : pre.length + (q.length + 1) ≠ npos := by
      unfold npos
      omega
    have hmod : (pre.length + (q.length + 1) + 2 ^ 64 - (pre.length + 1)) % 2 ^ 64 = q.length := by
      omega
    simp only [hne0, if_false, hmod, substr, List.drop_zero]
    exact take_before q (d :: r)

/-- C24: for every path (shorter than `2^64` characters, as every string is)
`getShaderBaseName` is the final path component, the text after the last `/` or
`\`, or the whole path if there is none, cut at its last `.`, or the whole
component when it has no `.`, also when the path has a `.` only in its directory
part; `getShaderDirectory` is the text before the last separator, or `.` if
there is none; and `getCompiledSpvPath` is directory, `/`, base name and
`.frag.spv` in a row. -/
theorem C24_shader_path_parts (path : List Char) (hlen : path.length < 2 ^ 64) :
    getShaderBaseName path = cutAtLastDot (finalComponent path) ∧
    getShaderDirectory path = textBeforeLastSeparator path ∧
    getCompiledSpvPath path =
      getShaderDirectory path ++ "/".toList ++ getShaderBaseName path ++ ".frag.spv".toList := by
  refine ⟨?_, ?_, rfl⟩
  · rcases exists_last_of "/\\".toList path with hnone | ⟨pre, c, post, heq, hc, hpost⟩
    · rw [getShaderBaseName_flat path hlen hnone]
      unfold finalComponent
      rw [splitAtLast_none _ path hnone]
    · subst heq
      rw [getShaderBaseName_split pre post c hlen hc hpost]
      unfold finalComponent
      rw [splitAtLast_some _ pre post c hc hpost]
  · unfold getShaderDirectory textBeforeLastSeparator
    rcases exists_last_of "/\\".toList path with hnone | ⟨pre, c, post, heq, hc, hpost⟩
    · rw [find_last_of_none _ path hnone, splitAtLast_none _ path hnone]
      simp
    · subst heq
      rw [find_last_of_some _ pre post c hc hpost, splitAtLast_some _ pre post c hc hpost]
      simp only [List.length_append, List.length_cons] at hlen
      have hne : pre.length ≠ npos := by
        unfold npos
        omega
      simp only [hne, if_false, substr, List.drop_zero]
      exact take_before pre (c :: post)

/-- Witness for C24: a path whose only `.` is in its directory part. -/
theorem C24_shader_path_parts_witness :
    getShaderBaseName "shaders.v2/plain".toList = "plain".toList ∧
    getShaderDirectory "shaders.v2/plain".toList = "shaders.v2".toList ∧
    getCompiledSpvPath "shaders.v2/plain".toList = "shaders.v2/plain.frag.spv".toList := by
  have h := C24_shader_path_parts "shaders.v2/plain".toList (by decide)
  refine ⟨?_, ?_, ?_⟩
  · rw [h.1]
    decide
  · rw [h.2.1]
    decide
  · rw [h.2.2]
    decide

/-! ### Resolving the fragment shader of a path -/

theorem hasSuffix_append (pre ext : List Char) (hlen : (pre ++ ext).length < 2 ^ 64) :
    hasSuffix (pre ++ ext) ext = true := by
  unfold hasSuffix substr
  have hdrop : (pre ++ ext).drop ((pre ++ ext).length - ext.length) = ext := by
    simp
  rw [hdrop]
  have htake : ext.take npos = ext := by
    apply List.take_of_length_le
    simp only [List.length_append] at hlen
    unfold npos
    omega
  simp [htake]

/-- What `resolveFragmentShader` does with a path that ends in a `.` followed by
a non-empty extension without `.` and `/` which is one of the four vertex and
geometry extensions. -/
theorem resolveFragmentShader_suffix (fileExists : List Char → Bool) (pre rest : List Char)
    (hne : rest ≠ []) (hnodot : ∀ c ∈ rest, c ∉ ".".toList)
    (hnoslash : ∀ c ∈ rest, c ∉ "/".toList)
    (hsuffix : ∃ e, [".vert", ".vsh", ".geom", ".gsh"].find?
      (fun ext => hasSuffix (pre ++ '.' :: rest) ext.toList) = some e)
    (hlen : (pre ++ '.' :: rest).length < 2 ^ 64) :
    resolveFragmentShader fileExists (pre ++ '.' :: rest) =
      if fileExists (pre ++ '.' :: rest) = true then pre ++ '.' :: rest
      else if fileExists (siblingShader (pre ++ '.' :: rest) ".frag") = true then
        siblingShader (pre ++ '.' :: rest) ".frag"
      else if fileExists (siblingShader (pre ++ '.' :: rest) ".fsh") = true then
        siblingShader (pre ++ '.' :: rest) ".fsh"
      else pre ++ '.' :: rest := by
  obtain ⟨e, he⟩ := hsuffix
  have hlast : ((pre ++ '.' :: rest).getLast? == some '.') = false := by
    rcases List.eq_nil_or_concat rest with h | ⟨init, last, h⟩
    · exact absurd h hne
    · have hmem : last ∈ rest := by rw [h]; simp
      have hre : pre ++ '.' :: rest = (pre ++ '.' :: init) ++ [last] := by rw [h]; simp
      rw [hre, List.getLast?_concat]
      have hneq : last ≠ '.' := by
        intro hl
        rw [hl] at hmem
        exact hnodot '.' hmem (by decide)
      simp [hneq]
  have hwork : (if (!(pre ++ '.' :: rest).isEmpty &&
      (pre ++ '.' :: rest).getLast? == some '.') = true
      then (pre ++ '.' :: rest).dropLast else pre ++ '.' :: rest) = pre ++ '.' :: rest := by
    simp only [hlast, Bool.and_false, Bool.false_eq_true, if_false]
  simp only [List.length_append, List.length_cons] at hlen
  have hdot : find_last_of (pre ++ '.' :: rest) ".".toList = pre.length :=
    find_last_of_some _ pre rest '.' (by decide) hnodot
  have hpre : pre.length ≠ npos := by
    unfold npos
    omega
  have hslash : find_last_of (pre ++ '.' :: rest) "/".toList = npos ∨
      find_last_of (pre ++ '.' :: rest) "/".toList < pre.length := by
    have htail : ∀ c ∈ '.' :: rest, c ∉ "/".toList := by
      intro c hc
      rcases List.mem_cons.mp hc with h | h
      · rw [h]; decide
      · exact hnoslash c h
    rcases exists_last_of "/".toList pre with hnone | ⟨q, c, r, heq, hc, hr⟩
    · left
      apply find_last_of_none
      intro c hc
      rcases List.mem_append.mp hc with h | h
      · exact hnone c h
      · exact htail c h
    · right
      subst heq
      have hre : q ++ c :: r ++ '.' :: rest = q ++ c :: (r ++ '.' :: rest) := by simp
      rw [hre, find_last_of_some _ q (r ++ '.' :: rest) c hc (by
        intro d hd
        rcases List.mem_append.mp hd with h | h
        · exact hr d h
        · exact htail d h)]
      simp
  have hext : (decide (find_last_of (pre ++ '.' :: rest) ".".toList ≠ npos) &&
      (decide (find_last_of (pre ++ '.' :: rest) "/".toList = npos) ||
        decide (find_last_of (pre ++ '.' :: rest) ".".toList >
          find_last_of (pre ++ '.' :: rest) "/".toList))) = true := by
    rw [hdot]
    generalize find_last_of (pre ++ '.' :: rest) "/".toList = n at hslash
    rcases hslash with h | h
    · simp [hpre, h]
    · simp [hpre, h]
  unfold resolveFragmentShader
  simp only [hwork, hext, he, siblingShader]
  simp only [List.map_cons, List.map_nil]
  generalize pre ++ '.' :: rest = given
  generalize getShaderDirectory given ++ "/".toList ++ getShaderBaseName given ++
    ".frag".toList = frag
  generalize getShaderDirectory given ++ "/".toList ++ getShaderBaseName given ++
    ".fsh".toList = fsh
  cases h0 : fileExists given <;> cases h1 : fileExists frag <;> cases h2 : fileExists fsh <;>
    simp [List.find?, h0, h1, h2]
/-- C25, the code evaluated: for a path ending in `.vert`, `.vsh`, `.geom` or
`.gsh`, `resolveFragmentShader` returns the sibling `<dir>/<base>.frag` if that
exists, else `<dir>/<base>.fsh` if that exists, only when the given file itself
does not exist; when the given file exists, the test of line 238 returns the
given path before the sibling is looked for.  With `shaders/foo.vert` and
`shaders/foo.frag` both present the result for `shaders/foo.vert` is
`shaders/foo.vert`, not the fragment shader `shaders/foo.frag`. -/
theorem C25_resolve_vertex_or_geometry_path (fileExists : List Char → Bool) (pre : List Char)
    (ext : String) (hext : ext ∈ [".vert", ".vsh", ".geom", ".gsh"])
    (hlen : (pre ++ ext.toList).length < 2 ^ 64) :
    (fileExists (pre ++ ext.toList) = false →
      resolveFragmentShader fileExists (pre ++ ext.toList) =
        if fileExists (siblingShader (pre ++ ext.toList) ".frag") = true then
          siblingShader (pre ++ ext.toList) ".frag"
        else if fileExists (siblingShader (pre ++ ext.toList) ".fsh") = true then
          siblingShader (pre ++ ext.toList) ".fsh"
        else pre ++ ext.toList) ∧
    (fileExists (pre ++ ext.toList) = true →
      resolveFragmentShader fileExists (pre ++ ext.toList) = pre ++ ext.toList) ∧
    (vertexAndFragmentFiles (siblingShader "shaders/foo.vert".toList ".frag") = true ∧
      siblingShader "shaders/foo.vert".toList ".frag" = "shaders/foo.frag".toList ∧
      resolveFragmentShader vertexAndFragmentFiles "shaders/foo.vert".toList =
        "shaders/foo.vert".toList) := by
  have hfound : ∃ e, [".vert", ".vsh", ".geom", ".gsh"].find?
      (fun x => hasSuffix (pre ++ ext.toList) x.toList) = some e :=
    Option.isSome_iff_exists.mp
      (List.find?_isSome.mpr ⟨ext, hext, hasSuffix_append pre ext.toList hlen⟩)
  have hmain : resolveFragmentShader fileExists (pre ++ ext.toList) =
      if fileExists (pre ++ ext.toList) = true then pre ++ ext.toList
      else if fileExists (siblingShader (pre ++ ext.toList) ".frag") = true then
        siblingShader (pre ++ ext.toList) ".frag"
      else if fileExists (siblingShader (pre ++ ext.toList) ".fsh") = true then
        siblingShader (pre ++ ext.toList) ".fsh"
      else pre ++ ext.toList := by
    simp only [List.mem_cons, List.mem_singleton, List.not_mem_nil, or_false] at hext
    rcases hext with h | h | h | h <;> subst h
    · exact resolveFragmentShader_suffix fileExists pre "vert".toList (by decide) (by decide)
        (by decide) hfound hlen
    · exact resolveFragmentShader_suffix fileExists pre "vsh".toList (by decide) (by decide)
        (by decide) hfound hlen
    · exact resolveFragmentShader_suffix fileExists pre "geom".toList (by decide) (by decide)
        (by decide) hfound hlen
    · exact resolveFragmentShader_suffix fileExists pre "gsh".toList (by decide) (by decide)
        (by decide) hfound hlen
  refine ⟨?_, ?_, by decide⟩
  · intro h0
    rw [hmain]
    simp only [h0, Bool.false_eq_true, if_false]
  · intro h0
    rw [hmain]
    simp only [h0, if_true]

/-- Witness for C25: only `shaders/foo.frag` exists and `shaders/foo.vert` is
given. -/
theorem C25_resolve_vertex_or_geometry_path_witness :
    resolveFragmentShader fragmentFileOnly "shaders/foo.vert".toList =
      "shaders/foo.frag".toList := by
  have h := (C25_resolve_vertex_or_geometry_path fragmentFileOnly "shaders/foo".toList ".vert"
    (by decide) (by decide)).1 (by decide)
  have hpath : "shaders/foo".toList ++ ".vert".toList = "shaders/foo.vert".toList := by decide
  rw [hpath] at h
  rw [h]
  decide

/-! ### The uniform struct and the std140 block -/

/-- C26: by the C++ layout rule the members of the host-side
`UniformBufferObject` lie at iResolution 0, iTime 12, iMouse 16, iScroll 32,
iButtonLeft 40, iButtonRight 44, iButtonMiddle 48, iButton4 52, iButton5 56 and
`sizeof` is 64, the size `updateUniformBuffer` copies; no two members share a
byte and every member ends inside the struct; and the offsets equal the std140
offsets of a block declared as `vec3`, `float`, `vec4`, `vec2` and five
`float`s, which ends at byte 60 and so fits the 64 bytes. -/
theorem C26_uniform_layout_matches_std140 :
    uniformBufferObjectOffsets =
      [ (UboField.iResolution, 0), (UboField.iTime, 12), (UboField.iMouse, 16),
        (UboField.iScroll, 32), (UboField.iButtonLeft, 40), (UboField.iButtonRight, 44),
        (UboField.iButtonMiddle, 48), (UboField.iButton4, 52), (UboField.iButton5, 56) ] ∧
    structSize uniformBufferObjectDecl = 64 ∧
    sizeofUniformBufferObject = structSize uniformBufferObjectDecl ∧
    (layoutRanges 0 uniformBufferObjectDecl).Pairwise (fun a b => rangesDisjoint a b = true) ∧
    (∀ r ∈ layoutRanges 0 uniformBufferObjectDecl, r.1 + r.2 ≤ structSize uniformBufferObjectDecl) ∧
    (layoutRanges 0 uniformBufferObjectDecl).map Prod.fst =
      uniformBufferObjectOffsets.map Prod.snd ∧
    uniformBufferObjectOffsets.map Prod.snd = std140Offsets 0 uniformBlockDecl ∧
    std140End 0 uniformBlockDecl = 60 ∧
    alignUp (std140End 0 uniformBlockDecl) 16 = structSize uniformBufferObjectDecl := by
  refine ⟨by decide, by decide, by decide, by decide, by decide, by decide, by decide, by decide,
    by decide⟩

/-! ### The index step of `switchShader` -/

/-- C27: for every list size `n` with `1 ≤ n < 2^31`, index `i` with
`0 ≤ i < n` and delta -1 or +1, the step of line 384, computed with the `int`
operand converted to 64-bit unsigned arithmetic, yields the mathematical value
`(i + delta) mod n`; the result lies in `[0, n)`, is unchanged by the conversion
back to `int`, and names an element of every list of that size; from 0 a step
back gives `n - 1` and from `n - 1` a step forward gives 0. -/
theorem C27_index_step (n : Nat) (i delta : Int) (hn1 : 1 ≤ n) (hn : n < 2 ^ 31)
    (hi0 : 0 ≤ i) (hin : i < (n : Int)) (hδ : delta = -1 ∨ delta = 1) :
    nextShaderIndex i delta n = (i + delta) % (n : Int) ∧
    0 ≤ nextShaderIndex i delta n ∧ nextShaderIndex i delta n < (n : Int) ∧
    toInt32 (nextShaderIndex i delta n).toNat = nextShaderIndex i delta n ∧
    (∀ shaderList : List (List Char), shaderList.length = n →
      ∃ path, shaderList[(nextShaderIndex i delta n).toNat]? = some path ∧ path ∈ shaderList) ∧
    (i = 0 → delta = -1 → nextShaderIndex i delta n = (n : Int) - 1) ∧
    (i = (n : Int) - 1 → delta = 1 → nextShaderIndex i delta n = 0) := by
  have hmod := nextShaderIndex_eq_emod i delta n (by omega) hi0 hin (by tauto)
  have hrange := nextShaderIndex_range i delta n (by omega)
  refine ⟨hmod, hrange.1, hrange.2, ?_, ?_, ?_, ?_⟩
  · have hlt : (nextShaderIndex i delta n).toNat < 2 ^ 31 := by omega
    rw [toInt32_of_lt _ hlt]
    omega
  · intro shaderList hlen
    have hlt : (nextShaderIndex i delta n).toNat < shaderList.length := by omega
    exact ⟨shaderList[(nextShaderIndex i delta n).toNat], List.getElem?_eq_getElem hlt,
      List.getElem_mem hlt⟩
  · intro h0 hd
    rw [hmod, h0, hd]
    have h1 : ((0 : Int) + -1) % (n : Int) = ((n : Int) - 1) % (n : Int) := by
      rw [show ((n : Int) - 1) = (0 + -1) + (n : Int) by ring, Int.add_emod_self]
    rw [h1, Int.emod_eq_of_lt (by omega) (by omega)]
  · intro h0 hd
    rw [hmod, h0, hd]
    simp

/-- Witness for C27: a list of three shaders, a step back from index 0. -/
theorem C27_index_step_witness : nextShaderIndex 0 (-1) 3 = 2 :=
  ((C27_index_step 3 0 (-1) (by decide) (by decide) (by decide) (by decide)
    (Or.inl rfl)).2.2.2.2.2.1 rfl rfl).trans (by decide)

/-! ### A switch that finds no working shader -/

/-- A loop that ends without success has run all its iterations, each one
stepping the index. -/
theorem switchShaderLoop_exhausted (env : ShaderEnv) (delta : Int) (cur : List Char)
    (k : Nat) (s : ShaderState) (hfail : (switchShaderLoop env delta cur k s).2 = false) :
    (switchShaderLoop env delta cur k s).1.shaderList = s.shaderList ∧
    (switchShaderLoop env delta cur k s).1.currentShaderIndex =
      (fun j => nextShaderIndex j delta s.shaderList.length)^[k] s.currentShaderIndex := by
  induction k generalizing s with
  | zero => exact ⟨rfl, rfl⟩
  | succ k ih =>
    obtain ⟨sX, hl, hi, _, hcase⟩ := switchShaderLoop_succ_cases env delta cur k s
    rcases hcase with h | h
    · rw [h] at hfail ⊢
      obtain ⟨h1, h2⟩ := ih sX hfail
      refine ⟨h1.trans hl, ?_⟩
      rw [h2, hl, hi, Function.iterate_succ_apply]
    · rw [h] at hfail
      exact absurd hfail (by simp)

/-- C28: when `switchShader`, called with delta -1 or +1 on a list of size
`n` with `1 ≤ n < 2^31` and the index inside it, leaves its loop without
success, the loop has stepped the index exactly `n` times (skipped duplicates
included), so `currentShaderIndex` after the call equals its value before the
call, and `currentShaderPath` is `shaderList[currentShaderIndex]`. -/
theorem C28_exhausted_switch_keeps_index (env : ShaderEnv) (delta : Int) (s : ShaderState)
    (hne : s.shaderList ≠ []) (hlen : s.shaderList.length < 2 ^ 31)
    (hδ : delta = -1 ∨ delta = 1) (hi0 : 0 ≤ s.currentShaderIndex)
    (hin : s.currentShaderIndex < (s.shaderList.length : Int))
    (hfail : (switchShaderLoop env delta (getCompiledSpvPath s.currentShaderPath)
      s.shaderList.length s).2 = false) :
    (switchShader env delta s).shaderList = s.shaderList ∧
    (switchShader env delta s).currentShaderIndex =
      (fun j => nextShaderIndex j delta s.shaderList.length)^[s.shaderList.length]
        s.currentShaderIndex ∧
    (switchShader env delta s).currentShaderIndex = s.currentShaderIndex ∧
    (switchShader env delta s).currentShaderPath =
      s.shaderList.getD s.currentShaderIndex.toNat [] := by
  have hens := (ensureShaderList_fields env s).2 hne
  have hnotemp : s.shaderList.isEmpty = false := by
    cases hl : s.shaderList with
    | nil => exact absurd hl hne
    | cons x xs => rfl
  have hsw : switchShader env delta s =
      (switchShaderLoop env delta (getCompiledSpvPath s.currentShaderPath)
        s.shaderList.length s).1 := by
    unfold switchShader
    simp only [hens, hnotemp, Bool.false_eq_true, if_false]
  obtain ⟨hlist, hidx⟩ := switchShaderLoop_exhausted env delta
    (getCompiledSpvPath s.currentShaderPath) s.shaderList.length s hfail
  have hpos : (0 : Int) < (s.shaderList.length : Int) := by
    have := List.length_pos.mpr hne
    omega
  have hback : (fun j => nextShaderIndex j delta s.shaderList.length)^[s.shaderList.length]
      s.currentShaderIndex = s.currentShaderIndex := by
    rw [nextShaderIndex_iterate s.currentShaderIndex delta s.shaderList.length (by omega) hi0 hin
      (by tauto) s.shaderList.length]
    rw [Int.add_mul_emod_self_left]
    exact Int.emod_eq_of_lt hi0 hin
  have hsame : (switchShader env delta s).currentShaderIndex = s.currentShaderIndex := by
    rw [hsw, hidx, hback]
  refine ⟨by rw [hsw, hlist], by rw [hsw, hidx], hsame, ?_⟩
  obtain ⟨k, hk⟩ : ∃ k, s.shaderList.length = k + 1 :=
    ⟨s.shaderList.length - 1, by have := List.length_pos.mpr hne; omega⟩
  have hsync := switchShaderLoop_in_sync env delta (getCompiledSpvPath s.currentShaderPath) k s
  rw [← hk, ← hsw] at hsync
  rw [hsync, hsame, hsw, hlist]

/-- Witness for C28: the viewer started on the default shader with a list whose
only entry does not compile. -/
theorem C28_exhausted_switch_keeps_index_witness :
    (switchShader onlyExampleCompilesEnv 1 startedViewer).currentShaderIndex =
      startedViewer.currentShaderIndex ∧
    (switchShader onlyExampleCompilesEnv 1 startedViewer).currentShaderPath =
      "shaders/b.frag".toList := by
  have h := C28_exhausted_switch_keeps_index onlyExampleCompilesEnv 1 startedViewer
    (by decide) (by decide) (Or.inr rfl) (by decide) (by decide) (by decide)
  refine ⟨h.2.2.1, ?_⟩
  rw [h.2.2.2]
  decide

end Metalshade
